import Mathlib

/-!
# Stream resolution and ranking pipeline (`src/index.js`, `src/torrent-scraper.js`,
`src/omdb-client.js`)

A shallow embedding of the candidate ranker, the balancer, the fallback search driver of
the stream handler and the identifier resolver (`parseStreamId`, `parseWWEContent`,
`parseImdbIdFallback`, `formatForSearch`), followed by the properties proved about them.

JavaScript strings are modelled by `String`; every operation below works on the list of
characters. JavaScript numbers are modelled by `JSNum`: exact rationals together with
`NaN` and the two infinities (the rounding of IEEE doubles is not modelled).
-/

namespace Stream

/-! ## JavaScript strings -/

/-- Lower-case form of one character, as `String.prototype.toLowerCase` produces it.
ASCII capitals map to their small letter. Outside ASCII only the two characters
whose lower-case form has an ASCII letter are mapped (KELVIN SIGN to `k`, capital dotted I
to `i` followed by a combining dot); the other characters are kept, which no search for an
ASCII marker can tell apart from their real lower-case form. -/
def toLowerChar (c : Char) : List Char :=
  if c.toNat = 0x212A then ['k']
  else if c.toNat = 0x130 then ['i', Char.ofNat 0x307]
  else [c.toLower]

/-- `String.prototype.toLowerCase`. -/
def toLowerCase (s : String) : String :=
  ⟨s.data.flatMap toLowerChar⟩

/-- Substring search on character lists: does `m` occur in the second list. -/
def isInfixOf (m : List Char) : List Char → Bool
  | [] => m.isEmpty
  | c :: s => m.isPrefixOf (c :: s) || isInfixOf m s

/-- `String.prototype.includes`. -/
def includes (s m : String) : Bool :=
  isInfixOf m.data s.data

/-- White space and line terminators removed by `trim` and skipped by `parseFloat`. -/
def isJsWhitespace (c : Char) : Bool :=
  let n := c.toNat
  n = 0x9 || n = 0xA || n = 0xB || n = 0xC || n = 0xD || n = 0x20 || n = 0xA0 ||
  n = 0x1680 || (0x2000 ≤ n && n ≤ 0x200A) || n = 0x2028 || n = 0x2029 || n = 0x202F ||
  n = 0x205F || n = 0x3000 || n = 0xFEFF

/-- `String.prototype.trim`. -/
def trim (s : String) : String :=
  ⟨((s.data.dropWhile isJsWhitespace).reverse.dropWhile isJsWhitespace).reverse⟩

/-! ## JavaScript numbers -/

/-- A JavaScript number: `NaN`, an infinity, or a finite value (kept exact). -/
inductive JSNum where
  | nan : JSNum
  | ninf : JSNum
  | fin : ℚ → JSNum
  | pinf : JSNum
deriving DecidableEq

namespace JSNum

/-- Numeric subtraction `a - b`. -/
def sub : JSNum → JSNum → JSNum
  | nan, _ => nan
  | _, nan => nan
  | fin x, fin y => fin (x - y)
  | fin _, pinf => ninf
  | fin _, ninf => pinf
  | pinf, pinf => nan
  | pinf, _ => pinf
  | ninf, ninf => nan
  | ninf, _ => ninf

/-- Multiplication by a positive finite constant `c`, as in `size * 1024`. -/
def mulPos (a : JSNum) (c : ℚ) : JSNum :=
  match a with
  | nan => nan
  | ninf => ninf
  | fin x => fin (x * c)
  | pinf => pinf

/-- Sign of a number, with `NaN` read as `+0` the way `Array.prototype.sort` reads the
value returned by its comparator: `-1`, `0` or `1`. -/
def sign : JSNum → Int
  | nan => 0
  | ninf => -1
  | fin x => if x < 0 then -1 else if 0 < x then 1 else 0
  | pinf => 1

/-- The number is neither `NaN` nor infinite. -/
def isFinite : JSNum → Bool
  | fin _ => true
  | _ => false

/-- The number is not `NaN`. -/
def isNumber : JSNum → Bool
  | nan => false
  | _ => true

/-- Strict order of numbers, `a < b`; false when either side is `NaN`. -/
def lt : JSNum → JSNum → Bool
  | nan, _ => false
  | _, nan => false
  | ninf, ninf => false
  | ninf, _ => true
  | fin _, ninf => false
  | fin x, fin y => decide (x < y)
  | fin _, pinf => true
  | pinf, _ => false

/-- Weak order of numbers, `a ≤ b`; false when either side is `NaN`. -/
def le : JSNum → JSNum → Bool
  | nan, _ => false
  | _, nan => false
  | ninf, _ => true
  | fin _, ninf => false
  | fin x, fin y => decide (x ≤ y)
  | fin _, pinf => true
  | pinf, pinf => true
  | pinf, _ => false

end JSNum

/-- Value of a run of decimal digits. -/
def natOfDigits (ds : List Char) : Nat :=
  ds.foldl (fun acc c => 10 * acc + (c.toNat - 48)) 0

/-- The exponent part of a decimal literal: `e` or `E`, an optional sign and at least one
digit. Anything else is not an exponent part and counts as exponent `0`. -/
def parseExponent : List Char → Int
  | c :: rest =>
    if c = 'e' ∨ c = 'E' then
      match rest with
      | '-' :: r =>
        let ds := r.takeWhile Char.isDigit
        if ds.isEmpty then 0 else -(natOfDigits ds : Int)
      | '+' :: r =>
        let ds := r.takeWhile Char.isDigit
        if ds.isEmpty then 0 else (natOfDigits ds : Int)
      | r =>
        let ds := r.takeWhile Char.isDigit
        if ds.isEmpty then 0 else (natOfDigits ds : Int)
    else 0
  | [] => 0

/-- The unsigned part of `parseFloat`: `Infinity`, or the longest prefix of the form
digits, optional fraction, optional exponent. No such prefix gives `NaN`. -/
def parseUnsigned (s : List Char) : JSNum :=
  if "Infinity".data.isPrefixOf s then JSNum.pinf
  else
    let ip := s.takeWhile Char.isDigit
    let r1 := s.dropWhile Char.isDigit
    match r1 with
    | '.' :: r =>
      let fp := r.takeWhile Char.isDigit
      let r2 := r.dropWhile Char.isDigit
      if ip.isEmpty && fp.isEmpty then JSNum.nan
      else JSNum.fin
        (((natOfDigits ip : ℚ) + (natOfDigits fp : ℚ) / (10 : ℚ) ^ fp.length)
          * (10 : ℚ) ^ parseExponent r2)
    | _ =>
      if ip.isEmpty then JSNum.nan
      else JSNum.fin ((natOfDigits ip : ℚ) * (10 : ℚ) ^ parseExponent r1)

/-- Negation of a number. -/
def JSNum.neg : JSNum → JSNum
  | JSNum.nan => JSNum.nan
  | JSNum.ninf => JSNum.pinf
  | JSNum.fin x => JSNum.fin (-x)
  | JSNum.pinf => JSNum.ninf

/-- The global `parseFloat`: leading white space is skipped, then the longest prefix that
is a signed decimal literal is read; `NaN` when there is none. -/
def parseFloat (s : String) : JSNum :=
  match s.data.dropWhile isJsWhitespace with
  | '-' :: r => (parseUnsigned r).neg
  | '+' :: r => parseUnsigned r
  | r => parseUnsigned r

/-! ## Candidates -/

/-- A torrent record as `parseTorrentRow` and `getTorrentInfo` build it. -/
structure Torrent where
  title : String
  detailUrl : String
  seeders : Int
  leechers : Int
  size : String
  uploader : String
  quality : String
  score : Int
  magnet : Option String
deriving DecidableEq

/-- `getResolutionScore` of `src/index.js`. -/
def getResolutionScore (torrent : Torrent) : Nat :=
  let title := toLowerCase torrent.title
  let quality := toLowerCase torrent.quality
  if includes title "4k" || includes title "2160p" || includes quality "2160p" then 6
  else if includes title "1440p" || includes quality "1440p" then 5
  else if includes title "1080p" || includes quality "1080p" || includes quality "fhd" then 4
  else if includes title "720p" || includes quality "720p" || includes quality "hd" then 3
  else if includes title "480p" || includes quality "480p" then 2
  else 1

/-- `getResolutionLabel` of `src/index.js`. -/
def getResolutionLabel (torrent : Torrent) : String :=
  let title := toLowerCase torrent.title
  let quality := toLowerCase torrent.quality
  if includes title "4k" || includes title "2160p" || includes quality "2160p" then "4K/2160p"
  else if includes title "1440p" || includes quality "1440p" then "1440p"
  else if includes title "1080p" || includes quality "1080p" || includes quality "fhd" then "1080p"
  else if includes title "720p" || includes quality "720p" || includes quality "hd" then "720p"
  else if includes title "480p" || includes quality "480p" then "480p"
  else "SD/Other"

/-- `getResolutionScoreFromLabel` of `src/index.js`. -/
def getResolutionScoreFromLabel (label : String) : Nat :=
  if label = "4K/2160p" then 6
  else if label = "1440p" then 5
  else if label = "1080p" then 4
  else if label = "720p" then 3
  else if label = "480p" then 2
  else 1

/-! ## Ranking (the comparator of the stream handler) -/

/-- The stream handler orders candidates with `Array.prototype.sort`, which belongs to
the JavaScript runtime. It is modelled by a stable insertion sort that places `a` before
`b` whenever the comparator's value for `(a, b)` is negative or zero (`NaN` counts as
zero): for a consistent comparator this is the one order ECMAScript allows. When the
comparator is not consistent (a size text that parses to `NaN`) ECMAScript leaves the order
to the implementation and this list is only one of the possible results, so what is stated
about the place of candidates of equal score carries the hypothesis that the sizes parse. -/
def jsSort {α : Type} (comparefn : α → α → JSNum) (l : List α) : List α :=
  l.insertionSort (fun a b => (comparefn a b).sign ≤ 0)

/-- The helper `getResolutionScore` declared inside the sort comparator
(`src/index.js`, lines 174-185). -/
def Comparator.getResolutionScore (torrent : Torrent) : Nat :=
  let title := toLowerCase torrent.title
  let quality := toLowerCase torrent.quality
  if includes title "4k" || includes title "2160p" || includes quality "2160p" then 6
  else if includes title "1440p" || includes quality "1440p" then 5
  else if includes title "1080p" || includes quality "1080p" || includes quality "fhd" then 4
  else if includes title "720p" || includes quality "720p" || includes quality "hd" then 3
  else if includes title "480p" || includes quality "480p" then 2
  else 1

/-- The helper `parseSize` declared inside the sort comparator; `none` stands for an
absent (`undefined` or `null`) size text. -/
def parseSize (sizeStr : Option String) : JSNum :=
  match sizeStr with
  | none => JSNum.fin 0
  | some s =>
    if s.data.isEmpty then JSNum.fin 0
    else
      let size := parseFloat s
      if includes (toLowerCase s) "gb" then size.mulPos 1024
      else if includes (toLowerCase s) "mb" then size
      else size

/-- The comparator handed to `torrents.sort` (`src/index.js`, lines 163-212). -/
def compareTorrents (a b : Torrent) : JSNum :=
  let aResolution := Comparator.getResolutionScore a
  let bResolution := Comparator.getResolutionScore b
  if aResolution ≠ bResolution then JSNum.fin ((bResolution : ℚ) - (aResolution : ℚ))
  else if a.seeders ≠ b.seeders then JSNum.fin ((b.seeders : ℚ) - (a.seeders : ℚ))
  else
    let aSize := parseSize (some a.size)
    let bSize := parseSize (some b.size)
    bSize.sub aSize

/-- The ranked list `sortedTorrents`. -/
def sortTorrents (torrents : List Torrent) : List Torrent :=
  jsSort compareTorrents torrents

/-! ## Balancing -/

/-- One step of the grouping loop: `resolutionGroups[key].push(torrent)`, creating the
group at the end of the object's keys when the key is new. The object is kept as the list
of its properties in insertion order. -/
def pushToGroup (key : String) (torrent : Torrent) :
    List (String × List Torrent) → List (String × List Torrent)
  | [] => [(key, [torrent])]
  | (k, ts) :: rest =>
    if k = key then (k, ts ++ [torrent]) :: rest
    else (k, ts) :: pushToGroup key torrent rest

/-- The object `resolutionGroups` after the grouping loop. -/
def groupByResolution (torrents : List Torrent) : List (String × List Torrent) :=
  torrents.foldl (fun groups torrent => pushToGroup (getResolutionLabel torrent) torrent groups) []

/-- The array `sortedResolutionKeys`. -/
def sortResolutionKeys (keys : List String) : List String :=
  jsSort (fun a b => JSNum.fin ((getResolutionScoreFromLabel b : ℚ)
    - (getResolutionScoreFromLabel a : ℚ))) keys

/-- `balanceStreamsByResolution` of `src/index.js`; the cap is a count, so `slice(0, cap)`
keeps the first `cap` elements. A key read from the object always has its group; the empty
default is never used. -/
def balanceStreamsByResolution (torrents : List Torrent) (maxPerResolution : Nat := 3) :
    List Torrent :=
  let resolutionGroups := groupByResolution torrents
  let sortedResolutionKeys := sortResolutionKeys (resolutionGroups.map Prod.fst)
  sortedResolutionKeys.flatMap fun resolutionKey =>
    let torrentsInResolution := (resolutionGroups.lookup resolutionKey).getD []
    torrentsInResolution.take maxPerResolution

/-! ## The search collaborator (`src/torrent-scraper.js`) -/

/-- The network-facing parts of `TorrentScraper`. `fetchRows query category` is the body
of the `try` block of `searchTorrents` (request of the result page and parsing of its
rows), which may throw; `getMagnetLink` catches every error itself and answers `null`. -/
structure Network where
  fetchRows : String → String → Except String (List Torrent)
  getMagnetLink : String → Option String

/-- `String.prototype.padStart(2, '0')`. -/
def padStart2 (s : String) : String :=
  ⟨List.replicate (2 - s.data.length) '0' ++ s.data⟩

/-- `searchTorrents`: an error thrown while fetching or parsing is caught and gives `[]`. -/
def searchTorrents (net : Network) (query : String) (category : String := "") : List Torrent :=
  match net.fetchRows query category with
  | Except.ok torrents => torrents
  | Except.error _ => []

/-- The query `searchMovies` searches for; a year that is `null`, `NaN` or `0` is falsy. -/
def movieQuery (query : String) (year : Option Int) : String :=
  match year with
  | some y => if y ≠ 0 then query ++ " " ++ toString y else query
  | none => query

/-- `searchMovies`. -/
def searchMovies (net : Network) (query : String) (year : Option Int) : List Torrent :=
  searchTorrents net (movieQuery query year) "Movies"

/-- The query `searchTVShows` searches for. -/
def tvQuery (query : String) (season episode : Option Int) : String :=
  match season, episode with
  | some s, some e =>
    if s ≠ 0 ∧ e ≠ 0 then
      query ++ " S" ++ padStart2 (toString s) ++ "E" ++ padStart2 (toString e)
    else if s ≠ 0 then query ++ " Season " ++ toString s
    else query
  | some s, none => if s ≠ 0 then query ++ " Season " ++ toString s else query
  | none, _ => query

/-- `searchTVShows`. -/
def searchTVShows (net : Network) (query : String) (season episode : Option Int) :
    List Torrent :=
  searchTorrents net (tvQuery query season episode) "TV"

/-- `getTorrentInfo`: the record with its magnet link added. -/
def getTorrentInfo (net : Network) (torrent : Torrent) : Torrent :=
  { torrent with magnet := net.getMagnetLink torrent.detailUrl }

/-- Truthiness of a value that is a string or `null`. -/
def truthy (s : Option String) : Bool :=
  match s with
  | some v => !v.data.isEmpty
  | none => false

/-- The request `searchAndGetComplete` makes for a query: the text searched for and the
category, chosen by the content type. -/
def searchRequest (query type : String) (year season episode : Option Int) : String × String :=
  if type = "movie" then (movieQuery query year, "Movies")
  else if type = "series" then (tvQuery query season episode, "TV")
  else (query, "")

/-- `searchAndGetComplete`: search by content type, order by score (best first), resolve
the magnet link of the first ten and keep those that have one. -/
def searchAndGetComplete (net : Network) (query type : String)
    (year season episode : Option Int) : List Torrent :=
  let torrents :=
    if type = "movie" then searchMovies net query year
    else if type = "series" then searchTVShows net query season episode
    else searchTorrents net query
  let sorted := jsSort (fun a b => JSNum.fin ((b.score : ℚ) - (a.score : ℚ))) torrents
  ((sorted.take 10).map (getTorrentInfo net)).filter fun t => truthy t.magnet

/-! ## The fallback search driver (the stream handler of `src/index.js`) -/

/-- A word character of a regular expression (`\w`). -/
def isWordChar (c : Char) : Bool :=
  c.isAlphanum || c = '_'

/-- Is the text at a word boundary on its left: its first character, if any, is not a
word character. -/
def boundaryAhead : List Char → Bool
  | [] => true
  | c :: _ => !isWordChar c

/-- `replace(/\b(2024|2025)\b/g, '')` on a character list. `skip` counts the characters
of the current match still to drop, `prevWord` tells whether the previous character is a
word character. -/
def removeYearsAux : Nat → Bool → List Char → List Char
  | _, _, [] => []
  | skip + 1, _, c :: rest => removeYearsAux skip (isWordChar c) rest
  | 0, prevWord, c :: rest =>
    if !prevWord && ("2024".data.isPrefixOf (c :: rest) || "2025".data.isPrefixOf (c :: rest))
        && boundaryAhead (rest.drop 3) then
      removeYearsAux 3 true rest
    else c :: removeYearsAux 0 (isWordChar c) rest

/-- `replace(/\b(2024|2025)\b/g, '')`. -/
def removeYears (s : String) : String :=
  ⟨removeYearsAux 0 false s.data⟩

/-- Does the list start with `WWE`, letter case ignored. -/
def startsWithWWE : List Char → Bool
  | a :: b :: c :: _ =>
    (a = 'W' || a = 'w') && (b = 'W' || b = 'w') && (c = 'E' || c = 'e')
  | _ => false

/-- `replace(/\bWWE\s*/i, '')` on a character list: only the first match is removed. -/
def removeWWEAux : Bool → List Char → List Char
  | _, [] => []
  | prevWord, c :: rest =>
    if !prevWord && startsWithWWE (c :: rest) then (rest.drop 2).dropWhile isJsWhitespace
    else c :: removeWWEAux (isWordChar c) rest

/-- `replace(/\bWWE\s*/i, '')`. -/
def removeWWE (s : String) : String :=
  ⟨removeWWEAux false s.data⟩

/-- `replace(/XL/g, '40')` on a character list. -/
def replaceXLAux : List Char → List Char
  | 'X' :: 'L' :: rest => '4' :: '0' :: replaceXLAux rest
  | c :: rest => c :: replaceXLAux rest
  | [] => []

/-- `replace(/40/g, 'XL')` on a character list. -/
def replace40Aux : List Char → List Char
  | '4' :: '0' :: rest => 'X' :: 'L' :: replace40Aux rest
  | c :: rest => c :: replace40Aux rest
  | [] => []

/-- What the handler reads from the result of `parseStreamId`. An absent, `null` or
`undefined` property is `none` (for the two flags: `false`); for the three numbers `none`
also stands for `NaN`, which is as falsy as `null`. -/
structure ParseResult where
  searchQuery : Option String
  year : Option Int := none
  season : Option Int := none
  episode : Option Int := none
  searchVariations : Option (List String) := none
  isWWE : Bool := false
  isTV : Bool := false

/-- The flag `isWWEContent` of the handler. -/
def isWWEContent (isWWE : Bool) (searchQuery : String) : Bool :=
  let q := toLowerCase searchQuery
  isWWE || includes q "wwe" || includes q "wrestlemania" || includes q "royal rumble" ||
    includes q "clash" || includes q "raw" || includes q "smackdown"

/-- The array `variations` of the sports branch once every `push` is done
(`src/index.js`, lines 70-95). -/
def wweVariations (searchQuery : String) (searchVariations : Option (List String)) :
    List String :=
  let variations := match searchVariations with
    | some vs => vs
    | none => [searchQuery, trim (removeYears searchQuery), trim (removeWWE searchQuery)]
  let variations :=
    if includes (toLowerCase searchQuery) "wrestlemania" then
      let variations :=
        if includes searchQuery "XL" then variations ++ [⟨replaceXLAux searchQuery.data⟩]
        else variations
      let variations :=
        if includes searchQuery "40" then variations ++ [⟨replace40Aux searchQuery.data⟩]
        else variations
      variations ++ ["WrestleMania 40", "WrestleMania XL"]
    else variations
  if includes (toLowerCase searchQuery) "clash" then
    let variations := variations ++ ["WWE Clash"]
    if includes searchQuery "Paris" then variations ++ ["Clash in Paris"] else variations
  else variations

/-- `[...new Set(variations)]`: each value is kept at its first occurrence. -/
def uniqueVariations (variations : List String) : List String :=
  variations.foldl (fun seen v => if v ∈ seen then seen else seen ++ [v]) []

/-- The loop over the variations (`src/index.js`, lines 101-118 and 126-143): blank
variations are skipped, the first non-empty search result is kept and ends the loop. -/
def tryVariations (search : String → List Torrent) : List String → List Torrent
  | [] => []
  | variation :: rest =>
    if !(trim variation).data.isEmpty then
      let variationTorrents := search variation
      if variationTorrents.length > 0 then variationTorrents
      else tryVariations search rest
    else tryVariations search rest

/-- The candidate list `torrents` the handler hands to ranking (`src/index.js`, lines
55-153), for a non-empty `searchQuery`. `search` is the search collaborator applied to the
content type, year, season and episode of the request. -/
def findTorrents (search : String → List Torrent) (type : String) (p : ParseResult)
    (searchQuery : String) : List Torrent :=
  let isTVContent := p.isTV || type = "series"
  if isWWEContent p.isWWE searchQuery then
    tryVariations search (uniqueVariations (wweVariations searchQuery p.searchVariations))
  else if isTVContent && p.searchVariations.isSome then
    tryVariations search (uniqueVariations (p.searchVariations.getD []))
  else search searchQuery

/-- A stream as the handler returns it. -/
structure StreamRecord where
  name : String
  title : String
  url : String
deriving DecidableEq

/-- The stream handler from the result of `parseStreamId` on (`src/index.js`, lines
45-240; the result cache is left out). `createStream` stands for `createStreamFromTorrent`,
which answers a stream, `null`, or throws; an error thrown anywhere makes the handler
answer the empty list. -/
def handleParsed (createStream : Torrent → Except String (Option StreamRecord))
    (net : Network) (type : String) (p : ParseResult) : List StreamRecord :=
  match p.searchQuery with
  | none => []
  | some searchQuery =>
    if searchQuery.data.isEmpty then []
    else
      let torrents := findTorrents
        (fun q => searchAndGetComplete net q type p.year p.season p.episode) type p searchQuery
      if torrents.length = 0 then []
      else
        let sortedTorrents := sortTorrents torrents
        let balancedTorrents := balanceStreamsByResolution sortedTorrents 3
        match balancedTorrents.mapM createStream with
        | Except.ok streams => streams.filterMap id
        | Except.error _ => []

/-- The ranking key of a candidate: resolution score, seeder count, parsed size (MB). -/
def rankKey (t : Torrent) : Nat × Int × JSNum :=
  (getResolutionScore t, t.seeders, parseSize (some t.size))

/-- Lexicographic comparison of ranking keys, `key a ≥ key b`: the resolution score decides
first, the seeder count second, the parsed size third. -/
def rankKeyGe (a b : Torrent) : Bool :=
  decide (getResolutionScore b < getResolutionScore a) ||
    (decide (getResolutionScore a = getResolutionScore b) &&
      (decide (b.seeders < a.seeders) ||
        (decide (a.seeders = b.seeders) &&
          JSNum.le (parseSize (some b.size)) (parseSize (some a.size)))))

/-- Does the title or the quality tag of the candidate contain the marker, letter case
ignored (the marker is given in lower case). -/
def eitherContains (t : Torrent) (marker : String) : Bool :=
  includes (toLowerCase t.title) marker || includes (toLowerCase t.quality) marker

/-- The resolution score as the specification words it: every marker is looked for in both
the title and the quality tag. -/
def specResolutionScore (t : Torrent) : Nat :=
  if eitherContains t "2160p" || eitherContains t "4k" then 6
  else if eitherContains t "1440p" then 5
  else if eitherContains t "1080p" || eitherContains t "fhd" then 4
  else if eitherContains t "720p" || eitherContains t "hd" then 3
  else if eitherContains t "480p" then 2
  else 1

/-- The only resolution marker of the candidate, in title and quality tag, is `720p`. -/
def only720p (t : Torrent) : Bool :=
  eitherContains t "720p" && !eitherContains t "2160p" && !eitherContains t "4k" &&
    !eitherContains t "1440p" && !eitherContains t "1080p" && !eitherContains t "fhd" &&
    !eitherContains t "480p"

/-- The text of a decimal number: the digits of the integer part, then, if there are
fraction digits, a point and the fraction digits. -/
def decimalText (ip fp : List Char) : List Char :=
  if fp.isEmpty then ip else ip ++ '.' :: fp

/-- The number a decimal text denotes. -/
def decimalValue (ip fp : List Char) : ℚ :=
  (natOfDigits ip : ℚ) + (natOfDigits fp : ℚ) / (10 : ℚ) ^ fp.length

/-- The character is no white space, no sign, not the first letter of `Infinity`, no point
and no `g`, and is its own lower-case form: true of every decimal digit. -/
def plainChar (c : Char) : Bool :=
  !isJsWhitespace c && c != '-' && c != '+' && c != 'I' && c != '.' && c != 'g' &&
    toLowerChar c == [c]

/-- Does the variation count as a hit: it is not blank and its search result is not
empty. -/
def isHit (search : String → List Torrent) (variation : String) : Bool :=
  !(trim variation).data.isEmpty && !(search variation).isEmpty

/-- The candidate list as the specification words it: the search result of the first
variation, in list order, that is not blank and has a non-empty result; the empty list when
there is none. -/
def firstHit (search : String → List Torrent) (variations : List String) : List Torrent :=
  match variations.find? (isHit search) with
  | some variation => search variation
  | none => []

/-- A network on which every request fails. -/
def downNetwork : Network :=
  ⟨fun _ _ => Except.error "HTTP 503: Service Unavailable", fun _ => none⟩

/-- A parse result of a series episode with two variations. -/
def sampleSeries : ParseResult :=
  { searchQuery := some "Dark S01E02",
    season := some 1,
    episode := some 2,
    searchVariations := some ["Dark S01E02", "Dark"],
    isTV := true }

/-- A search result row. -/
def sampleRow : Torrent :=
  ⟨"Raw 2024 03 11 720p", "/torrent/77/raw/", 40, 5, "1.9 GB", "up", "720p", 285, none⟩

/-- A network on which the request for `WWE Raw 2024` fails and the request for `Raw 2024`
finds one row. -/
def flakyNetwork : Network :=
  ⟨fun query _ =>
      if query = "WWE Raw 2024" then Except.error "HTTP 503: Service Unavailable"
      else if query = "Raw 2024" then Except.ok [sampleRow]
      else Except.ok [],
    fun _ => some "magnet:?xt=urn:btih:77"⟩

/-- The labels `getResolutionLabel` can return, best first. -/
def allLabels : List String :=
  ["4K/2160p", "1440p", "1080p", "720p", "480p", "SD/Other"]

/-! ## Identifier parsing: helpers -/

/-- `String.prototype.startsWith`. -/
def startsWith (s pre : String) : Bool :=
  pre.data.isPrefixOf s.data

/-- `String.prototype.split(':')` on a character list. -/
def splitColonAux : List Char → List (List Char)
  | [] => [[]]
  | c :: rest =>
    match splitColonAux rest with
    | [] => [[]]
    | part :: parts => if c = ':' then [] :: part :: parts else (c :: part) :: parts

/-- `String.prototype.split(':')`. -/
def splitColon (s : String) : List String :=
  (splitColonAux s.data).map String.mk

/-- `replace(/[._-]/g, ' ')`. -/
def replaceSeparators (s : String) : String :=
  ⟨s.data.map fun c => if c = '.' ∨ c = '_' ∨ c = '-' then ' ' else c⟩

/-- An integer-valued JavaScript number as `parseInt` gives it: an integer or `NaN`. -/
inductive JSInt where
  | nan : JSInt
  | int : Int → JSInt
deriving DecidableEq

/-- Truthiness of a number: `NaN` and `0` are falsy. -/
def JSInt.truthy : JSInt → Bool
  | JSInt.nan => false
  | JSInt.int n => n != 0

/-- `Number.prototype.toString` (and the text a template literal inserts). -/
def JSInt.toString : JSInt → String
  | JSInt.nan => "NaN"
  | JSInt.int n => ToString.toString n

/-- The text a template literal inserts for a number or `null`. -/
def templateText : Option JSInt → String
  | none => "null"
  | some n => n.toString

/-- Truthiness of a number or `null`. -/
def truthyNum : Option JSInt → Bool
  | none => false
  | some n => n.truthy

/-- Value of a hexadecimal digit, if the character is one. -/
def hexDigitValue (c : Char) : Option Nat :=
  if c.isDigit then some (c.toNat - 48)
  else if 'a'.toNat ≤ c.toNat ∧ c.toNat ≤ 'f'.toNat then some (c.toNat - 87)
  else if 'A'.toNat ≤ c.toNat ∧ c.toNat ≤ 'F'.toNat then some (c.toNat - 55)
  else none

/-- Value of a run of hexadecimal digits. -/
def natOfHexDigits (ds : List Char) : Nat :=
  ds.foldl (fun acc c => 16 * acc + (hexDigitValue c).getD 0) 0

/-- The unsigned part of `parseInt` without a radix argument: after `0x` or `0X` the
longest run of hexadecimal digits, otherwise the longest run of decimal digits; `none`
(for `NaN`) when the run is empty. -/
def parseIntUnsigned (s : List Char) : Option Nat :=
  match s with
  | '0' :: 'x' :: r | '0' :: 'X' :: r =>
    let ds := r.takeWhile fun c => (hexDigitValue c).isSome
    if ds.isEmpty then none else some (natOfHexDigits ds)
  | _ =>
    let ds := s.takeWhile Char.isDigit
    if ds.isEmpty then none else some (natOfDigits ds)

/-- The global `parseInt` applied to a string (integers are kept exact). -/
def parseInt (s : String) : JSInt :=
  match s.data.dropWhile isJsWhitespace with
  | '-' :: r =>
    match parseIntUnsigned r with
    | some n => JSInt.int (-(n : Int))
    | none => JSInt.nan
  | '+' :: r =>
    match parseIntUnsigned r with
    | some n => JSInt.int n
    | none => JSInt.nan
  | r =>
    match parseIntUnsigned r with
    | some n => JSInt.int n
    | none => JSInt.nan

/-- `parseInt` applied to a number: the number itself for an integer or `NaN`. -/
def parseIntOfNum (n : JSInt) : JSInt := n

/-- Equality of two characters under the `i` flag of a regular expression: ASCII letters
match in either case, every other character only itself. -/
def eqIgnoreCase (a b : Char) : Bool :=
  a.toLower == b.toLower

/-- Does the text start with the word, letter case ignored. -/
def isPrefixIgnoreCase : List Char → List Char → Bool
  | [], _ => true
  | _ :: _, [] => false
  | a :: as, b :: bs => eqIgnoreCase a b && isPrefixIgnoreCase as bs

/-- `replace(/\s+/g, r)` on a character list: every run of white space becomes the one
character `r`. `inRun` tells whether the previous character was white space. -/
def replaceSpaceRunsAux (r : Char) : Bool → List Char → List Char
  | _, [] => []
  | inRun, c :: rest =>
    if isJsWhitespace c then
      if inRun then replaceSpaceRunsAux r true rest else r :: replaceSpaceRunsAux r true rest
    else c :: replaceSpaceRunsAux r false rest

/-- `replace(/\s+/g, ' ')` for `r = ' '`, `replace(/\s+/g, '.')` for `r = '.'`. -/
def replaceSpaceRuns (r : Char) (s : String) : String :=
  ⟨replaceSpaceRunsAux r false s.data⟩

/-- The word of `kickoff|press|event` that stands at the head of the text as a whole word
(letter case ignored), as its length; the caller has checked the boundary before it. -/
def extraWordLength (s : List Char) : Option Nat :=
  if isPrefixIgnoreCase "kickoff".data s && boundaryAhead (s.drop 7) then some 7
  else if isPrefixIgnoreCase "press".data s && boundaryAhead (s.drop 5) then some 5
  else if isPrefixIgnoreCase "event".data s && boundaryAhead (s.drop 5) then some 5
  else none

/-- `replace(/\b(kickoff|press|event)\b/gi, '')` on a character list; `skip` counts the
characters of the current match still to drop. -/
def removeExtraWordsAux : Nat → Bool → List Char → List Char
  | _, _, [] => []
  | skip + 1, _, c :: rest => removeExtraWordsAux skip (isWordChar c) rest
  | 0, prevWord, c :: rest =>
    if prevWord then c :: removeExtraWordsAux 0 (isWordChar c) rest
    else
      match extraWordLength (c :: rest) with
      | some n => removeExtraWordsAux (n - 1) true rest
      | none => c :: removeExtraWordsAux 0 (isWordChar c) rest

/-- `replace(/\b(kickoff|press|event)\b/gi, '')`. -/
def removeExtraWords (s : String) : String :=
  ⟨removeExtraWordsAux 0 false s.data⟩

/-- `replace(/\bXL\b/g, '40')` on a character list. -/
def replaceWordXLAux : Nat → Bool → List Char → List Char
  | _, _, [] => []
  | skip + 1, _, c :: rest => replaceWordXLAux skip (isWordChar c) rest
  | 0, prevWord, c :: rest =>
    if !prevWord && "XL".data.isPrefixOf (c :: rest) && boundaryAhead (rest.drop 1) then
      '4' :: '0' :: replaceWordXLAux 1 true rest
    else c :: replaceWordXLAux 0 (isWordChar c) rest

/-- `replace(/\bXL\b/g, '40')`. -/
def replaceWordXL (s : String) : String :=
  ⟨replaceWordXLAux 0 false s.data⟩

/-- `replace(/^WWE\s*/i, '')`. -/
def removeLeadingWWE (s : String) : String :=
  if startsWithWWE s.data then ⟨(s.data.drop 3).dropWhile isJsWhitespace⟩ else s

/-- `replace(/[^\w\s-]/g, '')`: only word characters, white space and `-` are kept. -/
def removeSpecialChars (s : String) : String :=
  ⟨s.data.filter fun c => isWordChar c || isJsWhitespace c || c == '-'⟩

/-- Does a year of the form `20dd` start the text. -/
def yearAtHead : List Char → Bool
  | '2' :: '0' :: a :: b :: _ => a.isDigit && b.isDigit
  | _ => false

/-- `input.match(/20\d{2}/)`: the leftmost text of the form `20dd`, if any. -/
def matchYear20Aux : List Char → Option (List Char)
  | [] => none
  | c :: rest => if yearAtHead (c :: rest) then some ((c :: rest).take 4) else matchYear20Aux rest

/-- `input.match(/20\d{2}/)`. -/
def matchYear20 (s : String) : Option String :=
  (matchYear20Aux s.data).map String.mk

/-- Do four digits start the text. -/
def fourDigitsAtHead : List Char → Bool
  | a :: b :: c :: d :: _ => a.isDigit && b.isDigit && c.isDigit && d.isDigit
  | _ => false

/-- `title.match(/(\d{4})/)`: the leftmost run of four digits, if any. -/
def matchFourDigitsAux : List Char → Option (List Char)
  | [] => none
  | c :: rest =>
    if fourDigitsAtHead (c :: rest) then some ((c :: rest).take 4) else matchFourDigitsAux rest

/-- `title.replace(/\d{4}/, '')`: the leftmost run of four digits is removed. -/
def removeFourDigitsAux : List Char → List Char
  | [] => []
  | c :: rest =>
    if fourDigitsAtHead (c :: rest) then rest.drop 3 else c :: removeFourDigitsAux rest

/-- `part.match(/^\d{4}$/)`: the text is exactly four digits. -/
def isFourDigits (s : String) : Bool :=
  s.data.length == 4 && s.data.all Char.isDigit

/-- `String.prototype.replace` with a string pattern: the first occurrence is removed. An
empty pattern occurs at the start and removes nothing. -/
def removeFirstAux (pat : List Char) : List Char → List Char
  | [] => []
  | c :: rest =>
    if pat.isPrefixOf (c :: rest) then (c :: rest).drop pat.length
    else c :: removeFirstAux pat rest

/-- `s.replace(pat, '')` for a string `pat`. -/
def removeFirst (s pat : String) : String :=
  ⟨removeFirstAux pat.data s.data⟩

/-- The length of an identifier token `tt` followed by digits that stands at the head of
the text and ends at a word boundary. -/
def imdbTokenLength (s : List Char) : Option Nat :=
  match s with
  | 't' :: 't' :: r =>
    let ds := r.takeWhile Char.isDigit
    if !ds.isEmpty && boundaryAhead (r.drop ds.length) then some (2 + ds.length) else none
  | _ => none

/-- `replace(/\b(tt\d+)\b/g, '')` on a character list. -/
def removeImdbIdsAux : Nat → Bool → List Char → List Char
  | _, _, [] => []
  | skip + 1, _, c :: rest => removeImdbIdsAux skip (isWordChar c) rest
  | 0, prevWord, c :: rest =>
    if prevWord then c :: removeImdbIdsAux 0 (isWordChar c) rest
    else
      match imdbTokenLength (c :: rest) with
      | some n => removeImdbIdsAux (n - 1) true rest
      | none => c :: removeImdbIdsAux 0 (isWordChar c) rest

/-- `replace(/\b(tt\d+)\b/g, '')`. -/
def removeImdbIds (s : String) : String :=
  ⟨removeImdbIdsAux 0 false s.data⟩

/-- `/[^\x00-\x7F]/.test(s)`: some character lies outside ASCII. -/
def hasNonAscii (s : String) : Bool :=
  s.data.any fun c => c.toNat > 127

/-! ## Sports patterns (`parseWWEContent`) -/

/-- A character the `.` of a regular expression does not match. -/
def isLineTerminator (c : Char) : Bool :=
  c = '\n' || c = '\r' || c.toNat = 0x2028 || c.toNat = 0x2029

/-- One part of a pattern of the table: a word (matched with letter case ignored) or
`\d+`. The parts of a pattern are joined by `.*`. -/
inductive PatternPart where
  | word : String → PatternPart
  | digits : PatternPart
deriving DecidableEq

/-- Does the part match at the head of the text; the answer is the text after the match.
For `\d+` one digit is consumed: whatever follows it in a pattern is preceded by `.*`,
which takes the further digits. -/
def PatternPart.matchHead (p : PatternPart) (s : List Char) : Option (List Char) :=
  match p with
  | PatternPart.word w => if isPrefixIgnoreCase w.data s then some (s.drop w.data.length) else none
  | PatternPart.digits =>
    match s with
    | c :: rest => if c.isDigit then some rest else none
    | [] => none

/-- Does `.*` followed by the part and by what `k` checks match at the head of the text:
the part stands after zero or more characters, none of them a line terminator. -/
def scanGap (p : PatternPart) (k : List Char → Bool) : List Char → Bool
  | [] =>
    match p.matchHead [] with
    | some rest => k rest
    | none => false
  | c :: s =>
    (match p.matchHead (c :: s) with
      | some rest => k rest
      | none => false) || (!isLineTerminator c && scanGap p k s)

/-- Do the parts, each preceded by `.*`, match at the head of the text. -/
def afterGap : List PatternPart → List Char → Bool
  | [], _ => true
  | p :: ps, s => scanGap p (afterGap ps) s

/-- Does the part, followed by what `k` checks, match somewhere in the text. -/
def scanAny (p : PatternPart) (k : List Char → Bool) : List Char → Bool
  | [] =>
    match p.matchHead [] with
    | some rest => k rest
    | none => false
  | c :: s =>
    (match p.matchHead (c :: s) with
      | some rest => k rest
      | none => false) || scanAny p k s

/-- `pattern.test(input)` for a pattern given by its parts. -/
def patternTest (parts : List PatternPart) (input : String) : Bool :=
  match parts with
  | [] => true
  | p :: ps => scanAny p (afterGap ps) input.data

/-- The table `wwePatterns` of `parseWWEContent`: pattern and canonical name, in source
order. -/
def wwePatterns : List (List PatternPart × String) :=
  [
    ([.word "wwe", .word "clash", .word "castle"], "WWE Clash at the Castle"),
    ([.word "wwe", .word "clash", .word "paris"], "WWE Clash in Paris"),
    ([.word "wwe", .word "wrestlemania"], "WWE WrestleMania"),
    ([.word "wwe", .word "royal", .word "rumble"], "WWE Royal Rumble"),
    ([.word "wwe", .word "summerslam"], "WWE SummerSlam"),
    ([.word "wwe", .word "survivor", .word "series"], "WWE Survivor Series"),
    ([.word "wwe", .word "money", .word "bank"], "WWE Money in the Bank"),
    ([.word "wwe", .word "elimination", .word "chamber"], "WWE Elimination Chamber"),
    ([.word "wwe", .word "night", .word "champions"], "WWE Night of Champions"),
    ([.word "wwe", .word "battleground"], "WWE Battleground"),
    ([.word "wwe", .word "backlash"], "WWE Backlash"),
    ([.word "wwe", .word "fastlane"], "WWE Fastlane"),
    ([.word "wwe", .word "crown", .word "jewel"], "WWE Crown Jewel"),
    ([.word "wwe", .word "extreme", .word "rules"], "WWE Extreme Rules"),
    ([.word "wwe", .word "hell", .word "cell"], "WWE Hell in a Cell"),
    ([.word "wwe", .word "judgement", .word "day"], "WWE Judgment Day"),
    ([.word "wwe", .word "king", .word "ring"], "WWE King of the Ring"),
    ([.word "wwe", .word "bad", .word "blood"], "WWE Bad Blood"),
    ([.word "wwe", .word "raw"], "WWE Monday Night Raw"),
    ([.word "wwe", .word "smackdown"], "WWE SmackDown"),
    ([.word "wwe", .word "nxt"], "WWE NXT"),
    ([.word "wwe", .word "unforgiven"], "WWE Unforgiven"),
    ([.word "wwe", .word "vengeance"], "WWE Vengeance"),
    ([.word "wwe", .word "armageddon"], "WWE Armageddon"),
    ([.word "wwe", .word "no", .word "mercy"], "WWE No Mercy"),
    ([.word "wwe", .word "insurrextion"], "WWE Insurrextion"),
    ([.word "aew", .word "revolution"], "AEW Revolution"),
    ([.word "aew", .word "double", .word "nothing"], "AEW Double or Nothing"),
    ([.word "aew", .word "all", .word "out"], "AEW All Out"),
    ([.word "aew", .word "full", .word "gear"], "AEW Full Gear"),
    ([.word "aew", .word "dynamite"], "AEW Dynamite"),
    ([.word "aew", .word "rampage"], "AEW Rampage"),
    ([.word "ufc", .digits], "UFC"),
    ([.word "ufc", .word "fight", .word "night"], "UFC Fight Night"),
    ([.word "boxing"], "Boxing"),
    ([.word "heavyweight", .word "championship"], "Heavyweight Championship")
  ]

/-- The object `getImdbTitleMapping` returns, as the properties of the literal in source
order (a key written twice keeps the value written last). -/
def imdbTitleEntries : List (String × String) :=
  [
    ("tt6146586", "John Wick Chapter 3 Parabellum 2019"),
    ("tt2911666", "John Wick 2014"),
    ("tt4425200", "John Wick Chapter 2 2017"),
    ("tt10366206", "John Wick Chapter 4 2023"),
    ("tt0468569", "The Dark Knight 2008"),
    ("tt1375666", "Inception 2010"),
    ("tt0137523", "Fight Club 1999"),
    ("tt0109830", "Forrest Gump 1994"),
    ("tt0111161", "The Shawshank Redemption 1994"),
    ("tt0816692", "Interstellar 2014"),
    ("tt1853728", "Django Unchained 2012"),
    ("tt0103064", "Terminator 2 Judgment Day 1991"),
    ("tt0133093", "The Matrix 1999"),
    ("tt0120586", "American History X 1998"),
    ("tt4154756", "Avengers Endgame 2019"),
    ("tt4154664", "Avengers Infinity War 2018"),
    ("tt1228705", "Iron Man 2 2010"),
    ("tt0371746", "Iron Man 2008"),
    ("tt0800080", "The Incredible Hulk 2008"),
    ("tt0458339", "Captain America The First Avenger 2011"),
    ("tt1843866", "Captain America The Winter Soldier 2014"),
    ("tt3498820", "Captain America Civil War 2016"),
    ("tt0800369", "Thor 2011"),
    ("tt1981115", "Thor The Dark World 2013"),
    ("tt3501632", "Thor Ragnarok 2017"),
    ("tt10648342", "Thor Love and Thunder 2022"),
    ("tt0848228", "The Avengers 2012"),
    ("tt2395427", "Avengers Age of Ultron 2015"),
    ("tt0372784", "Batman Begins 2005"),
    ("tt1345836", "The Dark Knight Rises 2012"),
    ("tt0451279", "Wonder Woman 2017"),
    ("tt0974015", "Justice League 2017"),
    ("tt12361974", "Zack Snyder Justice League 2021"),
    ("tt0770828", "Man of Steel 2013"),
    ("tt2975590", "Batman v Superman Dawn of Justice 2016"),
    ("tt7126948", "Wonder Woman 1984 2020"),
    ("tt1386697", "Suicide Squad 2016"),
    ("tt6334354", "The Suicide Squad 2021"),
    ("tt0232500", "The Fast and the Furious 2001"),
    ("tt0322259", "2 Fast 2 Furious 2003"),
    ("tt0463985", "The Fast and the Furious Tokyo Drift 2006"),
    ("tt1013752", "Fast and Furious 2009"),
    ("tt1596343", "Fast Five 2011"),
    ("tt1905041", "Fast and Furious 6 2013"),
    ("tt2820852", "Furious 7 2015"),
    ("tt4630562", "The Fate of the Furious 2017"),
    ("tt6806448", "Fast and Furious Presents Hobbs and Shaw 2019"),
    ("tt5433140", "F9 The Fast Saga 2021"),
    ("tt1396484", "It 2017"),
    ("tt7349950", "It Chapter Two 2019"),
    ("tt0816711", "World War Z 2013"),
    ("tt1431045", "Deadpool 2016"),
    ("tt5463162", "Deadpool 2 2018"),
    ("tt6263850", "Deadpool and Wolverine 2024"),
    ("tt0448115", "Shutter Island 2010"),
    ("tt0758758", "Into the Wild 2007"),
    ("tt1205489", "Gran Torino 2008"),
    ("tt0481499", "Blade Runner 2049 2017"),
    ("tt0083658", "Blade Runner 1982"),
    ("tt0076759", "Star Wars A New Hope 1977"),
    ("tt0080684", "Star Wars The Empire Strikes Back 1980"),
    ("tt0086190", "Star Wars Return of the Jedi 1983"),
    ("tt2488496", "Star Wars The Force Awakens 2015"),
    ("tt2527336", "Star Wars The Last Jedi 2017"),
    ("tt2527338", "Star Wars The Rise of Skywalker 2019"),
    ("tt3748528", "Rogue One A Star Wars Story 2016"),
    ("tt1745960", "Top Gun Maverick 2022"),
    ("tt6751668", "Parasite 2019"),
    ("tt7286456", "Joker 2019"),
    ("tt9376612", "Shang Chi and the Legend of the Ten Rings 2021"),
    ("tt9114286", "Black Widow 2021"),
    ("tt9032400", "Eternals 2021"),
    ("tt10872600", "Spider Man No Way Home 2021"),
    ("tt9419884", "Doctor Strange in the Multiverse of Madness 2022"),
    ("tt0110912", "Pulp Fiction 1994"),
    ("tt0108052", "Schindlers List 1993"),
    ("tt0167260", "The Lord of the Rings The Return of the King 2003"),
    ("tt0120737", "The Lord of the Rings The Fellowship of the Ring 2001"),
    ("tt0167261", "The Lord of the Rings The Two Towers 2002"),
    ("tt0068646", "The Godfather 1972"),
    ("tt0071562", "The Godfather Part II 1974"),
    ("tt0099685", "Goodfellas 1990"),
    ("tt0114369", "Se7en 1995"),
    ("tt0102926", "The Silence of the Lambs 1991"),
    ("tt0110413", "Léon The Professional 1994"),
    ("tt0120815", "Saving Private Ryan 1998"),
    ("tt0993846", "The Wolf of Wall Street 2013"),
    ("tt1049413", "Up 2009"),
    ("tt0317248", "City of God 2002"),
    ("tt0118799", "Life Is Beautiful 1997"),
    ("tt0245429", "Spirited Away 2001"),
    ("tt0117060", "Mission Impossible 1996"),
    ("tt0120755", "Mission Impossible II 2000"),
    ("tt0317919", "Mission Impossible III 2006"),
    ("tt1229238", "Mission Impossible Ghost Protocol 2011"),
    ("tt2381249", "Mission Impossible Rogue Nation 2015"),
    ("tt4912910", "Mission Impossible Fallout 2018"),
    ("tt9603212", "Mission Impossible Dead Reckoning Part One 2023"),
    ("tt2379713", "Skyfall 2012"),
    ("tt1074638", "Spectre 2015"),
    ("tt2382320", "No Time to Die 2021"),
    ("tt0381061", "Casino Royale 2006"),
    ("tt0830515", "Quantum of Solace 2008"),
    ("tt0944947", "Game of Thrones"),
    ("tt0903747", "Breaking Bad"),
    ("tt2356777", "True Detective"),
    ("tt1475582", "Sherlock"),
    ("tt2861424", "Rick and Morty"),
    ("tt0436992", "Doctor Who 2005"),
    ("tt1844624", "American Horror Story"),
    ("tt2085059", "Black Mirror"),
    ("tt5753856", "Dark"),
    ("tt4574334", "Stranger Things"),
    ("tt1190634", "The Boys"),
    ("tt6468322", "Money Heist"),
    ("tt5420376", "Squid Game"),
    ("tt1439629", "Community"),
    ("tt0898266", "The Big Bang Theory"),
    ("tt0386676", "The Office"),
    ("tt0108778", "Friends"),
    ("tt7366338", "Chernobyl"),
    ("tt1596343", "Suits"),
    ("tt4052886", "Lucifer"),
    ("tt1632701", "Suits"),
    ("tt1442437", "Modern Family"),
    ("tt1845307", "Nashville"),
    ("tt6741278", "Anne with an E"),
    ("tt1442437", "Modern Family"),
    ("tt6264654", "Free Guy 2021"),
    ("tt1877830", "X-Men Days of Future Past 2014"),
    ("tt0371746", "Iron Man 2008"),
    ("tt0800080", "The Incredible Hulk 2008"),
    ("tt3896198", "Guardians of the Galaxy Vol 2 2017"),
    ("tt2015381", "Guardians of the Galaxy 2014"),
    ("tt0478970", "Ant-Man 2015"),
    ("tt5095030", "Ant-Man and the Wasp 2018"),
    ("tt6320628", "Spider-Man Far From Home 2019"),
    ("tt2250912", "Spider-Man Homecoming 2017"),
    ("tt3480822", "Black Panther 2018"),
    ("tt4154664", "Captain Marvel 2019")
  ]

/-- `getImdbTitleMapping()[id]`: the value written last for the key. -/
def getImdbTitle (id : String) : Option String :=
  (imdbTitleEntries.reverse.find? fun e => e.1 == id).map Prod.snd

/-! ## The descriptor (`parseStreamId`) -/

/-- The object `parseStreamId` returns. An absent property and `null` are `none`; an
absent flag is `false`. -/
structure Descriptor where
  searchQuery : Option String
  searchVariations : Option (List String) := none
  title : Option String := none
  year : Option JSInt := none
  season : Option JSInt := none
  episode : Option JSInt := none
  type : Option String := none
  isWWE : Bool := false
  isTV : Bool := false
  isAnime : Bool := false
deriving DecidableEq

/-- The year `parseWWEContent` works with: the first `20dd` of the input, otherwise the
current year (`new Date().getFullYear().toString()`). -/
def detectYear (currentYear : Nat) (input : String) : String :=
  match matchYear20 input with
  | some year => year
  | none => toString currentYear

/-- `parseWWEContent` of `src/index.js`; `none` is `null`. `currentYear` is the year of the
clock. -/
def parseWWEContent (currentYear : Nat) (input : String) : Option Descriptor :=
  let inputLower := toLowerCase input
  match wwePatterns.find? (fun pattern => patternTest pattern.1 input) with
  | some pattern =>
    let year := detectYear currentYear input
    let searchQuery := if !year.data.isEmpty then pattern.2 ++ " " ++ year else pattern.2
    some { searchQuery := some searchQuery,
           title := some pattern.2,
           year := if !year.data.isEmpty then some (parseInt year) else none,
           type := some "sports",
           isWWE := true }
  | none =>
    if includes inputLower "wwe" || includes inputLower "aew" || includes inputLower "ufc" ||
        includes inputLower "boxing" || includes inputLower "wrestling" then
      let year := detectYear currentYear input
      let cleanTitle := trim (removeImdbIds (replaceSeparators input))
      let cleanTitle :=
        if !year.data.isEmpty then trim (removeFirst cleanTitle year) ++ " " ++ year
        else cleanTitle
      some { searchQuery := some cleanTitle,
             title := some (trim (removeFirst cleanTitle year)),
             year := if !year.data.isEmpty then some (parseInt year) else none,
             type := some "sports",
             isWWE := true }
    else none

/-- `parseImdbIdFallback` of `src/index.js`. -/
def parseImdbIdFallback (id : String) : Descriptor :=
  match getImdbTitle id with
  | some title =>
    if !title.data.isEmpty then
      let year := match matchFourDigitsAux title.data with
        | some y => some (parseInt ⟨y⟩)
        | none => none
      let searchQuery := trim ⟨removeFourDigitsAux title.data⟩
      { searchQuery := some searchQuery, year := year }
    else { searchQuery := none }
  | none => { searchQuery := none }

/-! ## The metadata client (`src/omdb-client.js`) -/

/-- The fields of an OMDB answer that `formatForSearch` reads. -/
structure OmdbData where
  Title : String
  Year : String
  Type' : String
deriving DecidableEq

/-- The object `formatForSearch` returns (the rating is left out). -/
structure SearchInfo where
  searchQuery : String
  title : String
  year : Option JSInt
  type : String
deriving DecidableEq

/-- `formatForSearch` of `src/omdb-client.js`. -/
def formatForSearch (omdbData : OmdbData) : SearchInfo :=
  let title := omdbData.Title
  let year := omdbData.Year
  let type := omdbData.Type'
  let searchQuery :=
    if type = "movie" ∧ !year.data.isEmpty ∧ year ≠ "N/A" then title ++ " " ++ year else title
  { searchQuery := trim (removeSpecialChars searchQuery),
    title := title,
    year := if year ≠ "N/A" then some (parseInt year) else none,
    type := type }

/-- The text `n.toString().padStart(2, '0')` of a number. -/
def pad2 (n : JSInt) : String :=
  padStart2 n.toString

/-- `Math.floor(season / 12)` added to an integer. -/
def addFloorDiv12 (base : Int) (season : JSInt) : JSInt :=
  match season with
  | JSInt.nan => JSInt.nan
  | JSInt.int s => JSInt.int (base + Int.fdiv s 12)

/-- `(season % 12) + 1`; the remainder has the sign of `season`. -/
def monthOfSeason (season : JSInt) : JSInt :=
  match season with
  | JSInt.nan => JSInt.nan
  | JSInt.int s => JSInt.int (Int.tmod s 12 + 1)

/-- Is `n >= bound` for a number `n`; false for `NaN`. -/
def JSInt.ge (n : JSInt) (bound : Int) : Bool :=
  match n with
  | JSInt.nan => false
  | JSInt.int k => decide (bound ≤ k)

/-- `year && parseInt(year) >= bound` for the year of a `SearchInfo`. -/
def yearAtLeast (year : Option JSInt) (bound : Int) : Bool :=
  match year with
  | some n => n.truthy && (parseIntOfNum n).ge bound
  | none => false

/-- The test of the simple branch for sports content. -/
def isSportsTitle (title : String) : Bool :=
  let t := toLowerCase title
  !title.data.isEmpty && (includes t "wwe" || includes t "wrestlemania" ||
    includes t "royal rumble" || includes t "summerslam" || includes t "clash")

/-- The test of the series branch for sports content. -/
def isSportsSeries (title : String) : Bool :=
  let t := toLowerCase title
  !title.data.isEmpty && (includes t "wwe" || includes t "raw" || includes t "smackdown" ||
    includes t "wrestle")

/-- The flag `isLikelyAnime` of the series branch, as a truth value. -/
def isLikelyAnime (searchInfo : SearchInfo) : Bool :=
  !searchInfo.title.data.isEmpty && (includes searchInfo.title "Naruto" ||
    includes searchInfo.title "One Piece" || includes searchInfo.title "Attack on Titan" ||
    includes searchInfo.title "Dragon Ball" || includes searchInfo.title "Death Note" ||
    includes searchInfo.title "Bleach" || includes searchInfo.title "Hunter" ||
    (yearAtLeast searchInfo.year 1990 && hasNonAscii searchInfo.title))

/-- The descriptor of the simple branch when the lookup succeeded (`src/index.js`, lines
610-647). -/
def simpleDescriptor (omdbData : OmdbData) : Descriptor :=
  let searchInfo := formatForSearch omdbData
  if isSportsTitle searchInfo.title then
    let simpleQuery := trim (replaceSpaceRuns ' ' (replaceWordXL (removeExtraWords searchInfo.title)))
    let simpleQuery :=
      if truthyNum searchInfo.year then simpleQuery ++ " " ++ templateText searchInfo.year
      else simpleQuery
    { searchQuery := some simpleQuery,
      title := some searchInfo.title,
      year := searchInfo.year,
      type := some searchInfo.type,
      isWWE := true }
  else
    { searchQuery := some searchInfo.searchQuery,
      title := some searchInfo.title,
      year := searchInfo.year,
      type := some searchInfo.type }

/-- The variations of a sports series (`src/index.js`, lines 690-704). -/
def wweSeriesVariations (searchInfo : SearchInfo) (season episode : JSInt) : List String :=
  let baseYear : Int := match searchInfo.year with
    | some (JSInt.int y) => if y ≠ 0 then y else 1993
    | _ => 1993
  let episodeYear := addFloorDiv12 baseYear season
  let episodeMonth := monthOfSeason season
  let showName := removeLeadingWWE searchInfo.title
  [searchInfo.title ++ " " ++ episodeYear.toString,
   showName ++ " " ++ episodeYear.toString,
   "WWE " ++ showName ++ " " ++ episodeYear.toString ++ " " ++ pad2 episodeMonth,
   searchInfo.title ++ " S" ++ pad2 season ++ "E" ++ pad2 episode,
   showName ++ " S" ++ pad2 season ++ "E" ++ pad2 episode]

/-- The variations of a regular or anime series (`src/index.js`, lines 723-766). -/
def tvSeriesVariations (searchInfo : SearchInfo) (season episode : JSInt) : List String :=
  let baseTitle := searchInfo.title
  let seasonEpisode := "S" ++ pad2 season ++ "E" ++ pad2 episode
  if isLikelyAnime searchInfo then
    [baseTitle ++ " " ++ seasonEpisode,
     baseTitle ++ " Episode " ++ episode.toString,
     baseTitle ++ " " ++ pad2 episode,
     baseTitle ++ " " ++ (if JSInt.ge season 2 then "Season " ++ season.toString ++ " " else "")
       ++ "Episode " ++ episode.toString,
     baseTitle]
  else
    let tvSearchVariations :=
      [baseTitle ++ " " ++ seasonEpisode,
       baseTitle ++ " " ++ templateText searchInfo.year ++ " " ++ seasonEpisode,
       replaceSpaceRuns '.' baseTitle ++ " " ++ seasonEpisode,
       baseTitle]
    if yearAtLeast searchInfo.year 2010 then
      tvSearchVariations ++ [baseTitle ++ " " ++ seasonEpisode ++ " 1080p",
        baseTitle ++ " " ++ seasonEpisode ++ " 720p"]
    else tvSearchVariations

/-- The descriptor of the series branch when the lookup succeeded (`src/index.js`, lines
675-780). The primary query is element `0` of the variations. -/
def seriesDescriptor (omdbData : OmdbData) (season episode : JSInt) : Descriptor :=
  let searchInfo := formatForSearch omdbData
  if isSportsSeries searchInfo.title then
    let searchVariations := wweSeriesVariations searchInfo season episode
    { searchQuery := searchVariations.head?,
      searchVariations := some searchVariations,
      title := some searchInfo.title,
      year := searchInfo.year,
      season := some season,
      episode := some episode,
      type := some "series",
      isWWE := true }
  else
    let tvSearchVariations := tvSeriesVariations searchInfo season episode
    { searchQuery := tvSearchVariations.head?,
      searchVariations := some tvSearchVariations,
      title := some searchInfo.title,
      year := searchInfo.year,
      season := some season,
      episode := some episode,
      type := some "series",
      isTV := true,
      isAnime := isLikelyAnime searchInfo }

/-- One round of the loop over the further parts of a freeform identifier
(`src/index.js`, lines 810-819); the state is year, season, episode. -/
def scanPart (state : Option JSInt × Option JSInt × Option JSInt) (part : String) :
    Option JSInt × Option JSInt × Option JSInt :=
  if isFourDigits part then (some (parseInt part), state.2.1, state.2.2)
  else if startsWith part "s" || startsWith part "S" then
    (state.1, some (parseInt ⟨part.data.drop 1⟩), state.2.2)
  else if startsWith part "e" || startsWith part "E" then
    (state.1, state.2.1, some (parseInt ⟨part.data.drop 1⟩))
  else state

/-- `parseStreamId` of `src/index.js`. `lookup` is `omdbClient.getByImdbId`, which answers
the metadata, `null`, or throws; `currentYear` is the year of the clock. The fields of the
metadata are strings, so nothing else throws and the outer `catch` is never entered. -/
def parseStreamId (lookup : String → Except String (Option OmdbData)) (currentYear : Nat)
    (id : String) : Descriptor :=
  if startsWith id "tt" && !includes id ":" then
    match lookup id with
    | Except.ok (some omdbData) => simpleDescriptor omdbData
    | Except.ok none => parseImdbIdFallback id
    | Except.error _ => parseImdbIdFallback id
  else
    let parts := splitColon id
    match parts with
    | part0 :: part1 :: more =>
      if startsWith part0 "tt" && !more.isEmpty then
        let imdbId := part0
        let season := parseInt part1
        let episode := parseInt (more.head?.getD "")
        match lookup imdbId with
        | Except.ok (some omdbData) => seriesDescriptor omdbData season episode
        | _ =>
          { searchQuery := some ("S" ++ pad2 season ++ "E" ++ pad2 episode),
            season := some season,
            episode := some episode,
            type := some "series" }
      else
        let searchQuery := replaceSeparators part1
        match parseWWEContent currentYear searchQuery with
        | some wweCheck => wweCheck
        | none =>
          let state := more.foldl scanPart (none, none, none)
          { searchQuery := some searchQuery,
            year := state.1,
            season := state.2.1,
            episode := state.2.2 }
    | _ =>
      match parseWWEContent currentYear id with
      | some wweCheck => wweCheck
      | none => { searchQuery := some (replaceSeparators id) }

/-! ## The stream handler, from the identifier on -/

/-- A number of the descriptor as the handler and the scraper see it: they only test its
truth and print it, so `NaN` counts as absent. -/
def numberOf : Option JSInt → Option Int
  | some (JSInt.int n) => some n
  | _ => none

/-- What the handler destructures from the descriptor (`src/index.js`, line 45). -/
def Descriptor.toParseResult (d : Descriptor) : ParseResult :=
  { searchQuery := d.searchQuery,
    year := numberOf d.year,
    season := numberOf d.season,
    episode := numberOf d.episode,
    searchVariations := d.searchVariations,
    isWWE := d.isWWE,
    isTV := d.isTV }

/-- The stream handler (`src/index.js`, lines 29-241). `cachedResult` is what the cache
holds for the key of the request when the entry is younger than the time to live, `none`
otherwise; the entry the handler writes at the end is not part of the result. -/
def streamHandler (cachedResult : Option (List StreamRecord))
    (createStream : Torrent → Except String (Option StreamRecord))
    (lookup : String → Except String (Option OmdbData)) (currentYear : Nat) (net : Network)
    (type id : String) : List StreamRecord :=
  match cachedResult with
  | some streams => streams
  | none => handleParsed createStream net type (parseStreamId lookup currentYear id).toParseResult

/-- The variations the loop of the handler searches for, in order: the first argument of
each call of `scraper.searchAndGetComplete` the loop makes. -/
def triedVariations (search : String → List Torrent) : List String → List String
  | [] => []
  | variation :: rest =>
    if !(trim variation).data.isEmpty then
      if (search variation).length > 0 then [variation]
      else variation :: triedVariations search rest
    else triedVariations search rest

/-- The list `uniqueVariations` the handler loops over; `none` when the handler makes its
single search instead (`src/index.js`, lines 66-153). -/
def handlerVariations (type : String) (p : ParseResult) (searchQuery : String) :
    Option (List String) :=
  let isTVContent := p.isTV || type = "series"
  if isWWEContent p.isWWE searchQuery then
    some (uniqueVariations (wweVariations searchQuery p.searchVariations))
  else if isTVContent && p.searchVariations.isSome then
    some (uniqueVariations (p.searchVariations.getD []))
  else none

/-- The queries the handler passes to `scraper.searchAndGetComplete`, in order. -/
def searchesIssued (net : Network) (type : String) (p : ParseResult) : List String :=
  match p.searchQuery with
  | none => []
  | some searchQuery =>
    if searchQuery.data.isEmpty then []
    else
      match handlerVariations type p searchQuery with
      | some variations =>
        triedVariations (fun q => searchAndGetComplete net q type p.year p.season p.episode)
          variations
      | none => [searchQuery]

/-- A natural number written in decimal and zero-padded to two digits, as the
specification words it. -/
def zeroPad2 (n : Nat) : String :=
  if n < 10 then "0" ++ toString n else toString n

/-- A metadata service that knows one series. -/
def gotLookup (id : String) : Except String (Option OmdbData) :=
  if id = "tt0944947" then Except.ok (some ⟨"Game of Thrones", "2011", "series"⟩)
  else Except.ok none

/-- A metadata service that answers nothing. -/
def noLookup (_ : String) : Except String (Option OmdbData) :=
  Except.ok none

/-- A metadata service that knows one movie. -/
def titansLookup (id : String) : Except String (Option OmdbData) :=
  if id = "tt0800320" then Except.ok (some ⟨"Clash of the Titans", "2010", "movie"⟩)
  else Except.ok none

/-- A metadata service that knows one more movie. -/
def matrixLookup (id : String) : Except String (Option OmdbData) :=
  if id = "tt0133093" then Except.ok (some ⟨"The Matrix", "1999", "movie"⟩)
  else Except.ok none

/-- The query built from the title and the year of a movie: the title, followed by a blank
and the year when the year is present (not empty, not `N/A`); then every character other
than a word character, white space or `-` is removed and the result is trimmed. -/
def cleanedMovieQuery (title year : String) : String :=
  trim (removeSpecialChars
    (if !year.data.isEmpty ∧ year ≠ "N/A" then title ++ " " ++ year else title))

/-! ## The result formatter (`createStreamFromTorrent`) -/

/-- The number of characters between an opening bracket and the first closing character
`close` after it, when no line terminator stands in between (the lazy `.*?` of the
pattern does not cross a line terminator). -/
def closeIndex (close : Char) : List Char → Option Nat
  | [] => none
  | c :: rest =>
    if c = close then some 0
    else if isLineTerminator c then none
    else (closeIndex close rest).map (· + 1)

/-- `replace(/\[.*?\]/g, '')` for the pair `[`, `]` and `replace(/\(.*?\)/g, '')` for the
pair `(`, `)`, on a character list; `skip` counts the characters of the current match
still to drop. -/
def removeDelimitedAux (opening close : Char) : Nat → List Char → List Char
  | _, [] => []
  | skip + 1, _ :: rest => removeDelimitedAux opening close skip rest
  | 0, c :: rest =>
    if c = opening then
      match closeIndex close rest with
      | some n => removeDelimitedAux opening close (n + 1) rest
      | none => c :: removeDelimitedAux opening close 0 rest
    else c :: removeDelimitedAux opening close 0 rest

/-- `replace(/\[.*?\]/g, '')` or `replace(/\(.*?\)/g, '')`. -/
def removeDelimited (opening close : Char) (s : String) : String :=
  ⟨removeDelimitedAux opening close 0 s.data⟩

/-- Does the text start with one of the units `GB`, `MB`, `KB`, `TB`. -/
def unitAtHead : List Char → Bool
  | a :: 'B' :: _ => a = 'G' || a = 'M' || a = 'K' || a = 'T'
  | _ => false

/-- Does `(\d+(?:\.\d+)?\s*(?:GB|MB|KB|TB))\d+$` match the whole text from its head; the
answer is the text of the group: the number, the white space and the unit. -/
def sizeMatchAtHead (s : List Char) : Option (List Char) :=
  let ds := s.takeWhile Char.isDigit
  let r1 := s.dropWhile Char.isDigit
  if ds.isEmpty then none
  else
    let frac : Option (List Char × List Char) :=
      match r1 with
      | '.' :: r =>
        let fs := r.takeWhile Char.isDigit
        if fs.isEmpty then none else some ('.' :: fs, r.dropWhile Char.isDigit)
      | _ => some ([], r1)
    match frac with
    | none => none
    | some (fr, r2) =>
      let ws := r2.takeWhile isJsWhitespace
      let r3 := r2.dropWhile isJsWhitespace
      if unitAtHead r3 then
        let r4 := r3.drop 2
        if !r4.isEmpty && r4.all Char.isDigit then some (ds ++ fr ++ ws ++ r3.take 2)
        else none
      else none

/-- `replace(/(\d+(?:\.\d+)?\s*(?:GB|MB|KB|TB))\d+$/, '$1')` on a character list: at the
leftmost place where the pattern matches, the rest of the text becomes the group. -/
def cleanSizeAux : List Char → List Char
  | [] => []
  | c :: rest =>
    match sizeMatchAtHead (c :: rest) with
    | some group => group
    | none => c :: cleanSizeAux rest

/-- The array `qualityIndicators` of `createStreamFromTorrent`. -/
def qualityIndicators (torrent : Torrent) : List String :=
  let title := toLowerCase torrent.title
  let indicators : List String := []
  let indicators :=
    if includes torrent.quality "2160p" || includes title "4k" then indicators ++ ["4K"]
    else indicators
  let indicators :=
    if includes title "hdr" || includes title "dolby vision" || includes title "dv" then
      indicators ++ ["HDR"]
    else indicators
  let indicators := if includes title "atmos" then indicators ++ ["ATMOS"] else indicators
  if includes title "remux" then indicators ++ ["REMUX"] else indicators

/-- `createStreamFromTorrent` of `src/index.js`; `none` is `null`. The fields of a torrent
are strings and a number, so nothing in the `try` block throws and the `catch` block is
never entered. The constant `behaviorHints` of the record is left out. -/
def createStreamFromTorrent (torrent : Torrent) : Option StreamRecord :=
  match torrent.magnet with
  | none => none
  | some magnet =>
    if magnet.data.isEmpty then none
    else
      let cleanTitle := trim (replaceSpaceRuns ' '
        (removeDelimited '(' ')' (removeDelimited '[' ']' torrent.title)))
      let qualityIndicators := qualityIndicators torrent
      let qualityBadge :=
        if qualityIndicators.length > 0 then " ".intercalate qualityIndicators
        else torrent.quality
      let sourceName := "1337x\n" ++ qualityBadge
      let cleanSize := trim ⟨cleanSizeAux torrent.size.data⟩
      let streamTitle := cleanTitle ++ "\n💾 " ++ cleanSize ++ " 🌱 " ++ toString torrent.seeders
      some { name := sourceName, title := streamTitle, url := magnet }

/-- `createStreamFromTorrent` as the handler calls it: it never throws. -/
def createStream (torrent : Torrent) : Except String (Option StreamRecord) :=
  Except.ok (createStreamFromTorrent torrent)

/-! ## The score of a search result (`calculateScore`) -/

/-- The table `qualityBonus` of `calculateScore`; a quality it does not hold counts `0`. -/
def qualityBonus (quality : String) : Int :=
  if quality = "2160p" then 1000
  else if quality = "1080p" then 500
  else if quality = "720p" then 200
  else if quality = "480p" then 100
  else if quality = "CAM" then -500
  else 0

/-- `calculateScore` of `src/torrent-scraper.js`. -/
def calculateScore (seeders leechers : Int) (quality : String) : Int :=
  seeders * 2 + leechers + qualityBonus quality

/-! ## Further sample metadata -/

/-- A metadata service that knows one anime series. -/
def animeLookup (id : String) : Except String (Option OmdbData) :=
  if id = "tt0388629" then Except.ok (some ⟨"One Piece", "1999", "series"⟩)
  else Except.ok none

/-- A metadata service that knows an anime series whose title holds a sports keyword of
the handler. -/
def clashAnimeLookup (id : String) : Except String (Option OmdbData) :=
  if id = "tt0000001" then Except.ok (some ⟨"Hunter Clash", "2011", "series"⟩)
  else Except.ok none

/-- A metadata service that knows one weekly sports series. -/
def rawLookup (id : String) : Except String (Option OmdbData) :=
  if id = "tt0185103" then Except.ok (some ⟨"WWE Raw", "1993", "series"⟩)
  else Except.ok none

/-! ## Further sample candidates -/

/-- A candidate with a link whose title carries all four tags. -/
def linkedTorrent : Torrent :=
  ⟨"Film [YTS] 2160p HDR Atmos REMUX (2019)", "/torrent/1/film/", 40, 2, "11.2 GB", "up",
    "2160p", 1082, some "magnet:?xt=urn:btih:01"⟩

/-- Three search result rows with their scores, none with a link yet. -/
def scoredRows : List Torrent :=
  [⟨"Film 720p", "/torrent/2/film/", 30, 4, "900 MB", "up", "720p", 264, none⟩,
    ⟨"Film 1080p", "/torrent/3/film/", 10, 3, "2.1 GB", "up", "1080p", 523, none⟩,
    ⟨"Film CAM", "/torrent/4/film/", 300, 50, "700 MB", "up", "CAM", 150, none⟩]

/-- A network on which every search finds the three rows and the detail page of the second
best row has no link. -/
def scoredNetwork : Network :=
  ⟨fun _ _ => Except.ok scoredRows,
    fun detailUrl =>
      if detailUrl = "/torrent/2/film/" then none else some ("magnet:?xt=" ++ detailUrl)⟩

/-! ## The quality tag of a search result (`extractQuality`) -/

/-- Upper-case form of one character, as `String.prototype.toUpperCase` produces it.
ASCII small letters map to their capital. Outside ASCII only the characters whose
upper-case form has an ASCII letter are mapped (sharp s, long s, dotless i, the Latin
ligatures and the six letters that decompose into a capital and a mark); the other
characters are kept, which no search for an ASCII marker can tell apart from their real
upper-case form. -/
def toUpperChar (c : Char) : List Char :=
  if c.toNat = 0xDF then ['S', 'S']
  else if c.toNat = 0x131 then ['I']
  else if c.toNat = 0x149 then [Char.ofNat 0x2BC, 'N']
  else if c.toNat = 0x17F then ['S']
  else if c.toNat = 0x1F0 then ['J', Char.ofNat 0x30C]
  else if c.toNat = 0x1E96 then ['H', Char.ofNat 0x331]
  else if c.toNat = 0x1E97 then ['T', Char.ofNat 0x308]
  else if c.toNat = 0x1E98 then ['W', Char.ofNat 0x30A]
  else if c.toNat = 0x1E99 then ['Y', Char.ofNat 0x30A]
  else if c.toNat = 0x1E9A then ['A', Char.ofNat 0x2BE]
  else if c.toNat = 0xFB00 then ['F', 'F']
  else if c.toNat = 0xFB01 then ['F', 'I']
  else if c.toNat = 0xFB02 then ['F', 'L']
  else if c.toNat = 0xFB03 then ['F', 'F', 'I']
  else if c.toNat = 0xFB04 then ['F', 'F', 'L']
  else if c.toNat = 0xFB05 then ['S', 'T']
  else if c.toNat = 0xFB06 then ['S', 'T']
  else [c.toUpper]

/-- `String.prototype.toUpperCase`. -/
def toUpperCase (s : String) : String :=
  ⟨s.data.flatMap toUpperChar⟩

/-- `extractQuality` of `src/torrent-scraper.js`. -/
def extractQuality (title : String) : String :=
  let titleUpper := toUpperCase title
  if includes titleUpper "2160P" || includes titleUpper "4K" then "2160p"
  else if includes titleUpper "1080P" then "1080p"
  else if includes titleUpper "720P" then "720p"
  else if includes titleUpper "480P" then "480p"
  else if includes titleUpper "HDTV" || includes titleUpper "HD" then "720p"
  else if includes titleUpper "CAM" || includes titleUpper "TS" || includes titleUpper "TC" then
    "CAM"
  else "Unknown"

/-- The badge of the formatter: the detected tags joined by blanks, the quality tag of the
candidate when no tag is detected (`qualityBadge` of `createStreamFromTorrent`). -/
def qualityBadge (torrent : Torrent) : String :=
  if (qualityIndicators torrent).length > 0 then " ".intercalate (qualityIndicators torrent)
  else torrent.quality

/-! ## Samples for the handler, the comparator and the balancing -/

/-- A metadata service whose every request throws. -/
def throwingLookup (_ : String) : Except String (Option OmdbData) :=
  Except.error "timeout of 10000ms exceeded"

/-- A metadata service that knows one series without a year. -/
def noYearLookup (id : String) : Except String (Option OmdbData) :=
  if id = "tt0000002" then Except.ok (some ⟨"Some Show", "N/A", "series"⟩)
  else Except.ok none

/-- A candidate whose size text is no number. -/
def unsizedTorrent : Torrent :=
  ⟨"Film 1080p", "/torrent/5/film/", 12, 1, "N/A", "up", "1080p", 525, none⟩

/-- A result formatter that throws on every candidate. -/
def throwingFormatter (_ : Torrent) : Except String (Option StreamRecord) :=
  Except.error "TypeError"

/-! ## The rows of a result page (`parseTorrentRow`) -/

/-- What `parseTorrentRow` reads from one row of the result table: whether the name cell
exists, the text and the `href` of its second link (`undefined` is `none`), the texts of
the seeders, leechers and size cells, and the text of the link of the uploader cell. -/
structure RawRow where
  hasNameCell : Bool
  linkText : String
  linkHref : Option String
  seedersText : String
  leechersText : String
  sizeText : String
  uploaderText : String
deriving DecidableEq

/-- The value of `config.SCRAPER_BASE_URL`. -/
def scraperBaseUrl : String := "https://1337x.to"

/-- The value of `config.MAX_SEARCH_RESULTS`. -/
def maxSearchResults : Nat := 20

/-- The number `parseInt(text.trim()) || 0`. -/
def parseIntOrZero (text : String) : Int :=
  match parseInt (trim text) with
  | JSInt.int n => n
  | JSInt.nan => 0

/-- `parseTorrentRow` of `src/torrent-scraper.js`; `none` is `null`. The record has no
magnet link yet. -/
def parseTorrentRow (row : RawRow) : Option Torrent :=
  if !row.hasNameCell then none
  else
    let title := trim row.linkText
    match row.linkHref with
    | none => none
    | some detailPath =>
      if title.data.isEmpty || detailPath.data.isEmpty then none
      else
        let detailUrl := scraperBaseUrl ++ detailPath
        let seeders := parseIntOrZero row.seedersText
        let leechers := parseIntOrZero row.leechersText
        let size := trim row.sizeText
        let uploader := trim row.uploaderText
        let quality := extractQuality title
        some { title := title,
               detailUrl := detailUrl,
               seeders := seeders,
               leechers := leechers,
               size := size,
               uploader := uploader,
               quality := quality,
               score := calculateScore seeders leechers quality,
               magnet := none }

/-- The loop of `searchTorrents` over the rows of the page: the first
`MAX_SEARCH_RESULTS` rows are parsed and those that give a record are kept. -/
def parseRows (rows : List RawRow) : List Torrent :=
  (rows.take maxSearchResults).filterMap parseTorrentRow

/-- The pages behind `TorrentScraper`: `fetchPage query category` is the request of the
result page and the selection of its rows, which may throw; `getMagnetLink` as in
`Network`. -/
structure PageSource where
  fetchPage : String → String → Except String (List RawRow)
  getMagnetLink : String → Option String

/-- The network of a page source: the rows of a page go through `parseTorrentRow`. -/
def PageSource.toNetwork (pages : PageSource) : Network :=
  ⟨fun query category =>
      match pages.fetchPage query category with
      | Except.ok rows => Except.ok (parseRows rows)
      | Except.error e => Except.error e,
    pages.getMagnetLink⟩

/-! ## Another sorting procedure -/

/-- The place binary search finds for `pivot` in the list `sorted`, between `left` and
`right`: after every element that `pivot` does not come before (`NaN` counts as zero). -/
def binaryPlace {α : Type} (comparefn : α → α → JSNum) (pivot : α) (sorted : List α) :
    Nat → Nat → Nat → Nat
  | 0, left, _ => left
  | fuel + 1, left, right =>
    if left < right then
      let mid := left + (right - left) / 2
      match sorted[mid]? with
      | some element =>
        if (comparefn pivot element).sign < 0 then
          binaryPlace comparefn pivot sorted fuel left mid
        else binaryPlace comparefn pivot sorted fuel (mid + 1) right
      | none => left
    else left

/-- Binary insertion sort: the elements are taken in input order and each is inserted into
the list sorted so far at the place binary search finds. It is a second procedure a runtime
may use for `Array.prototype.sort`; it is used to show what ECMAScript leaves open when the
comparator is not consistent. -/
def binaryInsertionSort {α : Type} (comparefn : α → α → JSNum) (l : List α) : List α :=
  l.foldl (fun sorted pivot =>
    let place := binaryPlace comparefn pivot sorted sorted.length 0 sorted.length
    sorted.take place ++ pivot :: sorted.drop place) []

/-! ## Samples for the rows and the two sorting procedures -/

/-- A candidate with the score of `1080p`, ten seeders, and the given address and size. -/
def sizedCandidate (detailUrl size : String) : Torrent :=
  ⟨"Film 1080p", detailUrl, 10, 0, size, "up", "1080p", 520, none⟩

/-- Seven candidates that differ in size only; `/a1` and `/b1` have the same size. -/
def parsedSizes : List Torrent :=
  [sizedCandidate "/50" "50 MB", sizedCandidate "/40" "40 MB", sizedCandidate "/30" "30 MB",
    sizedCandidate "/10" "10 MB", sizedCandidate "/a1" "20 MB", sizedCandidate "/5" "5 MB",
    sizedCandidate "/b1" "20 MB"]

/-- The same candidates with one more whose size text is no number. -/
def mixedSizes : List Torrent :=
  [sizedCandidate "/50" "50 MB", sizedCandidate "/40" "40 MB", sizedCandidate "/30" "30 MB",
    sizedCandidate "/10" "10 MB", sizedCandidate "/na" "N/A", sizedCandidate "/a1" "20 MB",
    sizedCandidate "/5" "5 MB", sizedCandidate "/b1" "20 MB"]

/-- A page source whose every page has four rows, one of them without a link to a detail
page, and whose detail page `/torrent/2/film/` has no magnet link. -/
def samplePages : PageSource :=
  ⟨fun _ _ => Except.ok
      [⟨true, " Film 720p ", some "/torrent/2/film/", "30", "4", "900 MB", "up"⟩,
        ⟨true, "Film 1080p", some "/torrent/3/film/", "10", "3", "2.1 GB", "up"⟩,
        ⟨true, "Advert", none, "", "", "", ""⟩,
        ⟨true, "Film CAM", some "/torrent/4/film/", "300", "x", "700 MB", "up"⟩],
    fun detailUrl =>
      if detailUrl = "https://1337x.to/torrent/2/film/" then none
      else some ("magnet:?xt=" ++ detailUrl)⟩

/-- A metadata service that knows the movie `Raw`. -/
def rawMovieLookup (id : String) : Except String (Option OmdbData) :=
  if id = "tt4954522" then Except.ok (some ⟨"Raw", "2016", "movie"⟩)
  else Except.ok none

/-! # Properties -/

/-! ## Resolution helpers -/

theorem score_of_label (t : Torrent) :
    getResolutionScoreFromLabel (getResolutionLabel t) = getResolutionScore t := by
  unfold getResolutionLabel getResolutionScore
  dsimp only
  split_ifs <;> decide

theorem label_mem_allLabels (t : Torrent) : getResolutionLabel t ∈ allLabels := by
  unfold getResolutionLabel
  dsimp only
  split_ifs <;> decide

theorem label_eq_iff_score (t : Torrent) (key : String) (hk : key ∈ allLabels) :
    getResolutionLabel t = key ↔ getResolutionScore t = getResolutionScoreFromLabel key := by
  rw [← score_of_label]
  constructor
  · intro h; rw [h]
  · intro h
    have ht := label_mem_allLabels t
    revert h
    generalize getResolutionLabel t = l at ht ⊢
    simp only [allLabels, List.mem_cons, List.mem_singleton, List.not_mem_nil, or_false] at hk ht
    rcases ht with rfl | rfl | rfl | rfl | rfl | rfl <;>
      rcases hk with rfl | rfl | rfl | rfl | rfl | rfl <;> decide

/-! ## Grouping -/

theorem lookup_cons_ite {β : Type} (k key : String) (v : β) (g : List (String × β)) :
    List.lookup key ((k, v) :: g) = if key = k then some v else g.lookup key := by
  by_cases h : key = k
  · subst h; simp [List.lookup]
  · have hb : (key == k) = false := by simpa using h
    simp [List.lookup, hb, h]

theorem lookup_pushToGroup (key : String) (t : Torrent) (g : List (String × List Torrent))
    (key' : String) :
    (pushToGroup key t g).lookup key' =
      if key' = key then some ((g.lookup key).getD [] ++ [t]) else g.lookup key' := by
  induction g with
  | nil =>
    rw [pushToGroup, lookup_cons_ite]
    simp
  | cons p g ih =>
    obtain ⟨k, ts⟩ := p
    by_cases hk : k = key
    · subst hk
      rw [pushToGroup, if_pos rfl, lookup_cons_ite, lookup_cons_ite, lookup_cons_ite]
      by_cases h : key' = k <;> simp [h]
    · have hk' : ¬ key = k := fun e => hk e.symm
      rw [pushToGroup, if_neg hk, lookup_cons_ite, lookup_cons_ite, lookup_cons_ite, ih,
        if_neg hk']
      by_cases h : key' = k
      · subst h; simp [hk]
      · simp [h]

theorem keys_pushToGroup (key : String) (t : Torrent) (g : List (String × List Torrent)) :
    (pushToGroup key t g).map Prod.fst =
      if key ∈ g.map Prod.fst then g.map Prod.fst else g.map Prod.fst ++ [key] := by
  induction g with
  | nil => simp [pushToGroup]
  | cons p g ih =>
    obtain ⟨k, ts⟩ := p
    by_cases hk : k = key
    · subst hk; simp [pushToGroup]
    · have hk' : ¬ key = k := fun e => hk e.symm
      by_cases hm : key ∈ g.map Prod.fst
      · rw [if_pos hm] at ih
        simp only [pushToGroup, if_neg hk, List.map_cons, ih]
        rw [if_pos (List.mem_cons_of_mem _ hm)]
      · rw [if_neg hm] at ih
        simp only [pushToGroup, if_neg hk, List.map_cons, ih]
        rw [if_neg (fun hc => by
          rcases List.mem_cons.1 hc with e | e
          · exact hk' e
          · exact hm e)]
        rfl

theorem groupByResolution_append (l : List Torrent) (t : Torrent) :
    groupByResolution (l ++ [t]) =
      pushToGroup (getResolutionLabel t) t (groupByResolution l) := by
  simp [groupByResolution, List.foldl_append]

theorem lookup_groupByResolution (l : List Torrent) (key : String) :
    ((groupByResolution l).lookup key).getD [] =
      l.filter (fun t => getResolutionLabel t = key) := by
  induction l using List.reverseRecOn with
  | nil => simp [groupByResolution]
  | append_singleton l t ih =>
    rw [groupByResolution_append, lookup_pushToGroup, List.filter_append]
    by_cases h : key = getResolutionLabel t
    · subst h; simp [ih]
    · have h' : ¬ getResolutionLabel t = key := fun e => h e.symm
      simp [h, h', ih]

theorem keys_groupByResolution_nodup (l : List Torrent) :
    ((groupByResolution l).map Prod.fst).Nodup := by
  induction l using List.reverseRecOn with
  | nil => simp [groupByResolution]
  | append_singleton l t ih =>
    rw [groupByResolution_append, keys_pushToGroup]
    split_ifs with h
    · exact ih
    · exact List.Nodup.append ih (List.nodup_singleton _) (by simpa using h)

theorem mem_keys_groupByResolution (l : List Torrent) (key : String) :
    key ∈ (groupByResolution l).map Prod.fst ↔ ∃ t ∈ l, getResolutionLabel t = key := by
  induction l using List.reverseRecOn with
  | nil => simp [groupByResolution]
  | append_singleton l t ih =>
    rw [groupByResolution_append, keys_pushToGroup]
    split_ifs with h
    · rw [ih]
      constructor
      · rintro ⟨x, hx, rfl⟩; exact ⟨x, by simp [hx], rfl⟩
      · rintro ⟨x, hx, rfl⟩
        rcases List.mem_append.1 hx with hx | hx
        · exact ⟨x, hx, rfl⟩
        · rw [List.mem_singleton] at hx; subst hx; exact ih.1 h
    · rw [List.mem_append, ih]
      constructor
      · rintro (⟨x, hx, rfl⟩ | hk)
        · exact ⟨x, by simp [hx], rfl⟩
        · rw [List.mem_singleton] at hk; subst hk; exact ⟨t, by simp, rfl⟩
      · rintro ⟨x, hx, rfl⟩
        rcases List.mem_append.1 hx with hx | hx
        · exact Or.inl ⟨x, hx, rfl⟩
        · rw [List.mem_singleton] at hx; subst hx; exact Or.inr (by simp)

/-! ## Sorting -/

theorem sign_fin_nonpos (x : ℚ) : (JSNum.fin x).sign ≤ 0 ↔ x ≤ 0 := by
  show (if x < 0 then (-1 : Int) else if 0 < x then 1 else 0) ≤ 0 ↔ x ≤ 0
  split_ifs with h1 h2
  · simp [le_of_lt h1]
  · simp [not_le.2 h2]
  · have : x = 0 := le_antisymm (not_lt.1 h2) (not_lt.1 h1)
    simp [this]

theorem pairwise_orderedInsert_of {α : Type} (r : α → α → Prop) [DecidableRel r]
    (r' : α → α → Prop) (htrans : ∀ a b c, r' a b → r' b c → r' a c) (a : α) :
    ∀ s : List α, s.Pairwise r' → (∀ b ∈ s, r a b → r' a b) → (∀ b ∈ s, ¬ r a b → r' b a) →
      (s.orderedInsert r a).Pairwise r'
  | [], _, _, _ => by simp
  | b :: s, hs, h1, h2 => by
    rw [List.orderedInsert]
    rw [List.pairwise_cons] at hs
    split_ifs with hab
    · have hab' : r' a b := h1 b (List.mem_cons_self _ _) hab
      refine List.pairwise_cons.2 ⟨?_, List.pairwise_cons.2 hs⟩
      intro x hx
      rcases List.mem_cons.1 hx with rfl | hx
      · exact hab'
      · exact htrans _ _ _ hab' (hs.1 x hx)
    · have hba : r' b a := h2 b (List.mem_cons_self _ _) hab
      refine List.pairwise_cons.2 ⟨?_, ?_⟩
      · intro x hx
        rcases (List.mem_orderedInsert r).1 hx with rfl | hx
        · exact hba
        · exact hs.1 x hx
      · exact pairwise_orderedInsert_of r r' htrans a s hs.2
          (fun x hx => h1 x (List.mem_cons_of_mem _ hx))
          (fun x hx => h2 x (List.mem_cons_of_mem _ hx))

theorem pairwise_insertionSort_of {α : Type} (r : α → α → Prop) [DecidableRel r]
    (r' : α → α → Prop) (htrans : ∀ a b c, r' a b → r' b c → r' a c) :
    ∀ l : List α, (∀ a ∈ l, ∀ b ∈ l, r a b → r' a b) → (∀ a ∈ l, ∀ b ∈ l, ¬ r a b → r' b a) →
      (l.insertionSort r).Pairwise r'
  | [], _, _ => by simp
  | a :: l, h1, h2 => by
    rw [List.insertionSort]
    apply pairwise_orderedInsert_of r r' htrans
    · exact pairwise_insertionSort_of r r' htrans l
        (fun x hx y hy => h1 x (List.mem_cons_of_mem _ hx) y (List.mem_cons_of_mem _ hy))
        (fun x hx y hy => h2 x (List.mem_cons_of_mem _ hx) y (List.mem_cons_of_mem _ hy))
    · intro b hb
      exact h1 a (List.mem_cons_self _ _) b
        (List.mem_cons_of_mem _ ((List.mem_insertionSort r).1 hb))
    · intro b hb
      exact h2 a (List.mem_cons_self _ _) b
        (List.mem_cons_of_mem _ ((List.mem_insertionSort r).1 hb))

theorem perm_jsSort {α : Type} (cmp : α → α → JSNum) (l : List α) : (jsSort cmp l).Perm l :=
  List.perm_insertionSort _ l

theorem sortResolutionKeys_pairwise (keys : List String) :
    (sortResolutionKeys keys).Pairwise
      (fun a b => getResolutionScoreFromLabel b ≤ getResolutionScoreFromLabel a) := by
  unfold sortResolutionKeys jsSort
  apply pairwise_insertionSort_of
  · intro a b c hab hbc; exact le_trans hbc hab
  · intro a _ b _ h
    rw [sign_fin_nonpos] at h
    have : (getResolutionScoreFromLabel b : ℚ) ≤ getResolutionScoreFromLabel a := by linarith
    exact_mod_cast this
  · intro a _ b _ h
    rw [sign_fin_nonpos] at h
    have : (getResolutionScoreFromLabel a : ℚ) ≤ getResolutionScoreFromLabel b := by linarith
    exact_mod_cast this

theorem scoreFromLabel_injOn (a b : String) (ha : a ∈ allLabels) (hb : b ∈ allLabels)
    (h : getResolutionScoreFromLabel a = getResolutionScoreFromLabel b) : a = b := by
  simp only [allLabels, List.mem_cons, List.mem_singleton, List.not_mem_nil, or_false] at ha hb
  revert h
  rcases ha with rfl | rfl | rfl | rfl | rfl | rfl <;>
    rcases hb with rfl | rfl | rfl | rfl | rfl | rfl <;> decide

theorem sortResolutionKeys_eq (keys : List String) (hnd : keys.Nodup)
    (hsub : ∀ k ∈ keys, k ∈ allLabels) :
    sortResolutionKeys keys = allLabels.filter (fun k => decide (k ∈ keys)) := by
  have hperm : (sortResolutionKeys keys).Perm keys := perm_jsSort _ keys
  have hstrict : ∀ l : List String, l.Nodup → (∀ k ∈ l, k ∈ allLabels) →
      l.Pairwise (fun a b => getResolutionScoreFromLabel b ≤ getResolutionScoreFromLabel a) →
      l.Pairwise (fun a b => getResolutionScoreFromLabel b < getResolutionScoreFromLabel a) := by
    intro l hl hm hp
    have := (List.Pairwise.and hl hp)
    refine List.Pairwise.imp_of_mem ?_ this
    intro a b ha hb hab
    rcases lt_or_eq_of_le hab.2 with h | h
    · exact h
    · exact absurd (scoreFromLabel_injOn b a (hm b hb) (hm a ha) h).symm hab.1
  have hs1 := hstrict (sortResolutionKeys keys) (hperm.nodup_iff.2 hnd)
    (fun k hk => hsub k (hperm.mem_iff.1 hk)) (sortResolutionKeys_pairwise keys)
  have hall : allLabels.Pairwise
      (fun a b => getResolutionScoreFromLabel b < getResolutionScoreFromLabel a) := by
    decide
  have hs2 := hall.filter (fun k => decide (k ∈ keys))
  have hnd2 : (allLabels.filter (fun k => decide (k ∈ keys))).Nodup :=
    List.Nodup.filter _ (by decide)
  have hperm2 : (sortResolutionKeys keys).Perm (allLabels.filter (fun k => decide (k ∈ keys))) := by
    rw [List.perm_ext_iff_of_nodup (hperm.nodup_iff.2 hnd) hnd2]
    intro a
    rw [hperm.mem_iff, List.mem_filter]
    constructor
    · intro h; exact ⟨hsub a h, by simpa using h⟩
    · intro h; simpa using h.2
  haveI : IsAntisymm String
      (fun a b => getResolutionScoreFromLabel b < getResolutionScoreFromLabel a) :=
    ⟨fun a b h1 h2 => absurd h1 (not_lt.2 (le_of_lt h2))⟩
  exact List.eq_of_perm_of_sorted hperm2 hs1 hs2

theorem flatMap_filter_of_nil {α β : Type} (p : α → Bool) (f : α → List β) :
    ∀ l : List α, (∀ x ∈ l, p x = false → f x = []) → (l.filter p).flatMap f = l.flatMap f
  | [], _ => rfl
  | x :: l, h => by
    have ih := flatMap_filter_of_nil p f l (fun y hy => h y (List.mem_cons_of_mem _ hy))
    cases hp : p x
    · rw [List.filter_cons_of_neg (by simp [hp]), ih, List.flatMap_cons,
        h x (List.mem_cons_self _ _) hp, List.nil_append]
    · rw [List.filter_cons_of_pos hp, List.flatMap_cons, List.flatMap_cons, ih]

/-- The balanced list is, for the labels best first, the first `cap` candidates of each
label in input order. -/
theorem balance_eq_flatMap (l : List Torrent) (cap : Nat) :
    balanceStreamsByResolution l cap =
      [6, 5, 4, 3, 2, 1].flatMap
        (fun s => (l.filter (fun t => decide (getResolutionScore t = s))).take cap) := by
  unfold balanceStreamsByResolution
  simp only [lookup_groupByResolution]
  rw [sortResolutionKeys_eq _ (keys_groupByResolution_nodup l)
    (fun k hk => by
      obtain ⟨t, _, rfl⟩ := (mem_keys_groupByResolution l k).1 hk
      exact label_mem_allLabels t)]
  rw [flatMap_filter_of_nil]
  · have hf : ∀ key ∈ allLabels, (l.filter (fun t => decide (getResolutionLabel t = key)))
        = l.filter (fun t => decide (getResolutionScore t = getResolutionScoreFromLabel key)) := by
      intro key hk
      apply List.filter_congr
      intro t _
      simp only [label_eq_iff_score t key hk]
    simp only [allLabels, List.flatMap_cons, List.flatMap_nil]
    rw [hf _ (by decide), hf _ (by decide), hf _ (by decide), hf _ (by decide),
      hf _ (by decide), hf _ (by decide)]
    rfl
  · intro key _ hk
    have hnot : ¬ ∃ t ∈ l, getResolutionLabel t = key := by
      rw [← mem_keys_groupByResolution]; simpa using hk
    have : l.filter (fun t => decide (getResolutionLabel t = key)) = [] := by
      rw [List.filter_eq_nil_iff]
      intro t ht hc
      exact hnot ⟨t, ht, by simpa using hc⟩
    rw [this]; simp

/-! ## Balancing: the claims -/

theorem countP_take_filter_le (l : List Torrent) (cap s s' : Nat) :
    ((l.filter (fun t => decide (getResolutionScore t = s'))).take cap).countP
        (fun t => decide (getResolutionScore t = s)) ≤ if s = s' then cap else 0 := by
  split_ifs with h
  · exact le_trans (List.countP_le_length _) (by simp)
  · rw [Nat.le_zero, List.countP_eq_zero]
    intro t ht
    have := List.mem_filter.1 (List.mem_of_mem_take ht)
    have h2 : getResolutionScore t = s' := by simpa using this.2
    simp only [decide_eq_true_eq]
    omega

/-- C1: for every candidate list and every cap, the balanced list holds at most `cap`
candidates of any one resolution score; with the default cap no score has more than 3. -/
theorem balance_bucket_le_cap :
    (∀ (l : List Torrent) (cap s : Nat),
      (balanceStreamsByResolution l cap).countP
        (fun t => decide (getResolutionScore t = s)) ≤ cap) ∧
    (∀ (l : List Torrent) (s : Nat),
      (balanceStreamsByResolution l).countP
        (fun t => decide (getResolutionScore t = s)) ≤ 3) := by
  have key : ∀ (l : List Torrent) (cap s : Nat),
      (balanceStreamsByResolution l cap).countP
        (fun t => decide (getResolutionScore t = s)) ≤ cap := by
    intro l cap s
    rw [balance_eq_flatMap]
    simp only [List.flatMap_cons, List.flatMap_nil, List.countP_append, List.countP_nil]
    have h6 := countP_take_filter_le l cap s 6
    have h5 := countP_take_filter_le l cap s 5
    have h4 := countP_take_filter_le l cap s 4
    have h3 := countP_take_filter_le l cap s 3
    have h2 := countP_take_filter_le l cap s 2
    have h1 := countP_take_filter_le l cap s 1
    split_ifs at h6 h5 h4 h3 h2 h1 <;> omega
  exact ⟨key, fun l s => key l 3 s⟩

/-- C2: the balanced list is the concatenation, for the scores 6, 5, 4, 3, 2, 1 in this
order, of the first `cap` candidates of the input that have the score, in input order. -/
theorem balance_eq_buckets (l : List Torrent) (cap : Nat) :
    balanceStreamsByResolution l cap =
      (l.filter (fun t => decide (getResolutionScore t = 6))).take cap ++
      (l.filter (fun t => decide (getResolutionScore t = 5))).take cap ++
      (l.filter (fun t => decide (getResolutionScore t = 4))).take cap ++
      (l.filter (fun t => decide (getResolutionScore t = 3))).take cap ++
      (l.filter (fun t => decide (getResolutionScore t = 2))).take cap ++
      (l.filter (fun t => decide (getResolutionScore t = 1))).take cap := by
  rw [balance_eq_flatMap]
  simp [List.flatMap_cons]

/-! ## Ranking -/

theorem comparator_score_eq (t : Torrent) :
    Comparator.getResolutionScore t = getResolutionScore t := rfl

theorem sign_sub_self (x : JSNum) : (x.sub x).sign = 0 := by
  cases x <;> simp [JSNum.sub, JSNum.sign]

theorem compareTorrents_sign_of_key_eq (a b : Torrent) (h : rankKey a = rankKey b) :
    (compareTorrents a b).sign ≤ 0 := by
  simp only [rankKey, Prod.mk.injEq] at h
  obtain ⟨h1, h2, h3⟩ := h
  unfold compareTorrents
  simp only [comparator_score_eq, h1, h2, h3, ne_eq, not_true_eq_false, if_false]
  rw [sign_sub_self]

theorem sign_sub_nonpos (x y : JSNum) (hx : x.isNumber = true) (hy : y.isNumber = true)
    (h : (y.sub x).sign ≤ 0) : JSNum.le y x = true := by
  cases x <;> cases y <;> simp_all [JSNum.sub, JSNum.sign, JSNum.le, JSNum.isNumber]
  rename_i x y
  split_ifs at h with h1 h2
  · linarith
  · omega
  · linarith

theorem sign_sub_pos (x y : JSNum) (hx : x.isNumber = true) (hy : y.isNumber = true)
    (h : ¬ (y.sub x).sign ≤ 0) : JSNum.le x y = true := by
  cases x <;> cases y <;> simp_all [JSNum.sub, JSNum.sign, JSNum.le, JSNum.isNumber]
  rename_i x y
  split_ifs at h with h1 h2
  · omega
  · linarith
  · omega

theorem le_trans_num (x y z : JSNum) (h1 : JSNum.le x y = true) (h2 : JSNum.le y z = true) :
    JSNum.le x z = true := by
  cases x <;> cases y <;> cases z <;> simp_all [JSNum.le]
  exact le_trans h1 h2

theorem rankKeyGe_trans (a b c : Torrent) (h1 : rankKeyGe a b = true)
    (h2 : rankKeyGe b c = true) : rankKeyGe a c = true := by
  simp only [rankKeyGe, Bool.or_eq_true, Bool.and_eq_true, decide_eq_true_eq] at *
  rcases h1 with h1 | ⟨e1, h1⟩
  · rcases h2 with h2 | ⟨e2, _⟩
    · left; omega
    · left; omega
  · rcases h2 with h2 | ⟨e2, h2⟩
    · left; omega
    · right
      refine ⟨by omega, ?_⟩
      rcases h1 with h1 | ⟨f1, h1⟩
      · rcases h2 with h2 | ⟨f2, _⟩
        · left; omega
        · left; omega
      · rcases h2 with h2 | ⟨f2, h2⟩
        · left; omega
        · right; exact ⟨by omega, le_trans_num _ _ _ h2 h1⟩

theorem rankKeyGe_of_compare (a b : Torrent)
    (ha : (parseSize (some a.size)).isNumber = true)
    (hb : (parseSize (some b.size)).isNumber = true)
    (h : (compareTorrents a b).sign ≤ 0) : rankKeyGe a b = true := by
  simp only [rankKeyGe, Bool.or_eq_true, Bool.and_eq_true, decide_eq_true_eq]
  unfold compareTorrents at h
  simp only [comparator_score_eq] at h
  split_ifs at h with h1 h2
  · rw [sign_fin_nonpos] at h
    left
    have : (getResolutionScore b : ℚ) ≤ getResolutionScore a := by linarith
    have : getResolutionScore b ≤ getResolutionScore a := by exact_mod_cast this
    omega
  · rw [sign_fin_nonpos] at h
    right
    refine ⟨by simpa using h1, Or.inl ?_⟩
    have : (b.seeders : ℚ) ≤ a.seeders := by linarith
    have : b.seeders ≤ a.seeders := by exact_mod_cast this
    omega
  · right
    refine ⟨by simpa using h1, Or.inr ⟨by simpa using h2, ?_⟩⟩
    exact sign_sub_nonpos _ _ ha hb h

theorem rankKeyGe_of_not_compare (a b : Torrent)
    (ha : (parseSize (some a.size)).isNumber = true)
    (hb : (parseSize (some b.size)).isNumber = true)
    (h : ¬ (compareTorrents a b).sign ≤ 0) : rankKeyGe b a = true := by
  simp only [rankKeyGe, Bool.or_eq_true, Bool.and_eq_true, decide_eq_true_eq]
  unfold compareTorrents at h
  simp only [comparator_score_eq] at h
  split_ifs at h with h1 h2
  · rw [sign_fin_nonpos] at h
    left
    have : (getResolutionScore a : ℚ) < getResolutionScore b := by linarith
    exact_mod_cast this
  · rw [sign_fin_nonpos] at h
    right
    refine ⟨by simp at h1; omega, Or.inl ?_⟩
    have : (a.seeders : ℚ) < b.seeders := by linarith
    exact_mod_cast this
  · right
    refine ⟨by simp at h1; omega, Or.inr ⟨by simp at h2; omega, ?_⟩⟩
    exact sign_sub_pos _ _ ha hb h

/-- C3: when every size text parses to a number, the ranked list is a permutation of the
input and the key (resolution score, seeders, parsed size) of every candidate is
lexicographically greater than or equal to the key of every candidate after it. -/
theorem sortTorrents_perm_sorted (l : List Torrent)
    (h : ∀ t ∈ l, (parseSize (some t.size)).isNumber = true) :
    (sortTorrents l).Perm l ∧
      (sortTorrents l).Pairwise (fun a b => rankKeyGe a b = true) := by
  refine ⟨perm_jsSort _ l, ?_⟩
  unfold sortTorrents jsSort
  apply pairwise_insertionSort_of
  · exact rankKeyGe_trans
  · intro a ha b hb hab
    exact rankKeyGe_of_compare a b (h a ha) (h b hb) hab
  · intro a ha b hb hab
    exact rankKeyGe_of_not_compare a b (h a ha) (h b hb) hab

theorem sub_neg_of_lt (x y : JSNum) (h : JSNum.lt y x = true) :
    JSNum.lt (y.sub x) (JSNum.fin 0) = true ∧ (y.sub x).sign = -1 ∧ (x.sub y).sign = 1 := by
  cases x <;> cases y <;> simp_all [JSNum.sub, JSNum.sign, JSNum.lt]
  rename_i x y
  exact le_of_lt h

/-- C5: of two candidates with the same resolution score and the same seeder count, the one
whose size text parses to strictly more megabytes gets a negative comparator value and is
ranked first, whichever order the two come in. -/
theorem compare_larger_size_first (a b : Torrent)
    (hres : getResolutionScore a = getResolutionScore b) (hseed : a.seeders = b.seeders)
    (hsize : JSNum.lt (parseSize (some b.size)) (parseSize (some a.size)) = true) :
    JSNum.lt (compareTorrents a b) (JSNum.fin 0) = true ∧
      sortTorrents [b, a] = [a, b] ∧ sortTorrents [a, b] = [a, b] := by
  obtain ⟨h1, h2, h3⟩ := sub_neg_of_lt _ _ hsize
  have hab : compareTorrents a b = (parseSize (some b.size)).sub (parseSize (some a.size)) := by
    unfold compareTorrents
    simp [comparator_score_eq, hres, hseed]
  have hba : compareTorrents b a = (parseSize (some a.size)).sub (parseSize (some b.size)) := by
    unfold compareTorrents
    simp [comparator_score_eq, hres, hseed]
  refine ⟨by rw [hab]; exact h1, ?_, ?_⟩
  · simp [sortTorrents, jsSort, List.insertionSort, List.orderedInsert, hba, h3]
  · simp [sortTorrents, jsSort, List.insertionSort, List.orderedInsert, hab, h2]

/-- The scenario of C5: `1.2 GB` against `800 MB` with the same score and seeders. -/
theorem compare_larger_size_first_witness :
    JSNum.lt (compareTorrents
        ⟨"Film 1080p", "/t/1", 40, 2, "1.2 GB", "a", "1080p", 582, some "magnet:?xt=1"⟩
        ⟨"Film 1080p", "/t/2", 40, 7, "800 MB", "b", "1080p", 587, some "magnet:?xt=2"⟩)
      (JSNum.fin 0) = true ∧
    sortTorrents [⟨"Film 1080p", "/t/2", 40, 7, "800 MB", "b", "1080p", 587, some "magnet:?xt=2"⟩,
        ⟨"Film 1080p", "/t/1", 40, 2, "1.2 GB", "a", "1080p", 582, some "magnet:?xt=1"⟩] =
      [⟨"Film 1080p", "/t/1", 40, 2, "1.2 GB", "a", "1080p", 582, some "magnet:?xt=1"⟩,
        ⟨"Film 1080p", "/t/2", 40, 7, "800 MB", "b", "1080p", 587, some "magnet:?xt=2"⟩] ∧
    sortTorrents [⟨"Film 1080p", "/t/1", 40, 2, "1.2 GB", "a", "1080p", 582, some "magnet:?xt=1"⟩,
        ⟨"Film 1080p", "/t/2", 40, 7, "800 MB", "b", "1080p", 587, some "magnet:?xt=2"⟩] =
      [⟨"Film 1080p", "/t/1", 40, 2, "1.2 GB", "a", "1080p", 582, some "magnet:?xt=1"⟩,
        ⟨"Film 1080p", "/t/2", 40, 7, "800 MB", "b", "1080p", 587, some "magnet:?xt=2"⟩] :=
  compare_larger_size_first _ _ (by decide) (by decide) (by decide!)

/-- C3 on a list of three candidates. -/
theorem sortTorrents_perm_sorted_witness :
    (sortTorrents [⟨"Show 720p", "/t/3", 5, 0, "1 GB", "c", "720p", 210, some "magnet:?xt=3"⟩,
        ⟨"Show 1080p", "/t/4", 3, 1, "2 GB", "d", "1080p", 507, some "magnet:?xt=4"⟩,
        ⟨"Show 1080p x265", "/t/5", 3, 1, "2.5 GB", "e", "1080p", 507, some "magnet:?xt=5"⟩]).Perm
      [⟨"Show 720p", "/t/3", 5, 0, "1 GB", "c", "720p", 210, some "magnet:?xt=3"⟩,
        ⟨"Show 1080p", "/t/4", 3, 1, "2 GB", "d", "1080p", 507, some "magnet:?xt=4"⟩,
        ⟨"Show 1080p x265", "/t/5", 3, 1, "2.5 GB", "e", "1080p", 507, some "magnet:?xt=5"⟩] ∧
    (sortTorrents [⟨"Show 720p", "/t/3", 5, 0, "1 GB", "c", "720p", 210, some "magnet:?xt=3"⟩,
        ⟨"Show 1080p", "/t/4", 3, 1, "2 GB", "d", "1080p", 507, some "magnet:?xt=4"⟩,
        ⟨"Show 1080p x265", "/t/5", 3, 1, "2.5 GB", "e", "1080p", 507, some "magnet:?xt=5"⟩]).Pairwise
      (fun a b => rankKeyGe a b = true) :=
  sortTorrents_perm_sorted _ (by decide)

/-! ## Resolution score -/

theorem isInfixOf_iff (m s : List Char) : isInfixOf m s = true ↔ List.IsInfix m s := by
  induction s with
  | nil => simp [isInfixOf, List.isEmpty_iff]
  | cons c s ih =>
    rw [isInfixOf, Bool.or_eq_true, ih, List.infix_cons_iff, List.isPrefixOf_iff_prefix]

theorem isInfix_flatMap {α β : Type} (f : α → List β) (m s : List α) (h : List.IsInfix m s) :
    List.IsInfix (m.flatMap f) (s.flatMap f) := by
  obtain ⟨a, b, rfl⟩ := h
  exact ⟨a.flatMap f, b.flatMap f, by simp [List.flatMap_append]⟩

theorem includes_toLowerCase (s m : String) (h : includes s m = true) :
    includes (toLowerCase s) (toLowerCase m) = true := by
  unfold includes at *
  rw [isInfixOf_iff] at *
  exact isInfix_flatMap toLowerChar _ _ h

theorem score_le_six (t : Torrent) : getResolutionScore t ≤ 6 := by
  unfold getResolutionScore
  dsimp only
  split_ifs <;> omega

theorem score_six_of_title (t : Torrent) (h : includes t.title "2160p" = true) :
    getResolutionScore t = 6 := by
  have h' : includes (toLowerCase t.title) "2160p" = true := includes_toLowerCase _ _ h
  unfold getResolutionScore
  simp [h']

theorem score_of_only720p (t : Torrent) (h : only720p t = true) : getResolutionScore t = 3 := by
  simp only [only720p, eitherContains, Bool.and_eq_true, Bool.or_eq_true, Bool.not_eq_true',
    Bool.or_eq_false_iff] at h
  obtain ⟨⟨⟨⟨⟨⟨h720, h2160⟩, h4k⟩, h1440⟩, h1080⟩, hfhd⟩, h480⟩ := h
  unfold getResolutionScore
  simp only [h2160.1, h2160.2, h4k.1, h1440.1, h1440.2, h1080.1, h1080.2, hfhd.2,
    Bool.or_self, Bool.false_eq_true, if_false]
  rcases h720 with h | h <;> simp [h]

theorem sortTorrents_pairwise_score (l : List Torrent) :
    (sortTorrents l).Pairwise (fun a b => getResolutionScore b ≤ getResolutionScore a) := by
  unfold sortTorrents jsSort
  apply pairwise_insertionSort_of
  · intro a b c hab hbc; exact le_trans hbc hab
  · intro a _ b _ h
    unfold compareTorrents at h
    simp only [comparator_score_eq] at h
    split_ifs at h with h1
    · rw [sign_fin_nonpos] at h
      have : (getResolutionScore b : ℚ) ≤ getResolutionScore a := by linarith
      exact_mod_cast this
    · simp at h1; omega
    · simp at h1; omega
  · intro a _ b _ h
    unfold compareTorrents at h
    simp only [comparator_score_eq] at h
    split_ifs at h with h1
    · rw [sign_fin_nonpos] at h
      have : (getResolutionScore a : ℚ) < getResolutionScore b := by linarith
      have : getResolutionScore a < getResolutionScore b := by exact_mod_cast this
      omega
    · simp at h1; omega
    · simp at h1; omega

/-- C6, counterexample: a candidate whose title holds `FHD` and whose quality tag is `720p`
scores 3, where the claim's wording (every marker looked for in title and tag) gives 4. -/
theorem score_differs_from_spec_wording :
    getResolutionScore
        ⟨"Some.Movie.2019.FHD.x264", "/torrent/1/", 12, 3, "1.4 GB", "up", "720p", 227, none⟩ = 3 ∧
      specResolutionScore
        ⟨"Some.Movie.2019.FHD.x264", "/torrent/1/", 12, 3, "1.4 GB", "up", "720p", 227, none⟩ = 4 := by
  decide

/-- C6, amended: the score follows the markers in priority order, letter case ignored, with
`4K` looked for in the title only and `FHD`, `HD` in the quality tag only. -/
theorem score_by_markers (t : Torrent) :
    getResolutionScore t =
      if includes (toLowerCase t.title) "4k" || eitherContains t "2160p" then 6
      else if eitherContains t "1440p" then 5
      else if eitherContains t "1080p" || includes (toLowerCase t.quality) "fhd" then 4
      else if eitherContains t "720p" || includes (toLowerCase t.quality) "hd" then 3
      else if eitherContains t "480p" then 2
      else 1 := by
  unfold getResolutionScore eitherContains
  simp only [Bool.or_assoc]

/-- C7: a candidate whose title contains `2160p` scores at least as much as a candidate
whose only resolution marker is `720p`, whatever their seeders and sizes; the comparator
puts it first and no ranked list has it after the other. -/
theorem score_2160p_ge_720p (a b : Torrent) (ha : includes a.title "2160p" = true)
    (hb : only720p b = true) :
    getResolutionScore b ≤ getResolutionScore a ∧
      JSNum.lt (compareTorrents a b) (JSNum.fin 0) = true ∧
      ∀ l : List Torrent, ¬ List.Sublist [b, a] (sortTorrents l) := by
  have h6 := score_six_of_title a ha
  have h3 := score_of_only720p b hb
  refine ⟨by omega, ?_, ?_⟩
  · unfold compareTorrents
    simp only [comparator_score_eq, h6, h3]
    norm_num [JSNum.lt]
  · intro l hsub
    have hp := (sortTorrents_pairwise_score l).sublist hsub
    rw [List.pairwise_pair] at hp
    omega

/-- C7 on a `2160p` candidate without seeders and a well seeded, larger `720p` one. -/
theorem score_2160p_ge_720p_witness :
    getResolutionScore ⟨"Film 720p WEB", "/t/7", 900, 80, "9 GB", "g", "720p", 2080, none⟩ ≤
        getResolutionScore ⟨"Film 2160p HDR", "/t/6", 0, 0, "1 MB", "f", "2160p", 1000, none⟩ ∧
      JSNum.lt (compareTorrents
          ⟨"Film 2160p HDR", "/t/6", 0, 0, "1 MB", "f", "2160p", 1000, none⟩
          ⟨"Film 720p WEB", "/t/7", 900, 80, "9 GB", "g", "720p", 2080, none⟩)
        (JSNum.fin 0) = true ∧
      ∀ l : List Torrent, ¬ List.Sublist
        [⟨"Film 720p WEB", "/t/7", 900, 80, "9 GB", "g", "720p", 2080, none⟩,
          ⟨"Film 2160p HDR", "/t/6", 0, 0, "1 MB", "f", "2160p", 1000, none⟩]
        (sortTorrents l) :=
  score_2160p_ge_720p _ _ (by decide) (by decide)

/-! ## Size parsing -/

theorem digit_cases (c : Char) (h : c.isDigit = true) : c ∈ "0123456789".data := by
  have h' : 48 ≤ c.toNat ∧ c.toNat ≤ 57 := by
    simp only [Char.isDigit, Bool.and_eq_true, decide_eq_true_eq, ge_iff_le] at h
    exact ⟨h.1, h.2⟩
  have hc : c = Char.ofNat c.toNat := (Char.ofNat_toNat c).symm
  obtain ⟨h1, h2⟩ := h'
  rw [hc]
  generalize c.toNat = n at *
  interval_cases n <;> decide

theorem digit_plain (c : Char) (h : c.isDigit = true) : plainChar c = true := by
  have := digit_cases c h
  revert this
  generalize c = x
  simp only [String.data, List.mem_cons, List.mem_singleton, List.not_mem_nil, or_false]
  rintro (rfl | rfl | rfl | rfl | rfl | rfl | rfl | rfl | rfl | rfl) <;> decide

theorem takeWhile_digits (ds rest : List Char) (hd : ∀ c ∈ ds, c.isDigit = true)
    (hr : ∀ c r, rest = c :: r → c.isDigit = false) :
    (ds ++ rest).takeWhile Char.isDigit = ds ∧ (ds ++ rest).dropWhile Char.isDigit = rest := by
  induction ds with
  | nil =>
    cases rest with
    | nil => simp
    | cons c r => simp [List.takeWhile, List.dropWhile, hr c r rfl]
  | cons d ds ih =>
    have hd' := hd d (List.mem_cons_self _ _)
    have := ih (fun c hc => hd c (List.mem_cons_of_mem _ hc))
    simp [List.takeWhile, List.dropWhile, hd', this.1, this.2]

theorem parseExponent_stop (rest : List Char) (hrest : rest = [] ∨ ∃ r, rest = ' ' :: r) :
    parseExponent rest = 0 := by
  rcases hrest with rfl | ⟨r, rfl⟩
  · rfl
  · simp [parseExponent]

theorem parseUnsigned_decimal (ip fp rest : List Char) (hip : ip ≠ [])
    (hd1 : ∀ c ∈ ip, c.isDigit = true) (hd2 : ∀ c ∈ fp, c.isDigit = true)
    (hrest : rest = [] ∨ ∃ r, rest = ' ' :: r) :
    parseUnsigned (decimalText ip fp ++ rest) = JSNum.fin (decimalValue ip fp) := by
  have hstop : ∀ c r, rest = c :: r → c.isDigit = false := by
    intro c r h
    rcases hrest with h0 | ⟨r', h0⟩
    · rw [h0] at h; cases h
    · rw [h0] at h; cases h; decide
  have hexp := parseExponent_stop rest hrest
  have hnotinf : "Infinity".data.isPrefixOf (decimalText ip fp ++ rest) = false := by
    cases ip with
    | nil => exact absurd rfl hip
    | cons d ip' =>
      have hp := digit_plain d (hd1 d (List.mem_cons_self _ _))
      simp only [plainChar, Bool.and_eq_true, bne_iff_ne, ne_eq] at hp
      have hI : ¬ d = 'I' := hp.1.1.1.2
      unfold decimalText
      split_ifs <;> simp [List.isPrefixOf, hI, Ne.symm hI]
  unfold parseUnsigned
  rw [hnotinf]
  simp only [Bool.false_eq_true, if_false]
  by_cases hfp : fp = []
  · subst hfp
    simp only [decimalText, List.isEmpty_nil, if_true]
    obtain ⟨h1, h2⟩ := takeWhile_digits ip rest hd1 hstop
    rw [h1, h2]
    have hnotdot : ∀ r, rest ≠ '.' :: r := by
      intro r h
      rcases hrest with h0 | ⟨r', h0⟩
      · rw [h0] at h; cases h
      · rw [h0] at h; cases h
    have hipE : ip.isEmpty = false := by
      cases ip with
      | nil => exact absurd rfl hip
      | cons _ _ => rfl
    split
    · exact absurd rfl (hnotdot _)
    · simp [hipE, hexp, decimalValue, natOfDigits]
  · have hfpE : fp.isEmpty = false := by
      cases fp with
      | nil => exact absurd rfl hfp
      | cons _ _ => rfl
    simp only [decimalText, hfpE, Bool.false_eq_true, if_false]
    have hdot : ∀ c r, ('.' :: fp ++ rest) = c :: r → c.isDigit = false := by
      intro c r h; cases h; decide
    have e1 : ip ++ '.' :: fp ++ rest = ip ++ ('.' :: fp ++ rest) := by simp
    obtain ⟨h1, h2⟩ := takeWhile_digits ip ('.' :: fp ++ rest) hd1 hdot
    obtain ⟨h3, h4⟩ := takeWhile_digits fp rest hd2 hstop
    rw [e1, h1, h2]
    simp only [List.cons_append, h3, h4, hfpE, Bool.and_false, Bool.false_eq_true, if_false,
      hexp, zpow_zero, mul_one, decimalValue]

theorem parseFloat_decimal (ip fp rest : List Char) (hip : ip ≠ [])
    (hd1 : ∀ c ∈ ip, c.isDigit = true) (hd2 : ∀ c ∈ fp, c.isDigit = true)
    (hrest : rest = [] ∨ ∃ r, rest = ' ' :: r) :
    parseFloat ⟨decimalText ip fp ++ rest⟩ = JSNum.fin (decimalValue ip fp) := by
  have hpu := parseUnsigned_decimal ip fp rest hip hd1 hd2 hrest
  obtain ⟨d, tl, htext⟩ : ∃ d tl, decimalText ip fp ++ rest = d :: tl ∧ plainChar d = true := by
    cases ip with
    | nil => exact absurd rfl hip
    | cons d ip' =>
      have hp := digit_plain d (hd1 d (List.mem_cons_self _ _))
      unfold decimalText
      split_ifs
      · exact ⟨d, ip' ++ rest, rfl, hp⟩
      · exact ⟨d, ip' ++ '.' :: fp ++ rest, by simp, hp⟩
  obtain ⟨htext, hp⟩ := htext
  rw [htext] at hpu
  simp only [plainChar, Bool.and_eq_true, bne_iff_ne, ne_eq, Bool.not_eq_true'] at hp
  obtain ⟨⟨⟨⟨⟨⟨hws, hminus⟩, hplus⟩, _⟩, _⟩, _⟩, _⟩ := hp
  unfold parseFloat
  simp only [htext, List.dropWhile, hws]
  split
  · rename_i r heq; cases heq; exact absurd rfl hminus
  · rename_i r heq; cases heq; exact absurd rfl hplus
  · exact hpu

theorem decimalText_chars (ip fp : List Char) (hd1 : ∀ c ∈ ip, c.isDigit = true)
    (hd2 : ∀ c ∈ fp, c.isDigit = true) :
    ∀ c ∈ decimalText ip fp, toLowerChar c = [c] ∧ c ≠ 'g' := by
  have hdig : ∀ c : Char, c.isDigit = true → toLowerChar c = [c] ∧ c ≠ 'g' := by
    intro c hc
    have hp := digit_plain c hc
    simp only [plainChar, Bool.and_eq_true, bne_iff_ne, ne_eq, beq_iff_eq] at hp
    exact ⟨hp.2, hp.1.2⟩
  intro c hc
  unfold decimalText at hc
  split_ifs at hc
  · exact hdig c (hd1 c hc)
  · rcases List.mem_append.1 hc with h | h
    · exact hdig c (hd1 c h)
    · rcases List.mem_cons.1 h with rfl | h
      · exact ⟨by decide, by decide⟩
      · exact hdig c (hd2 c h)

theorem flatMap_toLowerChar_self :
    ∀ l : List Char, (∀ c ∈ l, toLowerChar c = [c] ∧ c ≠ 'g') →
      l.flatMap toLowerChar = l ∧ 'g' ∉ l
  | [], _ => by simp
  | c :: l, h => by
    obtain ⟨ih1, ih2⟩ := flatMap_toLowerChar_self l
      (fun x hx => h x (List.mem_cons_of_mem _ hx))
    obtain ⟨h1, h2⟩ := h c (List.mem_cons_self _ _)
    refine ⟨by rw [List.flatMap_cons, h1, ih1]; rfl, ?_⟩
    intro hg
    rcases List.mem_cons.1 hg with e | e
    · exact h2 e.symm
    · exact ih2 e

theorem not_includes_of_not_mem (s : List Char) (hg : 'g' ∉ s) :
    isInfixOf "gb".data s = false := by
  rw [Bool.eq_false_iff]
  intro h
  rw [isInfixOf_iff] at h
  exact hg (h.subset (List.mem_cons_self _ _))

/-- C8: for every decimal number `X` (integer digits, optional fraction digits) the size text
`X GB` parses to `X * 1024`, `X MB` parses to `X`, the text `X` alone parses to `X`; an absent
size text and the empty size text parse to `0`. -/
theorem parseSize_units (ip fp : List Char) (hip : ip ≠ [])
    (hd1 : ∀ c ∈ ip, c.isDigit = true) (hd2 : ∀ c ∈ fp, c.isDigit = true) :
    parseSize (some ⟨decimalText ip fp ++ " GB".data⟩) =
        JSNum.fin (decimalValue ip fp * 1024) ∧
      parseSize (some ⟨decimalText ip fp ++ " MB".data⟩) = JSNum.fin (decimalValue ip fp) ∧
      parseSize (some ⟨decimalText ip fp⟩) = JSNum.fin (decimalValue ip fp) ∧
      parseSize none = JSNum.fin 0 ∧ parseSize (some "") = JSNum.fin 0 := by
  obtain ⟨hlow, hg⟩ := flatMap_toLowerChar_self _ (decimalText_chars ip fp hd1 hd2)
  have hne : (decimalText ip fp).isEmpty = false := by
    cases ip with
    | nil => exact absurd rfl hip
    | cons d ip' => unfold decimalText; split_ifs <;> rfl
  have hne2 : ∀ r : List Char, (decimalText ip fp ++ r).isEmpty = false := by
    intro r
    cases h : decimalText ip fp with
    | nil => rw [h] at hne; cases hne
    | cons _ _ => rfl
  have hGB := parseFloat_decimal ip fp " GB".data hip hd1 hd2 (Or.inr ⟨_, rfl⟩)
  have hMB := parseFloat_decimal ip fp " MB".data hip hd1 hd2 (Or.inr ⟨_, rfl⟩)
  have hX := parseFloat_decimal ip fp [] hip hd1 hd2 (Or.inl rfl)
  rw [List.append_nil] at hX
  refine ⟨?_, ?_, ?_, rfl, rfl⟩
  · have hinc : includes (toLowerCase ⟨decimalText ip fp ++ " GB".data⟩) "gb" = true := by
      unfold includes toLowerCase
      rw [isInfixOf_iff]
      refine ⟨(decimalText ip fp).flatMap toLowerChar ++ [' '], [], ?_⟩
      simp only [List.flatMap_append, List.append_nil, List.append_assoc]
      rfl
    unfold parseSize
    simp only [hne2, Bool.false_eq_true, if_false, hinc, if_true, hGB, JSNum.mulPos]
  · have hinc : includes (toLowerCase ⟨decimalText ip fp ++ " MB".data⟩) "gb" = false := by
      unfold includes toLowerCase
      apply not_includes_of_not_mem
      simp only [List.flatMap_append, hlow]
      intro h
      rcases List.mem_append.1 h with e | e
      · exact hg e
      · revert e; decide
    unfold parseSize
    simp only [hne2, Bool.false_eq_true, if_false, hinc, hMB, ite_self]
  · have hinc : includes (toLowerCase ⟨decimalText ip fp⟩) "gb" = false := by
      unfold includes toLowerCase
      apply not_includes_of_not_mem
      simp only [hlow]
      exact hg
    unfold parseSize
    simp only [hne, Bool.false_eq_true, if_false, hinc, hX, ite_self]

/-- C8 for the number `1.2`. -/
theorem parseSize_units_witness :
    parseSize (some ⟨decimalText ['1'] ['2'] ++ " GB".data⟩) =
        JSNum.fin (decimalValue ['1'] ['2'] * 1024) ∧
      parseSize (some ⟨decimalText ['1'] ['2'] ++ " MB".data⟩) =
        JSNum.fin (decimalValue ['1'] ['2']) ∧
      parseSize (some ⟨decimalText ['1'] ['2']⟩) = JSNum.fin (decimalValue ['1'] ['2']) ∧
      parseSize none = JSNum.fin 0 ∧ parseSize (some "") = JSNum.fin 0 :=
  parseSize_units ['1'] ['2'] (by decide) (by decide) (by decide)

/-! ## Fallback search -/

theorem find_foldl_unique (p : String → Bool) (l : List String) :
    ∀ seen : List String,
      (l.foldl (fun seen v => if v ∈ seen then seen else seen ++ [v]) seen).find? p =
        (seen ++ l).find? p := by
  induction l with
  | nil => intro seen; simp
  | cons v l ih =>
    intro seen
    rw [List.foldl_cons, ih]
    by_cases hv : v ∈ seen
    · rw [if_pos hv]
      simp only [List.find?_append, List.find?_cons]
      cases hs : seen.find? p with
      | some x => simp
      | none =>
        have hpv : p v = false := by
          have := List.find?_eq_none.1 hs v hv
          simpa using this
        simp [hpv]
    · rw [if_neg hv]
      simp

theorem find_uniqueVariations (p : String → Bool) (l : List String) :
    (uniqueVariations l).find? p = l.find? p := by
  unfold uniqueVariations
  rw [find_foldl_unique]
  simp

theorem tryVariations_eq_find (search : String → List Torrent) (l : List String) :
    tryVariations search l =
      match l.find? (isHit search) with
      | some variation => search variation
      | none => [] := by
  induction l with
  | nil => rfl
  | cons v l ih =>
    rw [tryVariations, List.find?_cons]
    by_cases hb : (trim v).data.isEmpty = true
    · simp only [hb, Bool.not_true, Bool.false_eq_true, if_false, isHit, Bool.false_and]
      exact ih
    · have hb' : (trim v).data.isEmpty = false := by simpa using hb
      by_cases hs : (search v).length > 0
      · have hs' : (search v).isEmpty = false := by
          cases h : search v with
          | nil => rw [h] at hs; simp at hs
          | cons _ _ => rfl
        simp [hb', hs, isHit, hs']
      · have hs' : (search v).isEmpty = true := by
          cases h : search v with
          | nil => rfl
          | cons _ _ => rw [h] at hs; simp at hs
        simp only [hb', Bool.not_false, if_true, hs, if_false, isHit, hs', Bool.not_true,
          Bool.and_false]
        exact ih

theorem tryVariations_unique_eq_firstHit (search : String → List Torrent) (l : List String) :
    tryVariations search (uniqueVariations l) = firstHit search l := by
  rw [tryVariations_eq_find, find_uniqueVariations]
  rfl

theorem firstHit_eq_nil_of_no_hit (search : String → List Torrent) (l : List String)
    (h : ∀ v ∈ l, (trim v).data.isEmpty = true ∨ search v = []) : firstHit search l = [] := by
  unfold firstHit
  have : l.find? (isHit search) = none := by
    rw [List.find?_eq_none]
    intro v hv
    rcases h v hv with e | e
    · simp [isHit, e]
    · simp [isHit, e]
  rw [this]

/-- C9: the loop over the variations the handler tries (duplicates removed) ends with the
search result of the first variation, in list order, that is not blank and has a non-empty
result, and with the empty list when there is none; the handler's candidate list is that
result in the sports branch and in the series branch (a descriptor without variations gets
one search of its query), and an empty candidate list makes the handler answer no stream. -/
theorem fallback_first_hit (createStream : Torrent → Except String (Option StreamRecord))
    (net : Network) (type : String) (p : ParseResult) (q : String)
    (hq : p.searchQuery = some q) :
    (∀ (search : String → List Torrent) (variations : List String),
      tryVariations search (uniqueVariations variations) = firstHit search variations) ∧
    (∀ (search : String → List Torrent) (variations : List String),
      (∀ v ∈ variations, (trim v).data.isEmpty = true ∨ search v = []) →
        tryVariations search (uniqueVariations variations) = []) ∧
    (∀ search : String → List Torrent,
      findTorrents search type p q =
        if isWWEContent p.isWWE q then firstHit search (wweVariations q p.searchVariations)
        else if (p.isTV || decide (type = "series")) && p.searchVariations.isSome then
          firstHit search (p.searchVariations.getD [])
        else search q) ∧
    (findTorrents (fun v => searchAndGetComplete net v type p.year p.season p.episode)
        type p q = [] →
      handleParsed createStream net type p = []) := by
  refine ⟨tryVariations_unique_eq_firstHit, ?_, ?_, ?_⟩
  · intro search variations h
    rw [tryVariations_unique_eq_firstHit]
    exact firstHit_eq_nil_of_no_hit search variations h
  · intro search
    unfold findTorrents
    simp only [tryVariations_unique_eq_firstHit]
  · intro h
    unfold handleParsed
    simp only [hq, h, List.length_nil, if_true, ite_self]

/-- C9 on a network that is down: no variation yields a candidate, no stream is returned. -/
theorem fallback_first_hit_witness :
    sampleSeries.searchQuery = some "Dark S01E02" ∧
      findTorrents (fun v => searchAndGetComplete downNetwork v "series" sampleSeries.year
        sampleSeries.season sampleSeries.episode) "series" sampleSeries "Dark S01E02" = [] ∧
      handleParsed (fun _ => Except.ok none) downNetwork "series" sampleSeries = [] :=
  ⟨rfl, by decide,
    (fallback_first_hit (fun _ => Except.ok none) downNetwork "series" sampleSeries
      "Dark S01E02" rfl).2.2.2 (by decide)⟩

theorem searchAndGetComplete_of_fail (net : Network) (query type : String)
    (year season episode : Option Int)
    (h : ∃ e, net.fetchRows (searchRequest query type year season episode).1
      (searchRequest query type year season episode).2 = Except.error e) :
    searchAndGetComplete net query type year season episode = [] := by
  obtain ⟨e, he⟩ := h
  unfold searchAndGetComplete searchMovies searchTVShows searchTorrents
  unfold searchRequest at he
  by_cases h1 : type = "movie"
  · rw [if_pos h1] at he
    rw [if_pos h1, he]; rfl
  · by_cases h2 : type = "series"
    · rw [if_neg h1, if_pos h2] at he
      rw [if_neg h1, if_pos h2, he]; rfl
    · rw [if_neg h1, if_neg h2] at he
      rw [if_neg h1, if_neg h2, he]; rfl

/-- C10: a search whose request fails yields the empty list, so the loop goes on: when the
search of a variation before `vj` fails, every variation before `vj` is blank, yields nothing
or fails, and `vj` is not blank and yields candidates, the loop ends with those of `vj`. -/
theorem failed_search_skipped (net : Network) (type : String)
    (year season episode : Option Int) (pre post : List String) (vi vj : String)
    (_hi : vi ∈ pre)
    (hfail : ∃ e, net.fetchRows (searchRequest vi type year season episode).1
      (searchRequest vi type year season episode).2 = Except.error e)
    (hpre : ∀ v ∈ pre, (trim v).data.isEmpty = true ∨
      searchAndGetComplete net v type year season episode = [] ∨
      ∃ e, net.fetchRows (searchRequest v type year season episode).1
        (searchRequest v type year season episode).2 = Except.error e)
    (hj : (trim vj).data.isEmpty = false)
    (hres : searchAndGetComplete net vj type year season episode ≠ []) :
    searchAndGetComplete net vi type year season episode = [] ∧
      tryVariations (fun v => searchAndGetComplete net v type year season episode)
          (uniqueVariations (pre ++ vj :: post)) =
        searchAndGetComplete net vj type year season episode := by
  refine ⟨searchAndGetComplete_of_fail net vi type year season episode hfail, ?_⟩
  rw [tryVariations_unique_eq_firstHit]
  unfold firstHit
  have hnone : pre.find? (isHit fun v => searchAndGetComplete net v type year season episode)
      = none := by
    rw [List.find?_eq_none]
    intro v hv
    rcases hpre v hv with e | e | e
    · simp [isHit, e]
    · simp [isHit, e]
    · simp [isHit, searchAndGetComplete_of_fail net v type year season episode e]
  have hhit : isHit (fun v => searchAndGetComplete net v type year season episode) vj = true := by
    have : (searchAndGetComplete net vj type year season episode).isEmpty = false := by
      cases h : searchAndGetComplete net vj type year season episode with
      | nil => exact absurd h hres
      | cons _ _ => rfl
    simp [isHit, hj, this]
  rw [List.find?_append, hnone, List.find?_cons, hhit]
  rfl

/-- C10 on a network where the first variation's request fails, the second variation is
blank and the third finds a row. -/
theorem failed_search_skipped_witness :
    searchAndGetComplete flakyNetwork "WWE Raw 2024" "series" none none none = [] ∧
      tryVariations (fun v => searchAndGetComplete flakyNetwork v "series" none none none)
          (uniqueVariations (["WWE Raw 2024", " "] ++ "Raw 2024" :: ["WWE Raw S31E11"])) =
        searchAndGetComplete flakyNetwork "Raw 2024" "series" none none none :=
  failed_search_skipped flakyNetwork "series" none none none ["WWE Raw 2024", " "]
    ["WWE Raw S31E11"] "WWE Raw 2024" "Raw 2024" (by decide) ⟨_, rfl⟩
    (by
      intro v hv
      rcases List.mem_cons.1 hv with rfl | hv
      · exact Or.inr (Or.inr ⟨_, rfl⟩)
      · rcases List.mem_cons.1 hv with rfl | hv
        · exact Or.inl (by decide)
        · cases hv)
    (by decide) (by decide)

/-! ## Identifier parsing -/

theorem splitColonAux_ne_nil (s : List Char) : splitColonAux s ≠ [] := by
  induction s with
  | nil => simp [splitColonAux]
  | cons c s ih =>
    rw [splitColonAux]
    cases h : splitColonAux s with
    | nil => simp
    | cons p ps => simp only; split_ifs <;> simp

theorem splitColonAux_no_colon (s : List Char) (h : ':' ∉ s) : splitColonAux s = [s] := by
  induction s with
  | nil => rfl
  | cons c s ih =>
    have hc : c ≠ ':' := fun e => h (by simp [e])
    have hs : ':' ∉ s := fun e => h (List.mem_cons_of_mem _ e)
    rw [splitColonAux, ih hs]
    simp [hc]

theorem splitColonAux_append (a b : List Char) (h : ':' ∉ a) :
    splitColonAux (a ++ ':' :: b) = a :: splitColonAux b := by
  induction a with
  | nil =>
    rw [List.nil_append, splitColonAux]
    cases hb : splitColonAux b with
    | nil => exact absurd hb (splitColonAux_ne_nil b)
    | cons p ps => simp
  | cons c a ih =>
    have hc : c ≠ ':' := fun e => h (by simp [e])
    have hs : ':' ∉ a := fun e => h (List.mem_cons_of_mem _ e)
    rw [List.cons_append, splitColonAux, ih hs]
    simp [hc]

theorem digits_no_colon (ds : List Char) (hd : ∀ c ∈ ds, c.isDigit = true) : ':' ∉ ds := by
  intro h
  have := hd _ h
  revert this
  decide

theorem parseInt_digits (ds : List Char) (hne : ds ≠ []) (hd : ∀ c ∈ ds, c.isDigit = true) :
    parseInt ⟨ds⟩ = JSInt.int (natOfDigits ds) := by
  cases ds with
  | nil => exact absurd rfl hne
  | cons d tl =>
    have hp := digit_plain d (hd d (List.mem_cons_self _ _))
    simp only [plainChar, Bool.and_eq_true, bne_iff_ne, ne_eq, Bool.not_eq_true'] at hp
    obtain ⟨⟨⟨⟨⟨⟨hws, hminus⟩, hplus⟩, _⟩, _⟩, _⟩, _⟩ := hp
    have htake : (d :: tl).takeWhile Char.isDigit = d :: tl := by
      rw [List.takeWhile_eq_self_iff]
      exact hd
    have hun : parseIntUnsigned (d :: tl) = some (natOfDigits (d :: tl)) := by
      unfold parseIntUnsigned
      split
      · rename_i r heq
        cases heq
        have hx : 'x'.isDigit = true := hd 'x' (by simp)
        exact absurd hx (by decide)
      · rename_i r heq
        cases heq
        have hx : 'X'.isDigit = true := hd 'X' (by simp)
        exact absurd hx (by decide)
      · simp only [htake]
        rfl
    unfold parseInt
    simp only [List.dropWhile, hws]
    split
    · rename_i r heq; cases heq; exact absurd rfl hminus
    · rename_i r heq; cases heq; exact absurd rfl hplus
    · rw [hun]

theorem includes_colon (a b : List Char) : includes ⟨a ++ ':' :: b⟩ ":" = true := by
  unfold includes
  rw [isInfixOf_iff]
  exact ⟨a, b, by simp⟩

/-- The series branch: an identifier made of an id starting with `tt`, a season and an
episode written in digits, with metadata found. -/
theorem parseStreamId_series (lookup : String → Except String (Option OmdbData))
    (currentYear : Nat) (imdbId : String) (sText eText : List Char) (omdbData : OmdbData)
    (htt : startsWith imdbId "tt" = true) (hnc : ':' ∉ imdbId.data)
    (hs : sText ≠ []) (hsd : ∀ c ∈ sText, c.isDigit = true)
    (he : eText ≠ []) (hed : ∀ c ∈ eText, c.isDigit = true)
    (hlookup : lookup imdbId = Except.ok (some omdbData)) :
    parseStreamId lookup currentYear ⟨imdbId.data ++ ':' :: sText ++ ':' :: eText⟩ =
      seriesDescriptor omdbData (JSInt.int (natOfDigits sText))
        (JSInt.int (natOfDigits eText)) := by
  have hinc : includes ⟨imdbId.data ++ ':' :: sText ++ ':' :: eText⟩ ":" = true := by
    have := includes_colon imdbId.data (sText ++ ':' :: eText)
    simpa using this
  have hsplit : splitColon ⟨imdbId.data ++ ':' :: sText ++ ':' :: eText⟩ =
      [imdbId, ⟨sText⟩, ⟨eText⟩] := by
    unfold splitColon
    have e1 : imdbId.data ++ ':' :: sText ++ ':' :: eText =
        imdbId.data ++ ':' :: (sText ++ ':' :: eText) := by simp
    simp only [e1]
    rw [splitColonAux_append _ _ hnc, splitColonAux_append _ _ (digits_no_colon _ hsd),
      splitColonAux_no_colon _ (digits_no_colon _ hed)]
    rfl
  unfold parseStreamId
  simp only [hinc, Bool.not_true, Bool.and_false, Bool.false_eq_true, if_false, hsplit, htt,
    List.isEmpty_cons, Bool.not_false, Bool.and_self, if_true, List.head?_cons,
    Option.getD_some, hlookup, parseInt_digits _ hs hsd, parseInt_digits _ he hed]

theorem toDigitsCore_length_pos (b f n : Nat) (ds : List Char) :
    0 < (Nat.toDigitsCore b (f + 1) n ds).length := by
  induction f generalizing n ds with
  | zero =>
    simp only [Nat.toDigitsCore]
    split_ifs <;> simp
  | succ f ih =>
    rw [Nat.toDigitsCore]
    split_ifs
    · simp
    · exact ih _ _

theorem repr_length_ge_two (n : Nat) (h : 10 ≤ n) : 2 ≤ (Nat.repr n).data.length := by
  have hdiv : ¬ n / 10 = 0 := by omega
  obtain ⟨m, rfl⟩ : ∃ m, n = m + 1 := ⟨n - 1, by omega⟩
  show 2 ≤ (Nat.toDigitsCore 10 (m + 1 + 1) (m + 1) []).length
  rw [Nat.toDigitsCore]
  simp only [hdiv, if_false]
  rw [Nat.toDigitsCore_lens_eq]
  have := toDigitsCore_length_pos 10 m ((m + 1) / 10) []
  omega

theorem padStart2_toString (n : Nat) : padStart2 (toString n) = zeroPad2 n := by
  unfold zeroPad2
  split_ifs with h
  · interval_cases n <;> decide
  · have h2 := repr_length_ge_two n (by omega)
    unfold padStart2
    have hlen : 2 - (toString n).data.length = 0 := by
      show 2 - (Nat.repr n).data.length = 0
      omega
    rw [hlen]
    rfl

theorem pad2_nat (n : Nat) : pad2 (JSInt.int (n : Int)) = zeroPad2 n := by
  rw [← padStart2_toString]
  rfl

theorem tvSeriesVariations_head (searchInfo : SearchInfo) (season episode : JSInt) :
    (tvSeriesVariations searchInfo season episode).head? =
      some (searchInfo.title ++ " " ++ ("S" ++ pad2 season ++ "E" ++ pad2 episode)) := by
  unfold tvSeriesVariations
  dsimp only
  split_ifs <;> rfl

theorem seriesDescriptor_query_regular (omdbData : OmdbData) (season episode : JSInt)
    (hns : isSportsSeries omdbData.Title = false) :
    (seriesDescriptor omdbData season episode).searchQuery =
      some (omdbData.Title ++ " " ++ ("S" ++ pad2 season ++ "E" ++ pad2 episode)) := by
  unfold seriesDescriptor
  have ht : (formatForSearch omdbData).title = omdbData.Title := rfl
  simp only [ht, hns, Bool.false_eq_true, if_false, tvSeriesVariations_head]

theorem append_space_S (t a b : String) :
    t ++ " " ++ ("S" ++ a ++ "E" ++ b) = t ++ " S" ++ a ++ "E" ++ b := by
  apply String.ext
  simp [String.data_append]

/-- C12: for a series identifier `tt<id>:<s>:<e>` with `s` and `e` written in digits and
metadata whose title `T` is not flagged as sports content, the primary query is `T`, ` S`,
`s` zero-padded to two digits, `E`, `e` zero-padded to two digits. -/
theorem series_primary_query (lookup : String → Except String (Option OmdbData))
    (currentYear : Nat) (imdbId : String) (sText eText : List Char) (T Y ty : String)
    (htt : startsWith imdbId "tt" = true) (hnc : ':' ∉ imdbId.data)
    (hs : sText ≠ []) (hsd : ∀ c ∈ sText, c.isDigit = true)
    (he : eText ≠ []) (hed : ∀ c ∈ eText, c.isDigit = true)
    (hlookup : lookup imdbId = Except.ok (some ⟨T, Y, ty⟩))
    (hns : isSportsSeries T = false) :
    (parseStreamId lookup currentYear ⟨imdbId.data ++ ':' :: sText ++ ':' :: eText⟩).searchQuery =
      some (T ++ " S" ++ zeroPad2 (natOfDigits sText) ++ "E" ++ zeroPad2 (natOfDigits eText)) := by
  rw [parseStreamId_series lookup currentYear imdbId sText eText ⟨T, Y, ty⟩ htt hnc hs hsd he hed
    hlookup, seriesDescriptor_query_regular _ _ _ hns, pad2_nat, pad2_nat, append_space_S]

/-- The scenario of C12: `tt0944947:1:1` with the metadata of Game of Thrones. -/
theorem series_primary_query_witness :
    (parseStreamId gotLookup 2026 "tt0944947:1:1").searchQuery =
      some "Game of Thrones S01E01" :=
  series_primary_query gotLookup 2026 "tt0944947" ['1'] ['1'] "Game of Thrones" "2011" "series"
    (by decide) (by decide) (by decide) (by decide) (by decide) (by decide) rfl (by decide)

/-! ## The descriptor and its variations -/

theorem parseImdbIdFallback_variations (id : String) :
    (parseImdbIdFallback id).searchVariations = none := by
  unfold parseImdbIdFallback
  split
  · split_ifs <;> rfl
  · rfl

theorem simpleDescriptor_variations (omdbData : OmdbData) :
    (simpleDescriptor omdbData).searchVariations = none := by
  unfold simpleDescriptor
  dsimp only
  split_ifs <;> rfl

theorem parseWWEContent_variations (currentYear : Nat) (input : String) (d : Descriptor)
    (h : parseWWEContent currentYear input = some d) : d.searchVariations = none := by
  unfold parseWWEContent at h
  dsimp only at h
  split at h
  · cases h; rfl
  · split_ifs at h <;> (cases h; rfl)

theorem seriesDescriptor_variations (omdbData : OmdbData) (season episode : JSInt) :
    ∃ v vs, (seriesDescriptor omdbData season episode).searchVariations = some (v :: vs) ∧
      (seriesDescriptor omdbData season episode).searchQuery = some v := by
  unfold seriesDescriptor tvSeriesVariations
  dsimp only
  split_ifs <;> exact ⟨_, _, rfl, rfl⟩

/-- Every descriptor carries no list of variations, or a non-empty one that starts with
the primary query. -/
theorem parseStreamId_variations (lookup : String → Except String (Option OmdbData))
    (currentYear : Nat) (id : String) :
    (parseStreamId lookup currentYear id).searchVariations = none ∨
      ∃ v vs, (parseStreamId lookup currentYear id).searchVariations = some (v :: vs) ∧
        (parseStreamId lookup currentYear id).searchQuery = some v := by
  unfold parseStreamId
  split_ifs with h1
  · split
    · exact Or.inl (simpleDescriptor_variations _)
    · exact Or.inl (parseImdbIdFallback_variations _)
    · exact Or.inl (parseImdbIdFallback_variations _)
  · dsimp only
    split
    · split_ifs with h2
      · split
        · exact Or.inr (seriesDescriptor_variations _ _ _)
        · exact Or.inl rfl
      · split
        · rename_i d hd
          exact Or.inl (parseWWEContent_variations _ _ _ hd)
        · exact Or.inl rfl
    · split
      · rename_i d hd
        exact Or.inl (parseWWEContent_variations _ _ _ hd)
      · exact Or.inl rfl

/-- C13: whenever the descriptor returned by `parseStreamId` carries a list of variations,
the primary query is the first element of that list (and the list is not empty). -/
theorem primary_query_is_first_variation (lookup : String → Except String (Option OmdbData))
    (currentYear : Nat) (id : String) (variations : List String)
    (h : (parseStreamId lookup currentYear id).searchVariations = some variations) :
    (parseStreamId lookup currentYear id).searchQuery = variations.head? ∧
      variations ≠ [] := by
  rcases parseStreamId_variations lookup currentYear id with h0 | ⟨v, vs, h1, h2⟩
  · rw [h0] at h; cases h
  · rw [h1] at h
    cases h
    exact ⟨h2, by simp⟩

/-- C13 on the descriptor of `tt0944947:1:1`. -/
theorem primary_query_is_first_variation_witness :
    (parseStreamId gotLookup 2026 "tt0944947:1:1").searchQuery =
        ["Game of Thrones S01E01", "Game of Thrones 2011 S01E01", "Game.of.Thrones S01E01",
          "Game of Thrones", "Game of Thrones S01E01 1080p",
          "Game of Thrones S01E01 720p"].head? ∧
      ["Game of Thrones S01E01", "Game of Thrones 2011 S01E01", "Game.of.Thrones S01E01",
          "Game of Thrones", "Game of Thrones S01E01 1080p",
          "Game of Thrones S01E01 720p"] ≠ [] :=
  primary_query_is_first_variation gotLookup 2026 "tt0944947:1:1" _ (by decide)

theorem foldl_unique_prefix (l : List String) :
    ∀ seen : List String, ∃ t,
      l.foldl (fun seen v => if v ∈ seen then seen else seen ++ [v]) seen = seen ++ t := by
  induction l with
  | nil => intro seen; exact ⟨[], by simp⟩
  | cons v l ih =>
    intro seen
    rw [List.foldl_cons]
    split_ifs
    · exact ih seen
    · obtain ⟨t, ht⟩ := ih (seen ++ [v])
      exact ⟨v :: t, by rw [ht]; simp⟩

theorem uniqueVariations_cons (v : String) (l : List String) :
    ∃ t, uniqueVariations (v :: l) = v :: t := by
  unfold uniqueVariations
  rw [List.foldl_cons]
  obtain ⟨t, ht⟩ := foldl_unique_prefix l [v]
  exact ⟨t, by simpa using ht⟩

theorem wweVariations_head (q : String) (sv : Option (List String))
    (h : sv = none ∨ ∃ vs, sv = some (q :: vs)) : ∃ t, wweVariations q sv = q :: t := by
  rcases h with rfl | ⟨vs, rfl⟩
  · unfold wweVariations
    dsimp only
    split_ifs <;> exact ⟨_, rfl⟩
  · unfold wweVariations
    dsimp only
    split_ifs <;> exact ⟨_, rfl⟩

/-- C14, counterexample: the descriptor of a simple identifier resolved through the static
table has a non-empty primary query and no list of variations. -/
theorem fallback_descriptor_has_no_variations :
    (parseStreamId noLookup 2026 "tt0111161").searchQuery = some "The Shawshank Redemption" ∧
      (parseStreamId noLookup 2026 "tt0111161").searchVariations = none := by
  decide

/-- C14, amended: a descriptor with primary query `q` carries no list of variations or a
non-empty list that starts with `q`; either way the list of queries the handler works
through (its single search when it loops over no list) is non-empty and starts with `q`. -/
theorem variations_absent_or_led_by_query (lookup : String → Except String (Option OmdbData))
    (currentYear : Nat) (type id q : String)
    (hq : (parseStreamId lookup currentYear id).searchQuery = some q) :
    ((parseStreamId lookup currentYear id).searchVariations = none ∨
      ∃ vs, (parseStreamId lookup currentYear id).searchVariations = some (q :: vs)) ∧
    ∃ rest, (handlerVariations type (parseStreamId lookup currentYear id).toParseResult q).getD [q]
      = q :: rest := by
  have hv : (parseStreamId lookup currentYear id).searchVariations = none ∨
      ∃ vs, (parseStreamId lookup currentYear id).searchVariations = some (q :: vs) := by
    rcases parseStreamId_variations lookup currentYear id with h0 | ⟨v, vs, h1, h2⟩
    · exact Or.inl h0
    · rw [hq] at h2
      cases h2
      exact Or.inr ⟨vs, h1⟩
  refine ⟨hv, ?_⟩
  unfold handlerVariations Descriptor.toParseResult
  dsimp only
  split_ifs with h1 h2
  · obtain ⟨t, ht⟩ := wweVariations_head q _ hv
    rw [ht]
    obtain ⟨t', ht'⟩ := uniqueVariations_cons q t
    exact ⟨t', by rw [ht']; rfl⟩
  · rcases hv with h0 | ⟨vs, h0⟩
    · rw [h0] at h2; simp at h2
    · rw [h0]
      obtain ⟨t', ht'⟩ := uniqueVariations_cons q vs
      exact ⟨t', by simp only [Option.getD_some, ht']⟩
  · exact ⟨[], rfl⟩

/-- C14, amended, on the descriptor of a simple identifier of the static table. -/
theorem variations_absent_or_led_by_query_witness :
    ((parseStreamId noLookup 2026 "tt0111161").searchVariations = none ∨
      ∃ vs, (parseStreamId noLookup 2026 "tt0111161").searchVariations =
        some ("The Shawshank Redemption" :: vs)) ∧
    ∃ rest, (handlerVariations "movie" (parseStreamId noLookup 2026 "tt0111161").toParseResult
      "The Shawshank Redemption").getD ["The Shawshank Redemption"]
      = "The Shawshank Redemption" :: rest :=
  variations_absent_or_led_by_query noLookup 2026 "movie" "tt0111161" "The Shawshank Redemption"
    (by decide)

theorem yearAtLeast_int (y bound : Int) (hb : 0 < bound) :
    yearAtLeast (some (JSInt.int y)) bound = decide (bound ≤ y) := by
  unfold yearAtLeast
  simp only [JSInt.truthy, parseIntOfNum, JSInt.ge]
  by_cases h : bound ≤ y
  · have : y ≠ 0 := by omega
    simp [h, this]
  · simp [h]

/-- C20: for a series that is neither flagged as sports content nor as anime, with title
`T`, metadata year `Y` and token `K = S<season>E<episode>` (both zero-padded), the variations
are `T K`, `T Y K`, `T` with each run of white space replaced by a point followed by ` K`,
and `T`, followed by `T K 1080p` and `T K 720p` exactly when `Y >= 2010`. -/
theorem regular_series_variations (lookup : String → Except String (Option OmdbData))
    (currentYear : Nat) (imdbId : String) (sText eText : List Char) (T Ytext ty : String)
    (Y : Int)
    (htt : startsWith imdbId "tt" = true) (hnc : ':' ∉ imdbId.data)
    (hs : sText ≠ []) (hsd : ∀ c ∈ sText, c.isDigit = true)
    (he : eText ≠ []) (hed : ∀ c ∈ eText, c.isDigit = true)
    (hlookup : lookup imdbId = Except.ok (some ⟨T, Ytext, ty⟩))
    (hyear : Ytext ≠ "N/A") (hY : parseInt Ytext = JSInt.int Y)
    (hns : isSportsSeries T = false)
    (hna : isLikelyAnime (formatForSearch ⟨T, Ytext, ty⟩) = false) :
    (parseStreamId lookup currentYear
        ⟨imdbId.data ++ ':' :: sText ++ ':' :: eText⟩).searchVariations =
      some ([T ++ " " ++ ("S" ++ zeroPad2 (natOfDigits sText) ++ "E" ++ zeroPad2 (natOfDigits eText)),
          T ++ " " ++ toString Y ++ " " ++
            ("S" ++ zeroPad2 (natOfDigits sText) ++ "E" ++ zeroPad2 (natOfDigits eText)),
          replaceSpaceRuns '.' T ++ " " ++
            ("S" ++ zeroPad2 (natOfDigits sText) ++ "E" ++ zeroPad2 (natOfDigits eText)),
          T] ++
        if 2010 ≤ Y then
          [T ++ " " ++ ("S" ++ zeroPad2 (natOfDigits sText) ++ "E" ++
              zeroPad2 (natOfDigits eText)) ++ " 1080p",
            T ++ " " ++ ("S" ++ zeroPad2 (natOfDigits sText) ++ "E" ++
              zeroPad2 (natOfDigits eText)) ++ " 720p"]
        else []) := by
  rw [parseStreamId_series lookup currentYear imdbId sText eText ⟨T, Ytext, ty⟩ htt hnc hs hsd
    he hed hlookup]
  have hfy : (formatForSearch ⟨T, Ytext, ty⟩).year = some (JSInt.int Y) := by
    unfold formatForSearch
    simp only [hyear, ne_eq, not_false_eq_true, if_true, hY]
  have hft : (formatForSearch ⟨T, Ytext, ty⟩).title = T := rfl
  unfold seriesDescriptor tvSeriesVariations
  simp only [hft, hns, hna, hfy, Bool.false_eq_true, if_false, yearAtLeast_int Y 2010 (by decide),
    pad2_nat, decide_eq_true_eq, templateText, JSInt.toString]
  split_ifs <;> rfl

/-- C20 on `tt0944947:1:1` with year 2011. -/
theorem regular_series_variations_witness :
    (parseStreamId gotLookup 2026 "tt0944947:1:1").searchVariations =
      some ["Game of Thrones S01E01", "Game of Thrones 2011 S01E01", "Game.of.Thrones S01E01",
        "Game of Thrones", "Game of Thrones S01E01 1080p", "Game of Thrones S01E01 720p"] :=
  regular_series_variations gotLookup 2026 "tt0944947" ['1'] ['1'] "Game of Thrones" "2011"
    "series" 2011 (by decide) (by decide) (by decide) (by decide) (by decide) (by decide) rfl
    (by decide) (by decide) (by decide) (by decide)

/-! ## The handler from the identifier on -/

theorem getImdbTitle_none (id : String) (hkey : ∀ e ∈ imdbTitleEntries, e.1 ≠ id) :
    getImdbTitle id = none := by
  unfold getImdbTitle
  have : imdbTitleEntries.reverse.find? (fun e => e.1 == id) = none := by
    rw [List.find?_eq_none]
    intro e he
    have := hkey e (List.mem_reverse.1 he)
    simpa using this
  rw [this]
  rfl

/-- C11: for a simple identifier (starts with `tt`, no `:`) whose metadata lookup answers
nothing or throws and which is no key of the static table, `parseStreamId` returns the
descriptor without primary query, and the handler (with no fresh cache entry) returns no
stream and passes no query to the search collaborator. -/
theorem unresolvable_identifier (createStream : Torrent → Except String (Option StreamRecord))
    (lookup : String → Except String (Option OmdbData)) (currentYear : Nat) (net : Network)
    (type id : String)
    (htt : startsWith id "tt" = true) (hnc : includes id ":" = false)
    (hfail : lookup id = Except.ok none ∨ ∃ e, lookup id = Except.error e)
    (hkey : ∀ e ∈ imdbTitleEntries, e.1 ≠ id) :
    parseStreamId lookup currentYear id = { searchQuery := none } ∧
      streamHandler none createStream lookup currentYear net type id = [] ∧
      searchesIssued net type (parseStreamId lookup currentYear id).toParseResult = [] := by
  have hfb : parseImdbIdFallback id = { searchQuery := none } := by
    unfold parseImdbIdFallback
    rw [getImdbTitle_none id hkey]
  have hp : parseStreamId lookup currentYear id = { searchQuery := none } := by
    unfold parseStreamId
    simp only [htt, hnc, Bool.not_false, Bool.and_self, if_true]
    rcases hfail with h | ⟨e, h⟩
    · rw [h]; exact hfb
    · rw [h]; exact hfb
  refine ⟨hp, ?_, ?_⟩
  · unfold streamHandler
    rw [hp]
    rfl
  · rw [hp]
    rfl

/-- C11 on an identifier the table does not hold, with a lookup that times out. -/
theorem unresolvable_identifier_witness :
    parseStreamId (fun _ => Except.error "timeout") 2026 "tt0000001" = { searchQuery := none } ∧
      streamHandler none (fun _ => Except.ok none) (fun _ => Except.error "timeout") 2026
        flakyNetwork "movie" "tt0000001" = [] ∧
      searchesIssued flakyNetwork "movie"
        (parseStreamId (fun _ => Except.error "timeout") 2026 "tt0000001").toParseResult = [] :=
  unresolvable_identifier _ _ 2026 flakyNetwork "movie" "tt0000001" (by decide) (by decide)
    (Or.inr ⟨_, rfl⟩) (by decide!)

/-! ## The variations the handler tries -/

theorem uniqueVariations_concat (l : List String) (v : String) :
    uniqueVariations (l ++ [v]) =
      if v ∈ uniqueVariations l then uniqueVariations l else uniqueVariations l ++ [v] := by
  unfold uniqueVariations
  rw [List.foldl_append]
  rfl

theorem mem_uniqueVariations (l : List String) (v : String) :
    v ∈ uniqueVariations l ↔ v ∈ l := by
  induction l using List.reverseRecOn with
  | nil => simp [uniqueVariations]
  | append_singleton l w ih =>
    rw [uniqueVariations_concat]
    split_ifs with h
    · rw [List.mem_append, ih]
      constructor
      · intro hv; exact Or.inl hv
      · rintro (hv | hv)
        · exact hv
        · rw [List.mem_singleton] at hv; subst hv; exact ih.1 h
    · rw [List.mem_append, List.mem_append, ih]

theorem uniqueVariations_nodup (l : List String) : (uniqueVariations l).Nodup := by
  induction l using List.reverseRecOn with
  | nil => simp [uniqueVariations]
  | append_singleton l w ih =>
    rw [uniqueVariations_concat]
    split_ifs with h
    · exact ih
    · exact List.Nodup.append ih (List.nodup_singleton _) (by simpa using h)

theorem uniqueVariations_sublist (l : List String) : List.Sublist (uniqueVariations l) l := by
  induction l using List.reverseRecOn with
  | nil => simp [uniqueVariations]
  | append_singleton l w ih =>
    rw [uniqueVariations_concat]
    split_ifs with h
    · exact ih.trans (List.sublist_append_left _ _)
    · exact List.Sublist.append ih (List.Sublist.refl _)

theorem uniqueVariations_first_occurrence (pre post : List String) (v : String)
    (h : v ∉ pre) :
    ∃ t, uniqueVariations (pre ++ v :: post) = uniqueVariations pre ++ v :: t := by
  have h' : v ∉ uniqueVariations pre := fun e => h ((mem_uniqueVariations pre v).1 e)
  have e1 : pre ++ v :: post = (pre ++ [v]) ++ post := by simp
  rw [e1]
  unfold uniqueVariations at *
  rw [List.foldl_append, List.foldl_append]
  simp only [List.foldl_cons, List.foldl_nil, if_neg h']
  obtain ⟨t, ht⟩ := foldl_unique_prefix post
    (List.foldl (fun seen v => if v ∈ seen then seen else seen ++ [v]) [] pre ++ [v])
  exact ⟨t, by rw [ht]; simp⟩

/-- C15, counterexample: for the query `Drawn Together ` (it holds `raw`, so the handler
builds the sports variations) the handler loops over two variations that are equal once
trimmed. -/
theorem variations_equal_after_trimming :
    (parseStreamId noLookup 2026 "kitsu:Drawn_Together_").searchQuery =
        some "Drawn Together " ∧
      handlerVariations "movie"
          (parseStreamId noLookup 2026 "kitsu:Drawn_Together_").toParseResult
          "Drawn Together " =
        some ["Drawn Together ", "Drawn Together"] ∧
      trim "Drawn Together " = trim "Drawn Together" := by
  decide

/-- C15, amended: the list the handler loops over has no two equal elements (strings are
compared as they are, untrimmed), holds exactly the generated variations, keeps their order,
and each element stands where its first occurrence is: right after the distinct elements
that precede that occurrence. -/
theorem tried_variations_distinct (variations : List String) :
    (uniqueVariations variations).Nodup ∧
      (∀ v, v ∈ uniqueVariations variations ↔ v ∈ variations) ∧
      List.Sublist (uniqueVariations variations) variations ∧
      ∀ (pre post : List String) (v : String), variations = pre ++ v :: post → v ∉ pre →
        ∃ t, uniqueVariations variations = uniqueVariations pre ++ v :: t := by
  refine ⟨uniqueVariations_nodup _, mem_uniqueVariations _, uniqueVariations_sublist _, ?_⟩
  intro pre post v hl hv
  rw [hl]
  exact uniqueVariations_first_occurrence pre post v hv

/-- C15, amended, on a list with a repeated and a blank-padded variation. -/
theorem tried_variations_distinct_witness :
    (uniqueVariations ["Raw 2024", "Raw", "Raw 2024", " Raw"]).Nodup ∧
      ∃ t, uniqueVariations ["Raw 2024", "Raw", "Raw 2024", " Raw"] =
        uniqueVariations ["Raw 2024"] ++ "Raw" :: t :=
  ⟨(tried_variations_distinct ["Raw 2024", "Raw", "Raw 2024", " Raw"]).1,
    (tried_variations_distinct ["Raw 2024", "Raw", "Raw 2024", " Raw"]).2.2.2
      ["Raw 2024"] ["Raw 2024", " Raw"] "Raw" rfl (by decide)⟩

/-- C16: for every query that contains `wrestlemania` (letter case ignored) the handler
loops over a list with a variation that holds `40` and a variation that holds `XL`. -/
theorem wrestlemania_numeral_forms (type : String) (p : ParseResult) (q : String)
    (h : includes (toLowerCase q) "wrestlemania" = true) :
    ∃ variations, handlerVariations type p q = some variations ∧
      (∃ v ∈ variations, includes v "40" = true) ∧
      (∃ v ∈ variations, includes v "XL" = true) := by
  have hw : isWWEContent p.isWWE q = true := by
    unfold isWWEContent
    simp [h]
  have hmem : "WrestleMania 40" ∈ wweVariations q p.searchVariations ∧
      "WrestleMania XL" ∈ wweVariations q p.searchVariations := by
    unfold wweVariations
    simp only [h, if_true]
    split_ifs <;> simp
  refine ⟨uniqueVariations (wweVariations q p.searchVariations), ?_, ?_, ?_⟩
  · unfold handlerVariations
    simp only [hw, if_true]
  · exact ⟨"WrestleMania 40", (mem_uniqueVariations _ _).2 hmem.1, by decide⟩
  · exact ⟨"WrestleMania XL", (mem_uniqueVariations _ _).2 hmem.2, by decide⟩

/-- C16 on the query `WWE WrestleMania 40 2024`. -/
theorem wrestlemania_numeral_forms_witness :
    ∃ variations,
      handlerVariations "movie" { searchQuery := some "WWE WrestleMania 40 2024", isWWE := true }
        "WWE WrestleMania 40 2024" = some variations ∧
      (∃ v ∈ variations, includes v "40" = true) ∧
      (∃ v ∈ variations, includes v "XL" = true) :=
  wrestlemania_numeral_forms "movie" _ "WWE WrestleMania 40 2024" (by decide)

/-- C17, evaluated at the identifier `kitsu:wwe.summerslam.2023`: the input matches the
pattern of canonical name `WWE SummerSlam` with year 2023, and the variations the handler
loops over are `WWE SummerSlam 2023` and `SummerSlam 2023`; the canonical name without the
year is not among them. -/
theorem sports_variations_keep_other_years :
    (parseStreamId noLookup 2026 "kitsu:wwe.summerslam.2023").searchQuery =
        some "WWE SummerSlam 2023" ∧
      (parseStreamId noLookup 2026 "kitsu:wwe.summerslam.2023").title =
        some "WWE SummerSlam" ∧
      handlerVariations "movie"
          (parseStreamId noLookup 2026 "kitsu:wwe.summerslam.2023").toParseResult
          "WWE SummerSlam 2023" =
        some ["WWE SummerSlam 2023", "SummerSlam 2023"] := by
  decide

/-! ## Sports patterns -/

theorem find_of_first {α : Type} (p : α → Bool) :
    ∀ (l : List α) (k : Nat) (e : α), l[k]? = some e → p e = true →
      (∀ x ∈ l.take k, p x = false) → l.find? p = some e
  | [], k, e, h, _, _ => by simp at h
  | a :: l, 0, e, h, hp, _ => by
    simp only [List.getElem?_cons_zero, Option.some.injEq] at h
    subst h
    simp [List.find?_cons, hp]
  | a :: l, k + 1, e, h, hp, hfirst => by
    have ha : p a = false := hfirst a (by simp)
    rw [List.find?_cons, ha]
    apply find_of_first p l k e (by simpa using h) hp
    intro x hx
    exact hfirst x (by simp [hx])

theorem matchYear20Aux_first :
    ∀ (s : List Char) (i : Nat), yearAtHead (s.drop i) = true →
      (∀ j < i, yearAtHead (s.drop j) = false) →
      matchYear20Aux s = some ((s.drop i).take 4)
  | [], i, hy, _ => by simp [yearAtHead] at hy
  | c :: s, 0, hy, _ => by
    rw [List.drop_zero] at hy ⊢
    rw [matchYear20Aux, if_pos hy]
  | c :: s, i + 1, hy, hfirst => by
    have h0 : yearAtHead (c :: s) = false := hfirst 0 (by omega)
    rw [matchYear20Aux, h0]
    simp only [Bool.false_eq_true, if_false, List.drop_succ_cons]
    apply matchYear20Aux_first s i (by simpa using hy)
    intro j hj
    have := hfirst (j + 1) (by omega)
    simpa using this

theorem yearAtHead_digits (s : List Char) (h : yearAtHead s = true) :
    s.take 4 ≠ [] ∧ ∀ c ∈ s.take 4, c.isDigit = true := by
  unfold yearAtHead at h
  split at h
  · rename_i a b rest
    simp only [Bool.and_eq_true] at h
    refine ⟨by simp, ?_⟩
    intro c hc
    simp only [List.take, List.mem_cons, List.not_mem_nil, or_false] at hc
    rcases hc with rfl | rfl | rfl | rfl
    · decide
    · decide
    · exact h.1
    · exact h.2
  · cases h

theorem yearAtHead_nonempty (s : List Char) (h : yearAtHead s = true) :
    (s.take 4).isEmpty = false := by
  have := (yearAtHead_digits s h).1
  cases hs : s.take 4 with
  | nil => exact absurd hs this
  | cons _ _ => rfl

/-- C18: when entry `k` of the pattern table is the first that matches the input and the
first year of the form `20dd` starts at position `i` of the input, `parseWWEContent` returns
the canonical name of that entry as title, the name followed by a blank and that year as
primary query, the year as an integer, the type `sports` and the sports flag. -/
theorem parseWWEContent_pattern (currentYear : Nat) (input : String) (k : Nat)
    (parts : List PatternPart) (N : String) (i : Nat)
    (hk : wwePatterns[k]? = some (parts, N)) (hm : patternTest parts input = true)
    (hkfirst : ∀ e ∈ wwePatterns.take k, patternTest e.1 input = false)
    (hy : yearAtHead (input.data.drop i) = true)
    (hyfirst : ∀ j < i, yearAtHead (input.data.drop j) = false) :
    parseWWEContent currentYear input =
      some { searchQuery := some (N ++ " " ++ ⟨(input.data.drop i).take 4⟩),
             title := some N,
             year := some (JSInt.int (natOfDigits ((input.data.drop i).take 4))),
             type := some "sports",
             isWWE := true } := by
  have hfind : wwePatterns.find? (fun pattern => patternTest pattern.1 input) =
      some (parts, N) :=
    find_of_first _ wwePatterns k (parts, N) hk hm hkfirst
  have hyear : detectYear currentYear input = ⟨(input.data.drop i).take 4⟩ := by
    unfold detectYear matchYear20
    rw [matchYear20Aux_first input.data i hy hyfirst]
    rfl
  obtain ⟨hne, hdig⟩ := yearAtHead_digits _ hy
  unfold parseWWEContent
  simp only [hfind, hyear, yearAtHead_nonempty _ hy, Bool.not_false, if_true,
    parseInt_digits _ hne hdig]

/-- C18 on `WWE.Royal.Rumble.2019.PPV.720p`: entry 3 of the table, year at position 17. -/
theorem parseWWEContent_pattern_witness :
    parseWWEContent 2026 "WWE.Royal.Rumble.2019.PPV.720p" =
      some { searchQuery := some "WWE Royal Rumble 2019",
             title := some "WWE Royal Rumble",
             year := some (JSInt.int 2019),
             type := some "sports",
             isWWE := true } :=
  parseWWEContent_pattern 2026 "WWE.Royal.Rumble.2019.PPV.720p" 3
    [.word "wwe", .word "royal", .word "rumble"] "WWE Royal Rumble" 17 (by decide) (by decide)
    (by decide) (by decide) (by decide)

/-! ## Movies -/

/-- C19, counterexample: for the movie `Clash of the Titans` (2010) `parseWWEContent` finds
neither a pattern nor a sports keyword, yet the handler, finding nothing for the primary
query, goes on to search `WWE Clash`. -/
theorem clash_movie_searched_as_sports :
    parseWWEContent 2026 "Clash of the Titans" = none ∧
      (parseStreamId titansLookup 2026 "tt0800320").searchQuery =
        some "Clash of the Titans 2010" ∧
      searchesIssued downNetwork "movie"
          (parseStreamId titansLookup 2026 "tt0800320").toParseResult =
        ["Clash of the Titans 2010", "WWE Clash"] := by
  decide

/-- C19, amended: for a simple identifier whose metadata is a movie with a title that holds
none of `wwe`, `wrestlemania`, `royal rumble`, `summerslam`, `clash`, the primary query is
the cleaned text of the title and the year (the year only when present) and there is no list
of variations; when that query is not empty and holds none of `wwe`, `wrestlemania`,
`royal rumble`, `clash`, `raw`, `smackdown`, the handler issues exactly one search, with that
query. -/
theorem movie_single_search (lookup : String → Except String (Option OmdbData))
    (currentYear : Nat) (net : Network) (type id T Y : String)
    (htt : startsWith id "tt" = true) (hnc : includes id ":" = false)
    (hlookup : lookup id = Except.ok (some ⟨T, Y, "movie"⟩))
    (hns : isSportsTitle T = false) :
    (parseStreamId lookup currentYear id).searchQuery = some (cleanedMovieQuery T Y) ∧
      (parseStreamId lookup currentYear id).searchVariations = none ∧
      (isWWEContent false (cleanedMovieQuery T Y) = false →
        (cleanedMovieQuery T Y).data.isEmpty = false →
        searchesIssued net type (parseStreamId lookup currentYear id).toParseResult =
          [cleanedMovieQuery T Y]) := by
  have hq : (formatForSearch ⟨T, Y, "movie"⟩).searchQuery = cleanedMovieQuery T Y := by
    unfold formatForSearch cleanedMovieQuery
    simp
  have hp : parseStreamId lookup currentYear id =
      { searchQuery := some (cleanedMovieQuery T Y),
        title := some T,
        year := (formatForSearch ⟨T, Y, "movie"⟩).year,
        type := some "movie" } := by
    unfold parseStreamId
    simp only [htt, hnc, Bool.not_false, Bool.and_self, if_true, hlookup]
    unfold simpleDescriptor
    have ht : (formatForSearch ⟨T, Y, "movie"⟩).title = T := rfl
    have hty : (formatForSearch ⟨T, Y, "movie"⟩).type = "movie" := rfl
    simp only [ht, hns, Bool.false_eq_true, if_false, hq, hty]
  refine ⟨by rw [hp], by rw [hp], ?_⟩
  intro hnq hne
  rw [hp]
  unfold searchesIssued handlerVariations Descriptor.toParseResult
  simp only [hne, Bool.false_eq_true, if_false, hnq, Option.isSome_none, Bool.and_false]

/-- C19, amended, on `The Matrix` (1999), and on `Raw` (2016), whose query holds a keyword
of the handler: the primary query and the absent list are as stated there too. -/
theorem movie_single_search_witness :
    (parseStreamId matrixLookup 2026 "tt0133093").searchQuery = some "The Matrix 1999" ∧
      (parseStreamId matrixLookup 2026 "tt0133093").searchVariations = none ∧
      searchesIssued flakyNetwork "movie"
          (parseStreamId matrixLookup 2026 "tt0133093").toParseResult =
        ["The Matrix 1999"] ∧
      (parseStreamId rawMovieLookup 2026 "tt4954522").searchQuery = some "Raw 2016" ∧
      (parseStreamId rawMovieLookup 2026 "tt4954522").searchVariations = none :=
  ⟨(movie_single_search matrixLookup 2026 flakyNetwork "movie" "tt0133093" "The Matrix"
      "1999" (by decide) (by decide) rfl (by decide)).1,
    (movie_single_search matrixLookup 2026 flakyNetwork "movie" "tt0133093" "The Matrix"
      "1999" (by decide) (by decide) rfl (by decide)).2.1,
    (movie_single_search matrixLookup 2026 flakyNetwork "movie" "tt0133093" "The Matrix"
      "1999" (by decide) (by decide) rfl (by decide)).2.2 (by decide) (by decide),
    (movie_single_search rawMovieLookup 2026 flakyNetwork "movie" "tt4954522" "Raw"
      "2016" (by decide) (by decide) rfl (by decide)).1,
    (movie_single_search rawMovieLookup 2026 flakyNetwork "movie" "tt4954522" "Raw"
      "2016" (by decide) (by decide) rfl (by decide)).2.1⟩

theorem findTorrents_eq_handlerVariations (search : String → List Torrent) (type : String)
    (p : ParseResult) (q : String) :
    findTorrents search type p q =
      match handlerVariations type p q with
      | some variations => tryVariations search variations
      | none => search q := by
  unfold findTorrents handlerVariations
  dsimp only
  split_ifs <;> rfl

theorem tryVariations_eq_last_tried (search : String → List Torrent) (l : List String) :
    tryVariations search l = ((triedVariations search l).getLast?.map search).getD [] := by
  induction l with
  | nil => rfl
  | cons v l ih =>
    rw [tryVariations, triedVariations]
    by_cases hb : (trim v).data.isEmpty = true
    · simp only [hb, Bool.not_true, Bool.false_eq_true, if_false]
      exact ih
    · have hb' : (trim v).data.isEmpty = false := by simpa using hb
      simp only [hb', Bool.not_false, if_true]
      by_cases hs : (search v).length > 0
      · simp [hs]
      · simp only [hs, if_false]
        rw [ih]
        cases ht : triedVariations search l with
        | nil =>
          have : search v = [] := by
            cases h : search v with
            | nil => rfl
            | cons _ _ => rw [h] at hs; simp at hs
          simp [this]
        | cons w ws => simp [List.getLast?_cons_cons]

/-! ## Decimal texts -/

theorem digitChar_isDigit (n : Nat) (h : n < 10) : (Nat.digitChar n).isDigit = true := by
  interval_cases n <;> decide

theorem toDigitsCore_digits (f : Nat) :
    ∀ (n : Nat) (ds : List Char), (∀ c ∈ ds, c.isDigit = true) →
      ∀ c ∈ Nat.toDigitsCore 10 f n ds, c.isDigit = true := by
  induction f with
  | zero => intro n ds hds; simpa [Nat.toDigitsCore] using hds
  | succ f ih =>
    intro n ds hds
    have hd : (Nat.digitChar (n % 10)).isDigit = true :=
      digitChar_isDigit _ (Nat.mod_lt _ (by decide))
    have hcons : ∀ c ∈ Nat.digitChar (n % 10) :: ds, c.isDigit = true := by
      intro c hc
      rcases List.mem_cons.1 hc with rfl | hc
      · exact hd
      · exact hds c hc
    rw [Nat.toDigitsCore]
    split_ifs
    · exact hcons
    · exact ih _ _ hcons

theorem repr_digits (n : Nat) : ∀ c ∈ (toString n).data, c.isDigit = true :=
  toDigitsCore_digits (n + 1) n [] (by simp)

theorem repr_ne_nil (n : Nat) : (toString n).data ≠ [] := by
  intro h
  have := toDigitsCore_length_pos 10 n n []
  have h' : (Nat.toDigitsCore 10 (n + 1) n []) = [] := h
  rw [h'] at this
  simp at this

theorem repr_head (n : Nat) : ∃ d rest, (toString n).data = d :: rest ∧ d.isDigit = true := by
  cases h : (toString n).data with
  | nil => exact absurd h (repr_ne_nil n)
  | cons d rest => exact ⟨d, rest, rfl, repr_digits n d (by rw [h]; simp)⟩

theorem zeroPad2_head (n : Nat) :
    ∃ d rest, (zeroPad2 n).data = d :: rest ∧ d.isDigit = true := by
  unfold zeroPad2
  split_ifs
  · exact ⟨'0', (toString n).data, by simp [String.data_append], by decide⟩
  · exact repr_head n

theorem toString_int_nat (n : Nat) : JSInt.toString (JSInt.int (n : Int)) = toString n := rfl

/-! ## Anime series -/

theorem tvSeriesVariations_anime (searchInfo : SearchInfo) (s e : Nat)
    (ha : isLikelyAnime searchInfo = true) :
    tvSeriesVariations searchInfo (JSInt.int s) (JSInt.int e) =
      [searchInfo.title ++ " " ++ ("S" ++ zeroPad2 s ++ "E" ++ zeroPad2 e),
        searchInfo.title ++ " Episode " ++ toString e,
        searchInfo.title ++ " " ++ zeroPad2 e,
        searchInfo.title ++ " " ++ (if 1 < s then "Season " ++ toString s ++ " " else "") ++
          "Episode " ++ toString e,
        searchInfo.title] := by
  unfold tvSeriesVariations
  have hge : JSInt.ge (JSInt.int (s : Int)) 2 = decide (1 < s) := by
    unfold JSInt.ge
    simp only [decide_eq_decide]
    omega
  simp only [ha, if_true, pad2_nat, toString_int_nat, hge, decide_eq_true_eq]

theorem anime_distinct (T : String) (s e : Nat) :
    let v1 := T ++ " " ++ ("S" ++ zeroPad2 s ++ "E" ++ zeroPad2 e)
    let v2 := T ++ " Episode " ++ toString e
    let v3 := T ++ " " ++ zeroPad2 e
    let v4 := T ++ " " ++ ("Season " ++ toString s ++ " ") ++ "Episode " ++ toString e
    v1 ≠ v2 ∧ v1 ≠ v3 ∧ v1 ≠ v4 ∧ v1 ≠ T ∧ v2 ≠ v3 ∧ v2 ≠ v4 ∧ v2 ≠ T ∧ v3 ≠ v4 ∧ v3 ≠ T ∧
      v4 ≠ T := by
  intro v1 v2 v3 v4
  obtain ⟨ds, rs, hps, hds⟩ := zeroPad2_head s
  obtain ⟨de, re, hpe, hde⟩ := zeroPad2_head e
  have hS : ∀ c : Char, c.isDigit = true → c ≠ 'S' := by
    intro c hc h; subst h; exact absurd hc (by decide)
  have he : ∀ c : Char, c.isDigit = true → c ≠ 'e' := by
    intro c hc h; subst h; exact absurd hc (by decide)
  have d1 : v1.data = T.data ++ ' ' :: 'S' :: ds :: (rs ++ 'E' :: (zeroPad2 e).data) := by
    simp [v1, String.data_append, hps]
  have d2 : v2.data = T.data ++ ' ' :: 'E' :: "pisode ".data ++ (toString e).data := by
    simp [v2, String.data_append]
  have d3 : v3.data = T.data ++ ' ' :: de :: re := by
    simp [v3, String.data_append, hpe]
  have d4 : v4.data = T.data ++ ' ' :: 'S' :: 'e' ::
      ("ason ".data ++ (toString s).data ++ " Episode ".data ++ (toString e).data) := by
    simp [v4, String.data_append]
  have key : ∀ a b : String, a.data ≠ b.data → a ≠ b := fun a b h hab => h (by rw [hab])
  refine ⟨key _ _ ?_, key _ _ ?_, key _ _ ?_, key _ _ ?_, key _ _ ?_, key _ _ ?_, key _ _ ?_,
    key _ _ ?_, key _ _ ?_, key _ _ ?_⟩
  · rw [d1, d2]; simp
  · rw [d1, d3]; simp; intro h; exact absurd h.symm (hS _ hde)
  · rw [d1, d4]; simp; intro h; exact absurd h (he _ hds)
  · rw [d1]; simp
  · rw [d2, d3]; simp; intro h; subst h; exact absurd hde (by decide)
  · rw [d2, d4]; simp
  · rw [d2]; simp
  · rw [d3, d4]; simp; intro h; exact absurd h (hS _ hde)
  · rw [d3]; simp
  · rw [d4]; simp

theorem anime_fourth_eq_second (T n : String) :
    T ++ " " ++ "" ++ "Episode " ++ n = T ++ " Episode " ++ n := by
  apply String.ext
  simp [String.data_append]

theorem uniqueVariations_anime (T : String) (s e : Nat) :
    uniqueVariations
      [T ++ " " ++ ("S" ++ zeroPad2 s ++ "E" ++ zeroPad2 e),
        T ++ " Episode " ++ toString e,
        T ++ " " ++ zeroPad2 e,
        T ++ " " ++ (if 1 < s then "Season " ++ toString s ++ " " else "") ++
          "Episode " ++ toString e,
        T] =
      if 1 < s then
        [T ++ " " ++ ("S" ++ zeroPad2 s ++ "E" ++ zeroPad2 e),
          T ++ " Episode " ++ toString e,
          T ++ " " ++ zeroPad2 e,
          T ++ " " ++ ("Season " ++ toString s ++ " ") ++ "Episode " ++ toString e,
          T]
      else
        [T ++ " " ++ ("S" ++ zeroPad2 s ++ "E" ++ zeroPad2 e),
          T ++ " Episode " ++ toString e,
          T ++ " " ++ zeroPad2 e,
          T] := by
  obtain ⟨h12, h13, h14, h15, h23, h24, h25, h34, h35, h45⟩ := anime_distinct T s e
  split_ifs with hs
  · simp only [uniqueVariations, List.foldl, List.not_mem_nil, if_false, List.nil_append,
      List.mem_cons, List.mem_singleton, List.singleton_append, List.cons_append, or_false,
      h12.symm, h13.symm, h14.symm, h15.symm, h23.symm, h24.symm, h25.symm, h34.symm, h35.symm,
      h45.symm, or_self]
  · rw [anime_fourth_eq_second]
    simp only [uniqueVariations, List.foldl, List.not_mem_nil, if_false, List.nil_append,
      List.mem_cons, List.mem_singleton, List.singleton_append, List.cons_append, or_false,
      h12.symm, h13.symm, h15.symm, h23.symm, h25.symm, h35.symm, or_self, or_true, true_or,
      if_true]

theorem fdiv_nat (s : Nat) : Int.fdiv (s : Int) 12 = ((s / 12 : Nat) : Int) := by
  rw [Int.fdiv_eq_ediv _ (by decide)]
  omega

theorem tmod_nat (s : Nat) : Int.tmod (s : Int) 12 = ((s % 12 : Nat) : Int) := by
  rw [Int.tmod_eq_emod (by omega) (by decide)]
  omega

theorem addFloorDiv12_nat (B : Int) (s : Nat) :
    addFloorDiv12 B (JSInt.int s) = JSInt.int (B + ((s / 12 : Nat) : Int)) := by
  show JSInt.int (B + Int.fdiv (s : Int) 12) = _
  rw [fdiv_nat]

theorem monthOfSeason_nat (s : Nat) :
    monthOfSeason (JSInt.int s) = JSInt.int ((s % 12 + 1 : Nat) : Int) := by
  show JSInt.int (Int.tmod (s : Int) 12 + 1) = _
  rw [tmod_nat]
  rfl

theorem handlerVariations_tv (type : String) (d : Descriptor) (q : String) (vs : List String)
    (hw : d.isWWE = false) (htv : d.isTV = true) (hvs : d.searchVariations = some vs)
    (hq : isWWEContent false q = false) :
    handlerVariations type d.toParseResult q = some (uniqueVariations vs) := by
  unfold handlerVariations Descriptor.toParseResult
  simp only [hw, htv, hvs, hq, Bool.true_or, Option.isSome_some, Bool.and_self,
    Bool.false_eq_true, if_false, if_true, Option.getD_some]

theorem wweVariations_some_append (q : String) (vs : List String) :
    ∃ extra, wweVariations q (some vs) = vs ++ extra := by
  have h : vs <+: wweVariations q (some vs) := by
    unfold wweVariations
    dsimp only
    split_ifs
    all_goals first
      | exact List.prefix_refl _
      | exact List.prefix_append _ _
      | (simp only [List.append_assoc]
         exact List.prefix_append _ _)
  obtain ⟨extra, hx⟩ := h
  exact ⟨extra, hx.symm⟩

theorem handlerVariations_sports (type : String) (d : Descriptor) (q : String)
    (hq : isWWEContent false q = true) :
    handlerVariations type d.toParseResult q =
      some (uniqueVariations (wweVariations q d.searchVariations)) := by
  have hw : isWWEContent d.isWWE q = true := by
    unfold isWWEContent at hq ⊢
    simp only [Bool.false_or] at hq
    simp only [Bool.or_assoc] at hq ⊢
    rw [hq]
    simp
  unfold handlerVariations Descriptor.toParseResult
  simp only [hw, if_true]

/-- C21 (amended): for an anime-flagged series with title `T`, season `s` and episode `e`
the variations are `T SxxEyy`, `T Episode e`, `T` followed by `e` zero-padded to two digits,
`T Season s Episode e` (the words `Season s` only when `s > 1`) and `T`. When the primary
query holds none of the sports keywords of the handler, the list the handler tries has five
entries when `s > 1` and four when `s <= 1`, all distinct; when it holds one, the handler
tries the de-duplicated list of the five variations followed by those of the sports
branch. -/
theorem anime_series_variations (lookup : String → Except String (Option OmdbData))
    (currentYear : Nat) (imdbId : String) (sText eText : List Char) (T Ytext ty type : String)
    (htt : startsWith imdbId "tt" = true) (hnc : ':' ∉ imdbId.data)
    (hs : sText ≠ []) (hsd : ∀ c ∈ sText, c.isDigit = true)
    (he : eText ≠ []) (hed : ∀ c ∈ eText, c.isDigit = true)
    (hlookup : lookup imdbId = Except.ok (some ⟨T, Ytext, ty⟩))
    (hns : isSportsSeries T = false)
    (ha : isLikelyAnime (formatForSearch ⟨T, Ytext, ty⟩) = true) :
    (parseStreamId lookup currentYear
        ⟨imdbId.data ++ ':' :: sText ++ ':' :: eText⟩).searchVariations =
      some [T ++ " " ++ ("S" ++ zeroPad2 (natOfDigits sText) ++ "E" ++ zeroPad2 (natOfDigits eText)),
        T ++ " Episode " ++ toString (natOfDigits eText),
        T ++ " " ++ zeroPad2 (natOfDigits eText),
        T ++ " " ++ (if 1 < natOfDigits sText then
            "Season " ++ toString (natOfDigits sText) ++ " " else "") ++
          "Episode " ++ toString (natOfDigits eText),
        T] ∧
    (isWWEContent false
        (T ++ " " ++ ("S" ++ zeroPad2 (natOfDigits sText) ++ "E" ++ zeroPad2 (natOfDigits eText)))
        = false →
      handlerVariations type
          (parseStreamId lookup currentYear
            ⟨imdbId.data ++ ':' :: sText ++ ':' :: eText⟩).toParseResult
          (T ++ " " ++ ("S" ++ zeroPad2 (natOfDigits sText) ++ "E" ++
            zeroPad2 (natOfDigits eText))) =
        some (if 1 < natOfDigits sText then
          [T ++ " " ++ ("S" ++ zeroPad2 (natOfDigits sText) ++ "E" ++ zeroPad2 (natOfDigits eText)),
            T ++ " Episode " ++ toString (natOfDigits eText),
            T ++ " " ++ zeroPad2 (natOfDigits eText),
            T ++ " " ++ ("Season " ++ toString (natOfDigits sText) ++ " ") ++
              "Episode " ++ toString (natOfDigits eText),
            T]
        else
          [T ++ " " ++ ("S" ++ zeroPad2 (natOfDigits sText) ++ "E" ++ zeroPad2 (natOfDigits eText)),
            T ++ " Episode " ++ toString (natOfDigits eText),
            T ++ " " ++ zeroPad2 (natOfDigits eText),
            T])) ∧
    (isWWEContent false
        (T ++ " " ++ ("S" ++ zeroPad2 (natOfDigits sText) ++ "E" ++ zeroPad2 (natOfDigits eText)))
        = true →
      ∃ extra, handlerVariations type
          (parseStreamId lookup currentYear
            ⟨imdbId.data ++ ':' :: sText ++ ':' :: eText⟩).toParseResult
          (T ++ " " ++ ("S" ++ zeroPad2 (natOfDigits sText) ++ "E" ++
            zeroPad2 (natOfDigits eText))) =
        some (uniqueVariations
          ([T ++ " " ++ ("S" ++ zeroPad2 (natOfDigits sText) ++ "E" ++
                zeroPad2 (natOfDigits eText)),
            T ++ " Episode " ++ toString (natOfDigits eText),
            T ++ " " ++ zeroPad2 (natOfDigits eText),
            T ++ " " ++ (if 1 < natOfDigits sText then
                "Season " ++ toString (natOfDigits sText) ++ " " else "") ++
              "Episode " ++ toString (natOfDigits eText),
            T] ++ extra))) ∧
    (if 1 < natOfDigits sText then
        [T ++ " " ++ ("S" ++ zeroPad2 (natOfDigits sText) ++ "E" ++ zeroPad2 (natOfDigits eText)),
          T ++ " Episode " ++ toString (natOfDigits eText),
          T ++ " " ++ zeroPad2 (natOfDigits eText),
          T ++ " " ++ ("Season " ++ toString (natOfDigits sText) ++ " ") ++
            "Episode " ++ toString (natOfDigits eText),
          T]
      else
        [T ++ " " ++ ("S" ++ zeroPad2 (natOfDigits sText) ++ "E" ++ zeroPad2 (natOfDigits eText)),
          T ++ " Episode " ++ toString (natOfDigits eText),
          T ++ " " ++ zeroPad2 (natOfDigits eText),
          T]).Nodup := by
  have hd := parseStreamId_series lookup currentYear imdbId sText eText ⟨T, Ytext, ty⟩ htt hnc
    hs hsd he hed hlookup
  have hft : (formatForSearch ⟨T, Ytext, ty⟩).title = T := rfl
  have hsv : (seriesDescriptor ⟨T, Ytext, ty⟩ (JSInt.int (natOfDigits sText))
      (JSInt.int (natOfDigits eText))).searchVariations =
      some (tvSeriesVariations (formatForSearch ⟨T, Ytext, ty⟩) (JSInt.int (natOfDigits sText))
        (JSInt.int (natOfDigits eText))) := by
    unfold seriesDescriptor
    simp only [hft, hns, Bool.false_eq_true, if_false]
  have hw : (seriesDescriptor ⟨T, Ytext, ty⟩ (JSInt.int (natOfDigits sText))
      (JSInt.int (natOfDigits eText))).isWWE = false := by
    unfold seriesDescriptor
    simp only [hft, hns, Bool.false_eq_true, if_false]
  have htv : (seriesDescriptor ⟨T, Ytext, ty⟩ (JSInt.int (natOfDigits sText))
      (JSInt.int (natOfDigits eText))).isTV = true := by
    unfold seriesDescriptor
    simp only [hft, hns, Bool.false_eq_true, if_false]
  rw [hd]
  rw [tvSeriesVariations_anime _ _ _ ha, hft] at hsv
  refine ⟨hsv, ?_, ?_, ?_⟩
  · intro hq
    rw [handlerVariations_tv type _ _ _ hw htv hsv hq, uniqueVariations_anime]
  · intro hq
    obtain ⟨extra, hex⟩ := wweVariations_some_append
      (T ++ " " ++ ("S" ++ zeroPad2 (natOfDigits sText) ++ "E" ++ zeroPad2 (natOfDigits eText)))
      [T ++ " " ++ ("S" ++ zeroPad2 (natOfDigits sText) ++ "E" ++ zeroPad2 (natOfDigits eText)),
        T ++ " Episode " ++ toString (natOfDigits eText),
        T ++ " " ++ zeroPad2 (natOfDigits eText),
        T ++ " " ++ (if 1 < natOfDigits sText then
            "Season " ++ toString (natOfDigits sText) ++ " " else "") ++
          "Episode " ++ toString (natOfDigits eText),
        T]
    refine ⟨extra, ?_⟩
    rw [handlerVariations_sports type _ _ hq, hsv, hex]
  · rw [← uniqueVariations_anime]
    exact uniqueVariations_nodup _

/-- C21 on `tt0388629:1:5` with the metadata of One Piece: season 1, so the fourth variation
repeats the second and four entries are tried; and the generated list of `Hunter Clash`,
whose query holds a sports keyword. -/
theorem anime_series_variations_witness :
    (parseStreamId animeLookup 2026 "tt0388629:1:5").searchVariations =
      some ["One Piece S01E05", "One Piece Episode 5", "One Piece 05", "One Piece Episode 5",
        "One Piece"] ∧
    handlerVariations "series" (parseStreamId animeLookup 2026 "tt0388629:1:5").toParseResult
        "One Piece S01E05" =
      some ["One Piece S01E05", "One Piece Episode 5", "One Piece 05", "One Piece"] ∧
    ["One Piece S01E05", "One Piece Episode 5", "One Piece 05", "One Piece"].Nodup ∧
    (parseStreamId clashAnimeLookup 2026 "tt0000001:2:1").searchVariations =
      some ["Hunter Clash S02E01", "Hunter Clash Episode 1", "Hunter Clash 01",
        "Hunter Clash Season 2 Episode 1", "Hunter Clash"] ∧
    (∃ extra, handlerVariations "series"
        (parseStreamId clashAnimeLookup 2026 "tt0000001:2:1").toParseResult
        "Hunter Clash S02E01" =
      some (uniqueVariations (["Hunter Clash S02E01", "Hunter Clash Episode 1",
        "Hunter Clash 01", "Hunter Clash Season 2 Episode 1", "Hunter Clash"] ++ extra))) :=
  ⟨(anime_series_variations animeLookup 2026 "tt0388629" ['1'] ['5'] "One Piece" "1999"
      "series" "series" (by decide) (by decide) (by decide) (by decide) (by decide) (by decide)
      rfl (by decide) (by decide)).1,
    (anime_series_variations animeLookup 2026 "tt0388629" ['1'] ['5'] "One Piece" "1999"
      "series" "series" (by decide) (by decide) (by decide) (by decide) (by decide) (by decide)
      rfl (by decide) (by decide)).2.1 (by decide),
    (anime_series_variations animeLookup 2026 "tt0388629" ['1'] ['5'] "One Piece" "1999"
      "series" "series" (by decide) (by decide) (by decide) (by decide) (by decide) (by decide)
      rfl (by decide) (by decide)).2.2.2,
    (anime_series_variations clashAnimeLookup 2026 "tt0000001" ['2'] ['1'] "Hunter Clash"
      "2011" "series" "series" (by decide) (by decide) (by decide) (by decide) (by decide)
      (by decide) rfl (by decide) (by decide)).1,
    (anime_series_variations clashAnimeLookup 2026 "tt0000001" ['2'] ['1'] "Hunter Clash"
      "2011" "series" "series" (by decide) (by decide) (by decide) (by decide) (by decide)
      (by decide) rfl (by decide) (by decide)).2.2.1 (by decide)⟩

/-- C21, counterexample: the series titled `Hunter Clash` is flagged as anime and not as a
sports series, yet the handler takes its query for sports content because of the word
`clash` and tries six entries for season 2, the last one being `WWE Clash`. -/
theorem anime_clash_title_gets_sports_variations :
    (parseStreamId clashAnimeLookup 2026 "tt0000001:2:1").isAnime = true ∧
    (parseStreamId clashAnimeLookup 2026 "tt0000001:2:1").searchQuery =
      some "Hunter Clash S02E01" ∧
    handlerVariations "series"
        (parseStreamId clashAnimeLookup 2026 "tt0000001:2:1").toParseResult
        "Hunter Clash S02E01" =
      some ["Hunter Clash S02E01", "Hunter Clash Episode 1", "Hunter Clash 01",
        "Hunter Clash Season 2 Episode 1", "Hunter Clash", "WWE Clash"] := by
  decide

/-! ## Weekly sports series -/

theorem wweSeriesVariations_nat (searchInfo : SearchInfo) (s e : Nat) (B : Int)
    (hB : (searchInfo.year = some (JSInt.int B) ∧ B ≠ 0) ∨
      ((searchInfo.year = none ∨ searchInfo.year = some JSInt.nan ∨
        searchInfo.year = some (JSInt.int 0)) ∧ B = 1993)) :
    wweSeriesVariations searchInfo (JSInt.int s) (JSInt.int e) =
      [searchInfo.title ++ " " ++ toString (B + ((s / 12 : Nat) : Int)),
        removeLeadingWWE searchInfo.title ++ " " ++ toString (B + ((s / 12 : Nat) : Int)),
        "WWE " ++ removeLeadingWWE searchInfo.title ++ " " ++
          toString (B + ((s / 12 : Nat) : Int)) ++ " " ++ zeroPad2 (s % 12 + 1),
        searchInfo.title ++ " S" ++ zeroPad2 s ++ "E" ++ zeroPad2 e,
        removeLeadingWWE searchInfo.title ++ " S" ++ zeroPad2 s ++ "E" ++ zeroPad2 e] := by
  unfold wweSeriesVariations
  rcases hB with ⟨h1, h2⟩ | ⟨h1 | h1 | h1, h2⟩
  · simp only [h1, ne_eq, h2, not_false_eq_true, if_true, addFloorDiv12_nat, monthOfSeason_nat,
      pad2_nat]
    rfl
  · subst h2
    simp only [h1, addFloorDiv12_nat, monthOfSeason_nat, pad2_nat]
    rfl
  · subst h2
    simp only [h1, addFloorDiv12_nat, monthOfSeason_nat, pad2_nat]
    rfl
  · subst h2
    simp only [h1, ne_eq, not_true_eq_false, if_false, addFloorDiv12_nat, monthOfSeason_nat,
      pad2_nat]
    rfl

/-- C22: for a weekly sports series with title `T`, short name `N` (`T` without a leading
`WWE`), season `s`, episode `e` and start year `B` (the year of the metadata when it is a
number other than zero, otherwise 1993), the variations are `T year`, `N year`,
`WWE N year MM`, `T SxxEyy` and `N SxxEyy` with `year = B + floor(s / 12)` and the month
`MM = (s mod 12) + 1`, which lies between 1 and 12. -/
theorem sports_series_variations (lookup : String → Except String (Option OmdbData))
    (currentYear : Nat) (imdbId : String) (sText eText : List Char) (T Ytext ty : String)
    (B : Int)
    (htt : startsWith imdbId "tt" = true) (hnc : ':' ∉ imdbId.data)
    (hs : sText ≠ []) (hsd : ∀ c ∈ sText, c.isDigit = true)
    (he : eText ≠ []) (hed : ∀ c ∈ eText, c.isDigit = true)
    (hlookup : lookup imdbId = Except.ok (some ⟨T, Ytext, ty⟩))
    (hsp : isSportsSeries T = true)
    (hB : (Ytext ≠ "N/A" ∧ parseInt Ytext = JSInt.int B ∧ B ≠ 0) ∨
      ((Ytext = "N/A" ∨ parseInt Ytext = JSInt.nan ∨ parseInt Ytext = JSInt.int 0) ∧ B = 1993)) :
    (parseStreamId lookup currentYear
        ⟨imdbId.data ++ ':' :: sText ++ ':' :: eText⟩).searchVariations =
      some [T ++ " " ++ toString (B + ((natOfDigits sText / 12 : Nat) : Int)),
        removeLeadingWWE T ++ " " ++ toString (B + ((natOfDigits sText / 12 : Nat) : Int)),
        "WWE " ++ removeLeadingWWE T ++ " " ++
          toString (B + ((natOfDigits sText / 12 : Nat) : Int)) ++ " " ++
          zeroPad2 (natOfDigits sText % 12 + 1),
        T ++ " S" ++ zeroPad2 (natOfDigits sText) ++ "E" ++ zeroPad2 (natOfDigits eText),
        removeLeadingWWE T ++ " S" ++ zeroPad2 (natOfDigits sText) ++ "E" ++
          zeroPad2 (natOfDigits eText)] ∧
    addFloorDiv12 B (JSInt.int (natOfDigits sText)) =
      JSInt.int (B + ((natOfDigits sText / 12 : Nat) : Int)) ∧
    monthOfSeason (JSInt.int (natOfDigits sText)) =
      JSInt.int ((natOfDigits sText % 12 + 1 : Nat) : Int) ∧
    1 ≤ natOfDigits sText % 12 + 1 ∧ natOfDigits sText % 12 + 1 ≤ 12 := by
  have hd := parseStreamId_series lookup currentYear imdbId sText eText ⟨T, Ytext, ty⟩ htt hnc
    hs hsd he hed hlookup
  have hft : (formatForSearch ⟨T, Ytext, ty⟩).title = T := rfl
  refine ⟨?_, addFloorDiv12_nat _ _, monthOfSeason_nat _, by omega, by omega⟩
  rw [hd]
  have hyear : (formatForSearch ⟨T, Ytext, ty⟩).year =
      if Ytext ≠ "N/A" then some (parseInt Ytext) else none := rfl
  have hsv : (seriesDescriptor ⟨T, Ytext, ty⟩ (JSInt.int (natOfDigits sText))
      (JSInt.int (natOfDigits eText))).searchVariations =
      some (wweSeriesVariations (formatForSearch ⟨T, Ytext, ty⟩) (JSInt.int (natOfDigits sText))
        (JSInt.int (natOfDigits eText))) := by
    unfold seriesDescriptor
    simp only [hft, hsp, if_true]
  rw [hsv, wweSeriesVariations_nat _ _ _ B, hft]
  rcases hB with ⟨h1, h2, h3⟩ | ⟨h1 | h1 | h1, h2⟩
  · exact Or.inl ⟨by rw [hyear, if_pos h1, h2], h3⟩
  · exact Or.inr ⟨Or.inl (by rw [hyear, if_neg (not_not.2 h1)]), h2⟩
  · refine Or.inr ⟨?_, h2⟩
    rw [hyear]
    split_ifs
    · exact Or.inr (Or.inl (by rw [h1]))
    · exact Or.inl rfl
  · refine Or.inr ⟨?_, h2⟩
    rw [hyear]
    split_ifs
    · exact Or.inr (Or.inr (by rw [h1]))
    · exact Or.inl rfl

/-- C22 on `tt0185103:25:3` with the metadata of WWE Raw (1993): year 1995, month 02. -/
theorem sports_series_variations_witness :
    (parseStreamId rawLookup 2026 "tt0185103:25:3").searchVariations =
      some ["WWE Raw 1995", "Raw 1995", "WWE Raw 1995 02", "WWE Raw S25E03", "Raw S25E03"] ∧
    addFloorDiv12 1993 (JSInt.int 25) = JSInt.int 1995 ∧
    monthOfSeason (JSInt.int 25) = JSInt.int 2 ∧ 1 ≤ 2 ∧ 2 ≤ 12 :=
  sports_series_variations rawLookup 2026 "tt0185103" ['2', '5'] ['3'] "WWE Raw" "1993" "series"
    1993 (by decide) (by decide) (by decide) (by decide) (by decide) (by decide) rfl
    (by decide) (Or.inl ⟨by decide, by decide, by decide⟩)

/-! ## Series identifiers whose parts are not numbers -/

theorem parseStreamId_series_parts (lookup : String → Except String (Option OmdbData))
    (currentYear : Nat) (imdbId : String) (a b : List Char)
    (htt : startsWith imdbId "tt" = true) (hnc : ':' ∉ imdbId.data)
    (ha : ':' ∉ a) (hb : ':' ∉ b) :
    parseStreamId lookup currentYear ⟨imdbId.data ++ ':' :: a ++ ':' :: b⟩ =
      match lookup imdbId with
      | Except.ok (some omdbData) => seriesDescriptor omdbData (parseInt ⟨a⟩) (parseInt ⟨b⟩)
      | _ =>
        { searchQuery := some ("S" ++ pad2 (parseInt ⟨a⟩) ++ "E" ++ pad2 (parseInt ⟨b⟩)),
          season := some (parseInt ⟨a⟩),
          episode := some (parseInt ⟨b⟩),
          type := some "series" } := by
  have hinc : includes ⟨imdbId.data ++ ':' :: a ++ ':' :: b⟩ ":" = true := by
    have := includes_colon imdbId.data (a ++ ':' :: b)
    simpa using this
  have hsplit : splitColon ⟨imdbId.data ++ ':' :: a ++ ':' :: b⟩ = [imdbId, ⟨a⟩, ⟨b⟩] := by
    unfold splitColon
    have e1 : imdbId.data ++ ':' :: a ++ ':' :: b = imdbId.data ++ ':' :: (a ++ ':' :: b) := by
      simp
    simp only [e1]
    rw [splitColonAux_append _ _ hnc, splitColonAux_append _ _ ha, splitColonAux_no_colon _ hb]
    rfl
  unfold parseStreamId
  simp only [hinc, Bool.not_true, Bool.and_false, Bool.false_eq_true, if_false, hsplit, htt,
    List.isEmpty_cons, Bool.not_false, Bool.and_self, if_true, List.head?_cons,
    Option.getD_some]

/-- C23 (amended): for a series identifier `tt<id>:<a>:<b>`, whatever `a` and `b` are, the
descriptor is that of the series with the title of the metadata when the lookup succeeds,
and the fallback made of season and episode only exactly when the lookup fails; a part that
is not a number is read as `NaN` and printed as such. -/
theorem series_fallback_iff_lookup_fails
    (lookup : String → Except String (Option OmdbData))
    (currentYear : Nat) (imdbId : String) (a b : List Char)
    (htt : startsWith imdbId "tt" = true) (hnc : ':' ∉ imdbId.data)
    (ha : ':' ∉ a) (hb : ':' ∉ b) :
    (∀ omdbData, lookup imdbId = Except.ok (some omdbData) →
      parseStreamId lookup currentYear ⟨imdbId.data ++ ':' :: a ++ ':' :: b⟩ =
          seriesDescriptor omdbData (parseInt ⟨a⟩) (parseInt ⟨b⟩) ∧
        (parseStreamId lookup currentYear ⟨imdbId.data ++ ':' :: a ++ ':' :: b⟩).title =
          some omdbData.Title) ∧
    ((∀ omdbData, lookup imdbId ≠ Except.ok (some omdbData)) →
      parseStreamId lookup currentYear ⟨imdbId.data ++ ':' :: a ++ ':' :: b⟩ =
        { searchQuery := some ("S" ++ pad2 (parseInt ⟨a⟩) ++ "E" ++ pad2 (parseInt ⟨b⟩)),
          season := some (parseInt ⟨a⟩),
          episode := some (parseInt ⟨b⟩),
          type := some "series" }) ∧
    (parseInt ⟨a⟩ = JSInt.nan → pad2 (parseInt ⟨a⟩) = "NaN") ∧
    (parseInt ⟨b⟩ = JSInt.nan → pad2 (parseInt ⟨b⟩) = "NaN") := by
  have hp := parseStreamId_series_parts lookup currentYear imdbId a b htt hnc ha hb
  refine ⟨?_, ?_, ?_, ?_⟩
  · intro omdbData hl
    rw [hp, hl]
    refine ⟨rfl, ?_⟩
    show (seriesDescriptor omdbData (parseInt ⟨a⟩) (parseInt ⟨b⟩)).title = some omdbData.Title
    unfold seriesDescriptor
    dsimp only
    split_ifs <;> rfl
  · intro hl
    rw [hp]
    cases h : lookup imdbId with
    | error e => rfl
    | ok v =>
      cases v with
      | none => rfl
      | some d => exact absurd h (hl d)
  · intro h; rw [h]; rfl
  · intro h; rw [h]; rfl

/-- C23 on `tt0944947:x:1` with the metadata of Game of Thrones. -/
theorem series_fallback_iff_lookup_fails_witness :
    (∀ omdbData, gotLookup "tt0944947" = Except.ok (some omdbData) →
      parseStreamId gotLookup 2026 "tt0944947:x:1" =
          seriesDescriptor omdbData (parseInt "x") (parseInt "1") ∧
        (parseStreamId gotLookup 2026 "tt0944947:x:1").title = some omdbData.Title) ∧
    ((∀ omdbData, gotLookup "tt0944947" ≠ Except.ok (some omdbData)) →
      parseStreamId gotLookup 2026 "tt0944947:x:1" =
        { searchQuery := some ("S" ++ pad2 (parseInt "x") ++ "E" ++ pad2 (parseInt "1")),
          season := some (parseInt "x"),
          episode := some (parseInt "1"),
          type := some "series" }) ∧
    (parseInt "x" = JSInt.nan → pad2 (parseInt "x") = "NaN") ∧
    (parseInt "1" = JSInt.nan → pad2 (parseInt "1") = "NaN") :=
  series_fallback_iff_lookup_fails gotLookup 2026 "tt0944947" ['x'] ['1'] (by decide)
    (by decide) (by decide) (by decide)

/-- C23, counterexample: the season part of `tt0944947:x:1` is not a number, yet with the
metadata found the query carries the title; the query without a title appears only when the
lookup fails. -/
theorem malformed_series_id_keeps_title :
    parseInt "x" = JSInt.nan ∧
    (parseStreamId gotLookup 2026 "tt0944947:x:1").searchQuery =
      some "Game of Thrones SNaNE01" ∧
    (parseStreamId gotLookup 2026 "tt0944947:x:1").title = some "Game of Thrones" ∧
    (parseStreamId noLookup 2026 "tt0944947:x:1").searchQuery = some "SNaNE01" := by
  decide

/-! ## Freeform identifiers -/

/-- C24, evaluated at the identifier `kitsu:Some.Show:s02:special`: the token `special`
starts with `s`, so it replaces the season 2 read from `s02` by `NaN`, and a search for a
series no longer asks for season 2. -/
theorem freeform_token_special_resets_season :
    (parseStreamId noLookup 2026 "kitsu:Some.Show:s02").season = some (JSInt.int 2) ∧
    (parseStreamId noLookup 2026 "kitsu:Some.Show:s02:special").searchQuery =
      some "Some Show" ∧
    (parseStreamId noLookup 2026 "kitsu:Some.Show:s02:special").season = some JSInt.nan ∧
    scanPart (none, some (JSInt.int 2), none) "special" = (none, some JSInt.nan, none) ∧
    searchRequest "Some Show" "series" none
        (parseStreamId noLookup 2026 "kitsu:Some.Show:s02").toParseResult.season none =
      ("Some Show Season 2", "TV") ∧
    searchRequest "Some Show" "series" none
        (parseStreamId noLookup 2026 "kitsu:Some.Show:s02:special").toParseResult.season none =
      ("Some Show", "TV") := by
  decide

/-- C25, evaluated at the identifier `kitsu:._-`: the title fragment holds separators only,
the query is three blanks, and the handler passes it to the search collaborator; only the
empty fragment of `kitsu:` gives the empty query and no search. -/
theorem blank_title_fragment_is_searched :
    (parseStreamId noLookup 2026 "kitsu:._-").searchQuery = some "   " ∧
    searchesIssued downNetwork "movie" (parseStreamId noLookup 2026 "kitsu:._-").toParseResult =
      ["   "] ∧
    (parseStreamId noLookup 2026 "kitsu:").searchQuery = some "" ∧
    searchesIssued downNetwork "movie" (parseStreamId noLookup 2026 "kitsu:").toParseResult =
      [] := by
  decide

/-! ## The static table -/

/-- C26, evaluated at the identifier `tt0481499` with a failed lookup: the title of the table
is `Blade Runner 2049 2017`, the year taken is the first run of four digits, 2049, and the
query keeps the trailing 2017; `tt0111161`, whose title has its only number at the end,
behaves as claimed. -/
theorem fallback_takes_first_four_digits :
    getImdbTitle "tt0481499" = some "Blade Runner 2049 2017" ∧
    (parseStreamId noLookup 2026 "tt0481499").searchQuery = some "Blade Runner  2017" ∧
    (parseStreamId noLookup 2026 "tt0481499").year = some (JSInt.int 2049) ∧
    (parseStreamId noLookup 2026 "tt0111161").searchQuery =
      some "The Shawshank Redemption" ∧
    (parseStreamId noLookup 2026 "tt0111161").year = some (JSInt.int 1994) := by
  decide!

theorem find_reverse_eq_getLast_filter {α : Type} (p : α → Bool) (l : List α) :
    l.reverse.find? p = (l.filter p).getLast? := by
  rw [← List.filter_head?, List.filter_reverse, List.head?_reverse]

/-- C27: the lookup in the static table answers the title of the last listing of the
identifier; `tt1596343` is listed as `Fast Five 2011` and then as `Suits` and resolves to the
query `Suits` without a year, `tt4154664` is listed as `Avengers Infinity War 2018` and then
as `Captain Marvel 2019` and resolves to the query `Captain Marvel` with year 2019. -/
theorem fallback_table_last_listing :
    (∀ id, getImdbTitle id =
      ((imdbTitleEntries.filter fun e => e.1 == id).getLast?).map Prod.snd) ∧
    (imdbTitleEntries.filter fun e => e.1 == "tt1596343").map Prod.snd =
      ["Fast Five 2011", "Suits"] ∧
    parseImdbIdFallback "tt1596343" = { searchQuery := some "Suits" } ∧
    (imdbTitleEntries.filter fun e => e.1 == "tt4154664").map Prod.snd =
      ["Avengers Infinity War 2018", "Captain Marvel 2019"] ∧
    parseImdbIdFallback "tt4154664" =
      { searchQuery := some "Captain Marvel", year := some (JSInt.int 2019) } := by
  refine ⟨?_, by decide!, by decide!, by decide!, by decide!⟩
  intro id
  unfold getImdbTitle
  rw [find_reverse_eq_getLast_filter]

/-! ## The result formatter -/

theorem mapM_ok {α β : Type} (f : α → β) (l : List α) :
    l.mapM (fun a => (Except.ok (f a) : Except String β)) = Except.ok (l.map f) := by
  induction l with
  | nil => rfl
  | cons a l ih =>
    rw [List.mapM_cons, ih]
    rfl

theorem createStreamFromTorrent_isSome (t : Torrent) :
    (createStreamFromTorrent t).isSome = truthy t.magnet := by
  unfold createStreamFromTorrent truthy
  cases t.magnet with
  | none => rfl
  | some m =>
    dsimp only
    by_cases h : m.data.isEmpty = true
    · rw [if_pos h, h]; rfl
    · rw [if_neg h]
      simp only [Bool.not_eq_true] at h
      rw [h]; rfl

theorem createStreamFromTorrent_url (t : Torrent) :
    (createStreamFromTorrent t).map StreamRecord.url = if truthy t.magnet then t.magnet else none := by
  unfold createStreamFromTorrent truthy
  cases t.magnet with
  | none => rfl
  | some m =>
    dsimp only
    by_cases h : m.data.isEmpty = true
    · rw [if_pos h, h]; rfl
    · rw [if_neg h]
      simp only [Bool.not_eq_true] at h
      rw [h]; rfl

theorem filterMap_createStream (l : List Torrent) :
    (l.filterMap createStreamFromTorrent).length = (l.filter fun t => truthy t.magnet).length ∧
    (l.filterMap createStreamFromTorrent).map StreamRecord.url =
      (l.filter fun t => truthy t.magnet).filterMap fun t => t.magnet := by
  induction l with
  | nil => exact ⟨rfl, rfl⟩
  | cons t l ih =>
    have h1 := createStreamFromTorrent_isSome t
    have h2 := createStreamFromTorrent_url t
    cases hc : createStreamFromTorrent t with
    | none =>
      rw [hc] at h1
      have ht : truthy t.magnet = false := by simpa using h1.symm
      simp only [List.filterMap_cons, hc, List.filter_cons, ht, Bool.false_eq_true, if_false]
      exact ih
    | some r =>
      rw [hc] at h1 h2
      have ht : truthy t.magnet = true := by simpa using h1.symm
      rw [ht] at h2
      simp only [if_true, Option.map_some'] at h2
      refine ⟨?_, ?_⟩
      · simp only [List.filterMap_cons, hc, List.filter_cons, ht, if_true, List.length_cons,
          ih.1]
      · simp only [List.filter_cons, ht, if_true]
        simp only [List.filterMap_cons, hc, List.map_cons, ih.2, ← h2]

/-- C28: `createStreamFromTorrent` answers no stream exactly when the magnet link of the
candidate is absent or empty, otherwise a stream whose url is that link; the handler answers
the streams of the balanced candidates in their order, one for each candidate with a link. -/
theorem stream_iff_link (t : Torrent) (net : Network) (type : String) (p : ParseResult)
    (l : List Torrent) :
    (createStreamFromTorrent t = none ↔ truthy t.magnet = false) ∧
    (createStreamFromTorrent t).map StreamRecord.url =
      (if truthy t.magnet then t.magnet else none) ∧
    handleParsed createStream net type p =
      (match p.searchQuery with
        | none => []
        | some searchQuery =>
          if searchQuery.data.isEmpty then []
          else
            (balanceStreamsByResolution (sortTorrents (findTorrents
              (fun q => searchAndGetComplete net q type p.year p.season p.episode) type p
              searchQuery)) 3).filterMap createStreamFromTorrent) ∧
    (l.filterMap createStreamFromTorrent).length = (l.filter fun t => truthy t.magnet).length ∧
    (l.filterMap createStreamFromTorrent).map StreamRecord.url =
      (l.filter fun t => truthy t.magnet).filterMap fun t => t.magnet := by
  refine ⟨?_, createStreamFromTorrent_url t, ?_, filterMap_createStream l⟩
  · have h := createStreamFromTorrent_isSome t
    cases hc : createStreamFromTorrent t with
    | none => rw [hc] at h; simpa using h.symm
    | some r => rw [hc] at h; simp [← h]
  · unfold handleParsed
    cases p.searchQuery with
    | none => rfl
    | some q =>
      dsimp only
      split_ifs with h1 h2
      · rfl
      · have : findTorrents (fun q => searchAndGetComplete net q type p.year p.season p.episode)
            type p q = [] := List.length_eq_zero.1 h2
        rw [this]
        rfl
      · unfold createStream
        rw [mapM_ok]
        simp only [List.filterMap_map]
        rfl

/-- C29: for a candidate with a link, the tags detected are listed in the order 4K, HDR,
ATMOS, REMUX, and the name of the stream is `1337x`, a line break, and the tags joined by
blanks when there is one, the quality tag of the candidate otherwise. -/
theorem stream_label (t : Torrent) (hlink : truthy t.magnet = true) :
    qualityIndicators t =
      (if includes t.quality "2160p" || includes (toLowerCase t.title) "4k" then ["4K"]
        else []) ++
      (if includes (toLowerCase t.title) "hdr" || includes (toLowerCase t.title) "dolby vision"
          || includes (toLowerCase t.title) "dv" then ["HDR"] else []) ++
      (if includes (toLowerCase t.title) "atmos" then ["ATMOS"] else []) ++
      (if includes (toLowerCase t.title) "remux" then ["REMUX"] else []) ∧
    (createStreamFromTorrent t).map StreamRecord.name =
      some ("1337x\n" ++
        (if qualityIndicators t = [] then t.quality
          else " ".intercalate (qualityIndicators t))) := by
  constructor
  · unfold qualityIndicators
    dsimp only
    split_ifs <;> rfl
  · unfold createStreamFromTorrent
    unfold truthy at hlink
    cases hm : t.magnet with
    | none => rw [hm] at hlink; exact absurd hlink (by decide)
    | some m =>
      rw [hm] at hlink
      have hne : ¬ m.data.isEmpty = true := by
        intro h
        have hl : (!m.data.isEmpty) = true := hlink
        rw [h] at hl
        exact absurd hl (by decide)
      dsimp only
      rw [if_neg hne]
      by_cases hq : qualityIndicators t = []
      · rw [hq]; rfl
      · have hlen : (qualityIndicators t).length > 0 := List.length_pos.2 hq
        simp only [hlen, if_true, hq, if_false, Option.map_some']

/-- C29 on a candidate whose title carries all four tags. -/
theorem stream_label_witness :
    truthy linkedTorrent.magnet = true ∧
    qualityIndicators linkedTorrent = ["4K", "HDR", "ATMOS", "REMUX"] ∧
    (createStreamFromTorrent linkedTorrent).map StreamRecord.name =
      some "1337x\n4K HDR ATMOS REMUX" :=
  ⟨by decide, stream_label linkedTorrent (by decide)⟩

/-! ## The search collaborator -/

theorem searchAndGetComplete_eq (net : Network) (query type : String)
    (year season episode : Option Int) :
    searchAndGetComplete net query type year season episode =
      (((jsSort (fun a b => JSNum.fin ((b.score : ℚ) - (a.score : ℚ)))
        (searchTorrents net (searchRequest query type year season episode).1
          (searchRequest query type year season episode).2)).take 10).map
        (getTorrentInfo net)).filter fun t => truthy t.magnet := by
  unfold searchAndGetComplete searchRequest searchMovies searchTVShows
  dsimp only
  split_ifs <;> rfl

theorem jsSort_score_pairwise (l : List Torrent) :
    (jsSort (fun a b => JSNum.fin ((b.score : ℚ) - (a.score : ℚ))) l).Pairwise
      (fun a b => b.score ≤ a.score) := by
  unfold jsSort
  apply pairwise_insertionSort_of
  · intro a b c hab hbc; exact le_trans hbc hab
  · intro a _ b _ h
    rw [sign_fin_nonpos] at h
    have : (b.score : ℚ) ≤ a.score := by linarith
    exact_mod_cast this
  · intro a _ b _ h
    rw [sign_fin_nonpos] at h
    have : (a.score : ℚ) < b.score := by linarith
    have : a.score < b.score := by exact_mod_cast this
    omega

/-- The first ten by score on any network whose rows carry the score of `calculateScore`. -/
theorem top_ten_of_scored_rows (net : Network) (query type : String)
    (year season episode : Option Int)
    (hscore : ∀ t ∈ searchTorrents net (searchRequest query type year season episode).1
        (searchRequest query type year season episode).2,
      t.score = calculateScore t.seeders t.leechers t.quality) :
    ∃ sorted : List Torrent,
      sorted.Perm (searchTorrents net (searchRequest query type year season episode).1
        (searchRequest query type year season episode).2) ∧
      sorted.Pairwise (fun a b => calculateScore b.seeders b.leechers b.quality ≤
        calculateScore a.seeders a.leechers a.quality) ∧
      searchAndGetComplete net query type year season episode =
        (((sorted.take 10).map (getTorrentInfo net)).filter fun t => truthy t.magnet) ∧
      (searchAndGetComplete net query type year season episode).length ≤ 10 ∧
      (∀ r ∈ searchAndGetComplete net query type year season episode,
        truthy r.magnet = true ∧ ∃ t ∈ sorted.take 10, r = getTorrentInfo net t) ∧
      (searchAndGetComplete net query type year season episode).Pairwise
        (fun a b => calculateScore b.seeders b.leechers b.quality ≤
          calculateScore a.seeders a.leechers a.quality) ∧
      ∀ t ∈ sorted.take 10, net.getMagnetLink t.detailUrl = none →
        getTorrentInfo net t ∉ searchAndGetComplete net query type year season episode := by
  have hperm := perm_jsSort (fun a b : Torrent => JSNum.fin ((b.score : ℚ) - (a.score : ℚ)))
    (searchTorrents net (searchRequest query type year season episode).1
      (searchRequest query type year season episode).2)
  have hpw := jsSort_score_pairwise
    (searchTorrents net (searchRequest query type year season episode).1
      (searchRequest query type year season episode).2)
  have heq := searchAndGetComplete_eq net query type year season episode
  generalize jsSort (fun a b : Torrent => JSNum.fin ((b.score : ℚ) - (a.score : ℚ)))
    (searchTorrents net (searchRequest query type year season episode).1
      (searchRequest query type year season episode).2) = sorted at hperm hpw heq
  have hs : ∀ t ∈ sorted, t.score = calculateScore t.seeders t.leechers t.quality :=
    fun t ht => hscore t (hperm.mem_iff.1 ht)
  have hpw2 : sorted.Pairwise (fun a b => calculateScore b.seeders b.leechers b.quality ≤
      calculateScore a.seeders a.leechers a.quality) := by
    refine hpw.imp_of_mem ?_
    intro a b ha hb hab
    rw [← hs a ha, ← hs b hb]
    exact hab
  refine ⟨sorted, hperm, hpw2, heq, ?_, ?_, ?_, ?_⟩
  · rw [heq]
    refine le_trans (List.length_filter_le _ _) ?_
    rw [List.length_map, List.length_take]
    exact Nat.min_le_left _ _
  · intro r hr
    rw [heq, List.mem_filter, List.mem_map] at hr
    obtain ⟨⟨t, ht, rfl⟩, hm⟩ := hr
    exact ⟨hm, t, ht, rfl⟩
  · rw [heq]
    refine List.Pairwise.sublist (List.filter_sublist _) ?_
    rw [List.pairwise_map]
    exact List.Pairwise.sublist (List.take_sublist _ _) hpw2
  · intro t _ hnone hmem
    rw [heq, List.mem_filter] at hmem
    have : (getTorrentInfo net t).magnet = none := hnone
    rw [this] at hmem
    exact absurd hmem.2 (by decide)

/-! ## The rows of a result page -/

theorem parseTorrentRow_score (row : RawRow) (t : Torrent) (h : parseTorrentRow row = some t) :
    t.score = calculateScore t.seeders t.leechers t.quality ∧
      t.quality = extractQuality t.title ∧ t.magnet = none := by
  unfold parseTorrentRow at h
  by_cases h1 : (!row.hasNameCell) = true
  · rw [if_pos h1] at h; exact absurd h (by simp)
  · rw [if_neg h1] at h
    cases hh : row.linkHref with
    | none => rw [hh] at h; exact absurd h (by simp)
    | some detailPath =>
      rw [hh] at h
      dsimp only at h
      by_cases h2 : (trim row.linkText).data.isEmpty || detailPath.data.isEmpty
      · rw [if_pos h2] at h; exact absurd h (by simp)
      · rw [if_neg h2] at h
        have := Option.some.inj h
        rw [← this]
        exact ⟨rfl, rfl, rfl⟩

theorem searchTorrents_pages (pages : PageSource) (query category : String) :
    (searchTorrents pages.toNetwork query category).length ≤ maxSearchResults ∧
    ∀ t ∈ searchTorrents pages.toNetwork query category,
      t.score = calculateScore t.seeders t.leechers t.quality ∧
        t.quality = extractQuality t.title ∧ t.magnet = none := by
  unfold searchTorrents PageSource.toNetwork
  dsimp only
  rcases pages.fetchPage query category with e | rows
  · exact ⟨Nat.zero_le _, fun t ht => absurd ht (List.not_mem_nil t)⟩
  · dsimp only
    constructor
    · unfold parseRows
      refine le_trans (List.length_filterMap_le _ _) ?_
      rw [List.length_take]
      exact Nat.min_le_left _ _
    · intro t ht
      unfold parseRows at ht
      obtain ⟨row, _, hrow⟩ := List.mem_filterMap.1 ht
      exact parseTorrentRow_score row t hrow

/-- C30: the rows `searchTorrents` builds with `parseTorrentRow` carry the score
`2 * seeders + leechers + bonus`; `searchAndGetComplete` orders them by falling score,
resolves the link of the first ten only, and answers those of them that have a link, in that
order: at most ten candidates, each with a link, and none of those whose link resolved to
nothing. -/
theorem searchAndGetComplete_top_ten (pages : PageSource) (query type : String)
    (year season episode : Option Int) :
    (∀ t ∈ searchTorrents pages.toNetwork (searchRequest query type year season episode).1
        (searchRequest query type year season episode).2,
      t.score = calculateScore t.seeders t.leechers t.quality) ∧
    ∃ sorted : List Torrent,
      sorted.Perm (searchTorrents pages.toNetwork
        (searchRequest query type year season episode).1
        (searchRequest query type year season episode).2) ∧
      sorted.Pairwise (fun a b => calculateScore b.seeders b.leechers b.quality ≤
        calculateScore a.seeders a.leechers a.quality) ∧
      searchAndGetComplete pages.toNetwork query type year season episode =
        (((sorted.take 10).map (getTorrentInfo pages.toNetwork)).filter
          fun t => truthy t.magnet) ∧
      (searchAndGetComplete pages.toNetwork query type year season episode).length ≤ 10 ∧
      (∀ r ∈ searchAndGetComplete pages.toNetwork query type year season episode,
        truthy r.magnet = true ∧
          ∃ t ∈ sorted.take 10, r = getTorrentInfo pages.toNetwork t) ∧
      (searchAndGetComplete pages.toNetwork query type year season episode).Pairwise
        (fun a b => calculateScore b.seeders b.leechers b.quality ≤
          calculateScore a.seeders a.leechers a.quality) ∧
      ∀ t ∈ sorted.take 10, pages.getMagnetLink t.detailUrl = none →
        getTorrentInfo pages.toNetwork t ∉
          searchAndGetComplete pages.toNetwork query type year season episode :=
  ⟨fun t ht => ((searchTorrents_pages pages _ _).2 t ht).1,
    top_ten_of_scored_rows pages.toNetwork query type year season episode
      (fun t ht => ((searchTorrents_pages pages _ _).2 t ht).1)⟩

/-- C30 on a page of four rows: three give a record, and the second best of them has no
link. -/
theorem searchAndGetComplete_top_ten_witness :
    (searchTorrents samplePages.toNetwork "Film" "Movies").map
        (fun t => (t.title, t.seeders, t.leechers, t.quality, t.score)) =
      [("Film 720p", 30, 4, "720p", 264), ("Film 1080p", 10, 3, "1080p", 523),
        ("Film CAM", 300, 0, "CAM", 100)] ∧
    (searchAndGetComplete samplePages.toNetwork "Film" "movie" none none none).map
        (fun t => (t.title, t.score, t.magnet)) =
      [("Film 1080p", 523, some "magnet:?xt=https://1337x.to/torrent/3/film/"),
        ("Film CAM", 100, some "magnet:?xt=https://1337x.to/torrent/4/film/")] ∧
    (∀ t ∈ searchTorrents samplePages.toNetwork (searchRequest "Film" "movie" none none none).1
        (searchRequest "Film" "movie" none none none).2,
      t.score = calculateScore t.seeders t.leechers t.quality) :=
  ⟨by decide!, by decide!,
    (searchAndGetComplete_top_ten samplePages "Film" "movie" none none none).1⟩

/-! ## Markers under both letter cases -/

theorem prefix_flatMap_transfer (f g : Char → List Char) (h : Char → Char) (m : List Char)
    (hne : ∀ c, f c ≠ [])
    (hatom : ∀ c x, x ∈ m → x ∈ f c → f c = [x] ∧ g c = [h x]) :
    ∀ (m' s : List Char), (∀ x ∈ m', x ∈ m) → m' <+: s.flatMap f →
      m'.map h <+: s.flatMap g
  | [], _, _, _ => List.nil_prefix
  | y :: m'', [], _, hp => by
    have := hp.length_le
    simp at this
  | y :: m'', c :: s', hm, hp => by
    rw [List.flatMap_cons] at hp ⊢
    cases hfc : f c with
    | nil => exact absurd hfc (hne c)
    | cons z zs =>
      rw [hfc] at hp
      obtain ⟨t, ht⟩ := hp
      have hyz : y = z := by
        simp only [List.cons_append, List.cons.injEq] at ht
        exact ht.1
      have hy : y ∈ f c := by rw [hfc, hyz]; exact List.mem_cons_self _ _
      obtain ⟨h1, h2⟩ := hatom c y (hm y (List.mem_cons_self _ _)) hy
      rw [hfc] at h1
      have hzs : zs = [] := by
        simp only [List.cons.injEq] at h1
        exact h1.2
      subst hzs
      have hp' : m'' <+: s'.flatMap f := by
        refine ⟨t, ?_⟩
        simp only [List.cons_append, List.cons.injEq, List.nil_append] at ht
        exact ht.2
      have ih := prefix_flatMap_transfer f g h m hne hatom m'' s'
        (fun x hx => hm x (List.mem_cons_of_mem _ hx)) hp'
      rw [h2, List.map_cons]
      obtain ⟨u, hu⟩ := ih
      exact ⟨u, by simp [← hu]⟩

theorem infix_flatMap_transfer (f g : Char → List Char) (h : Char → Char) (m : List Char)
    (hne : ∀ c, f c ≠ [])
    (hatom : ∀ c x, x ∈ m → x ∈ f c → f c = [x] ∧ g c = [h x]) :
    ∀ s : List Char, m <:+: s.flatMap f → m.map h <:+: s.flatMap g
  | [], hi => by
    have : m = [] := by simpa using hi
    subst this
    exact List.nil_infix
  | c :: s', hi => by
    cases hm : m with
    | nil => exact List.nil_infix
    | cons y m'' =>
    have ih := infix_flatMap_transfer f g h m hne hatom s'
    obtain ⟨pre, post, hpp⟩ := hi
    rw [List.flatMap_cons, List.append_assoc] at hpp
    rw [← hm]
    rcases List.append_eq_append_iff.1 hpp with ⟨a', h1, h2⟩ | ⟨c', _, h2⟩
    · by_cases ha' : a' = []
      · subst ha'
        have : m <:+: s'.flatMap f := ⟨[], post, by simpa using h2⟩
        obtain ⟨u, v, huv⟩ := ih this
        exact ⟨g c ++ u, v, by rw [List.flatMap_cons, ← huv]; simp⟩
      · -- the occurrence starts inside the image of `c`
        obtain ⟨z, zs, hz⟩ := List.exists_cons_of_ne_nil ha'
        have hyz : y = z := by
          rw [hm, hz] at h2
          simp only [List.cons_append, List.cons.injEq] at h2
          exact h2.1
        have hy : y ∈ f c := by
          rw [h1, hz, hyz]; simp
        obtain ⟨e1, _⟩ := hatom c y (by rw [hm]; exact List.mem_cons_self _ _) hy
        have hpre : pre = [] := by
          have hl := congrArg List.length h1
          rw [e1, hz] at hl
          simp at hl
          exact List.length_eq_zero.1 (by omega)
        subst hpre
        have hpfx : m <+: (c :: s').flatMap f := ⟨post, by
          rw [List.flatMap_cons]; simpa using hpp⟩
        exact (prefix_flatMap_transfer f g h m hne hatom m (c :: s') (fun x hx => hx)
          hpfx).isInfix
    · -- the occurrence starts after the image of `c`
      have : m <:+: s'.flatMap f := ⟨c', post, by rw [List.append_assoc]; exact h2.symm⟩
      obtain ⟨u, v, huv⟩ := ih this
      exact ⟨g c ++ u, v, by rw [List.flatMap_cons, ← huv]; simp⟩

theorem toLowerChar_ne_nil (c : Char) : toLowerChar c ≠ [] := by
  unfold toLowerChar
  split_ifs <;> simp

theorem toLower_of_not_capital (c : Char) (h : ¬ (65 ≤ c.toNat ∧ c.toNat ≤ 90)) :
    c.toLower = c := by
  unfold Char.toLower
  simp only [ge_iff_le]
  rw [if_neg h]

theorem marker_2160p_atom (c x : Char) (hx : x ∈ ['2', '1', '6', '0', 'p'])
    (hxc : x ∈ toLowerChar c) :
    toLowerChar c = [x] ∧ toUpperChar c = [x.toUpper] := by
  by_cases hr : 65 ≤ c.toNat ∧ c.toNat ≤ 90
  · have hc : c = Char.ofNat c.toNat := (Char.ofNat_toNat c).symm
    obtain ⟨h1, h2⟩ := hr
    rw [hc] at hxc ⊢
    generalize c.toNat = n at *
    clear hc
    interval_cases n <;>
      (simp only [toLowerChar] at hxc
       revert hx
       revert hxc
       revert x
       decide)
  · unfold toLowerChar at hxc
    split_ifs at hxc with k1 k2
    · have : x = 'k' := by simpa using hxc
      subst this
      exact absurd hx (by decide)
    · have : x = 'i' ∨ x = Char.ofNat 0x307 := by simpa using hxc
      rcases this with rfl | rfl <;> exact absurd hx (by decide)
    · rw [toLower_of_not_capital c hr] at hxc
      have : x = c := by simpa using hxc
      subst this
      simp only [List.mem_cons, List.mem_singleton, List.not_mem_nil, or_false] at hx
      rcases hx with rfl | rfl | rfl | rfl | rfl <;> decide

theorem upper_2160P_of_lower_2160p (s : String)
    (h : includes (toLowerCase s) "2160p" = true) : includes (toUpperCase s) "2160P" = true := by
  unfold includes toLowerCase at h
  unfold includes toUpperCase
  rw [isInfixOf_iff] at h ⊢
  exact infix_flatMap_transfer toLowerChar toUpperChar Char.toUpper ['2', '1', '6', '0', 'p']
    toLowerChar_ne_nil marker_2160p_atom s.data h

theorem extractQuality_values (title : String) :
    extractQuality title ∈ ["2160p", "1080p", "720p", "480p", "CAM", "Unknown"] := by
  unfold extractQuality
  dsimp only
  split_ifs <;> decide

theorem extractQuality_eq_2160p (title : String) :
    extractQuality title = "2160p" ↔
      (includes (toUpperCase title) "2160P" || includes (toUpperCase title) "4K") = true := by
  unfold extractQuality
  dsimp only
  split_ifs <;> simp_all

theorem score_six_iff (t : Torrent) :
    getResolutionScore t = 6 ↔
      (includes (toLowerCase t.title) "4k" || includes (toLowerCase t.title) "2160p" ||
        includes (toLowerCase t.quality) "2160p") = true := by
  unfold getResolutionScore
  dsimp only
  split_ifs <;> simp_all

theorem mem_4K_qualityIndicators (t : Torrent) :
    "4K" ∈ qualityIndicators t ↔
      (includes t.quality "2160p" || includes (toLowerCase t.title) "4k") = true := by
  unfold qualityIndicators
  dsimp only
  split_ifs <;> simp_all

theorem createStreamFromTorrent_name (t : Torrent) (r : StreamRecord)
    (h : createStreamFromTorrent t = some r) : r.name = "1337x\n" ++ qualityBadge t := by
  unfold createStreamFromTorrent at h
  cases hm : t.magnet with
  | none => rw [hm] at h; exact absurd h (by simp)
  | some m =>
    rw [hm] at h
    dsimp only at h
    by_cases he : m.data.isEmpty = true
    · rw [if_pos he] at h; exact absurd h (by simp)
    · rw [if_neg he] at h
      have := Option.some.inj h
      rw [← this]
      rfl

theorem qualityIndicators_mem_sublists (t : Torrent) :
    qualityIndicators t ∈ ["4K", "HDR", "ATMOS", "REMUX"].sublists := by
  unfold qualityIndicators
  dsimp only
  split_ifs <;> decide

theorem badge_holds_4K_iff :
    ∀ indicators ∈ ["4K", "HDR", "ATMOS", "REMUX"].sublists,
      ∀ quality ∈ ["2160p", "1080p", "720p", "480p", "CAM", "Unknown"],
        ("4K" ∈ indicators ↔
          includes (if indicators.length > 0 then " ".intercalate indicators else quality) "4K"
            = true) := by
  decide

/-- C37: for a candidate whose quality tag is what `extractQuality` reads from its title,
`getResolutionScore` answers 6 exactly when the formatter detects the tag `4K`, which is
exactly when the badge of the stream contains `4K`; the name of the stream is `1337x`, a line
break and that badge. -/
theorem four_k_rank_iff_badge (t : Torrent) (hq : t.quality = extractQuality t.title) :
    (getResolutionScore t = 6 ↔ "4K" ∈ qualityIndicators t) ∧
    ("4K" ∈ qualityIndicators t ↔ includes (qualityBadge t) "4K" = true) ∧
    (∀ r, createStreamFromTorrent t = some r → r.name = "1337x\n" ++ qualityBadge t) := by
  have hv := extractQuality_values t.title
  rw [← hq] at hv
  have h2160 := extractQuality_eq_2160p t.title
  rw [← hq] at h2160
  have hinc : includes t.quality "2160p" = true ↔ t.quality = "2160p" := by
    simp only [List.mem_cons, List.mem_singleton, List.not_mem_nil, or_false] at hv
    rcases hv with h | h | h | h | h | h <;> rw [h] <;> decide
  have hincl : includes (toLowerCase t.quality) "2160p" = true ↔ t.quality = "2160p" := by
    simp only [List.mem_cons, List.mem_singleton, List.not_mem_nil, or_false] at hv
    rcases hv with h | h | h | h | h | h <;> rw [h] <;> decide
  refine ⟨?_, ?_, createStreamFromTorrent_name t⟩
  · rw [score_six_iff, mem_4K_qualityIndicators]
    simp only [Bool.or_eq_true, hinc, hincl]
    constructor
    · rintro ((h | h) | h)
      · exact Or.inr h
      · exact Or.inl (h2160.2 (by
          simp only [Bool.or_eq_true]
          exact Or.inl (upper_2160P_of_lower_2160p _ h)))
      · exact Or.inl h
    · rintro (h | h)
      · exact Or.inr h
      · exact Or.inl (Or.inl h)
  · exact badge_holds_4K_iff _ (qualityIndicators_mem_sublists t) _ hv

/-- C37 on a candidate whose title carries `2160p`. -/
theorem four_k_rank_iff_badge_witness :
    linkedTorrent.quality = extractQuality linkedTorrent.title ∧
    (getResolutionScore linkedTorrent = 6 ↔ "4K" ∈ qualityIndicators linkedTorrent) ∧
    ("4K" ∈ qualityIndicators linkedTorrent ↔
      includes (qualityBadge linkedTorrent) "4K" = true) ∧
    (∀ r, createStreamFromTorrent linkedTorrent = some r →
      r.name = "1337x\n" ++ qualityBadge linkedTorrent) :=
  ⟨by decide, four_k_rank_iff_badge linkedTorrent (by decide)⟩

/-! ## Balancing a ranked list -/

theorem sorted_split {α : Type} (sc : α → Nat) (k : Nat) :
    ∀ l : List α, l.Pairwise (fun a b => sc b ≤ sc a) →
      l = l.filter (fun t => decide (k ≤ sc t)) ++ l.filter (fun t => decide (sc t < k))
  | [], _ => rfl
  | a :: l, hp => by
    rw [List.pairwise_cons] at hp
    have ih := sorted_split sc k l hp.2
    by_cases ha : k ≤ sc a
    · rw [List.filter_cons_of_pos (by simpa using ha),
        List.filter_cons_of_neg (by simpa using ha), List.cons_append, ← ih]
    · have hall : ∀ t ∈ a :: l, sc t < k := by
        intro t ht
        rcases List.mem_cons.1 ht with rfl | ht
        · omega
        · have := hp.1 t ht; omega
      have h1 : (a :: l).filter (fun t => decide (k ≤ sc t)) = [] := by
        rw [List.filter_eq_nil_iff]
        intro t ht
        have := hall t ht
        simp only [decide_eq_true_eq]; omega
      have h2 : (a :: l).filter (fun t => decide (sc t < k)) = a :: l := by
        rw [List.filter_eq_self]
        intro t ht
        simpa using hall t ht
      rw [h1, h2, List.nil_append]

theorem filter_eq_of_filter_lt {α : Type} (sc : α → Nat) (k s : Nat) (hs : s < k)
    (l : List α) :
    (l.filter (fun t => decide (sc t < k))).filter (fun t => decide (sc t = s)) =
      l.filter (fun t => decide (sc t = s)) := by
  rw [List.filter_filter]
  apply List.filter_congr
  intro t _
  by_cases h : sc t = s
  · simp [h, hs]
  · simp [h]

theorem buckets_sublist {α : Type} (sc : α → Nat) (cap : Nat) :
    ∀ ks : List Nat, ks.Pairwise (fun a b => b < a) →
      ∀ l : List α, l.Pairwise (fun a b => sc b ≤ sc a) →
        List.Sublist (ks.flatMap fun s => (l.filter (fun t => decide (sc t = s))).take cap) l
  | [], _, l, _ => by simp
  | k :: ks, hks, l, hp => by
    rw [List.pairwise_cons] at hks
    have hsplit := sorted_split sc k l hp
    have hp' : (l.filter (fun t => decide (sc t < k))).Pairwise (fun a b => sc b ≤ sc a) :=
      hp.sublist (List.filter_sublist _)
    have ih := buckets_sublist sc cap ks hks.2 _ hp'
    have hrest : (ks.flatMap fun s =>
          ((l.filter (fun t => decide (sc t < k))).filter (fun t => decide (sc t = s))).take cap)
        = ks.flatMap fun s => (l.filter (fun t => decide (sc t = s))).take cap := by
      apply List.flatMap_congr
      intro s hs
      rw [filter_eq_of_filter_lt sc k s (hks.1 s hs)]
    rw [hrest] at ih
    have hhead : List.Sublist ((l.filter (fun t => decide (sc t = k))).take cap)
        (l.filter (fun t => decide (k ≤ sc t))) := by
      refine (List.take_sublist _ _).trans ?_
      have : l.filter (fun t => decide (sc t = k)) =
          (l.filter (fun t => decide (k ≤ sc t))).filter (fun t => decide (sc t = k)) := by
        rw [List.filter_filter]
        apply List.filter_congr
        intro t _
        by_cases h : sc t = k
        · simp [h]
        · simp [h]
      rw [this]
      exact List.filter_sublist _
    rw [List.flatMap_cons]
    conv_rhs => rw [hsplit]
    exact hhead.append ih

theorem buckets_eq_self {α : Type} (sc : α → Nat) :
    ∀ ks : List Nat, ks.Pairwise (fun a b => b < a) →
      ∀ l : List α, l.Pairwise (fun a b => sc b ≤ sc a) → (∀ t ∈ l, sc t ∈ ks) →
        (ks.flatMap fun s => l.filter (fun t => decide (sc t = s))) = l
  | [], _, l, _, hm => by
    cases l with
    | nil => rfl
    | cons a l => exact absurd (hm a (List.mem_cons_self _ _)) (by simp)
  | k :: ks, hks, l, hp, hm => by
    rw [List.pairwise_cons] at hks
    have hsplit := sorted_split sc k l hp
    have hp' : (l.filter (fun t => decide (sc t < k))).Pairwise (fun a b => sc b ≤ sc a) :=
      hp.sublist (List.filter_sublist _)
    have hm' : ∀ t ∈ l.filter (fun t => decide (sc t < k)), sc t ∈ ks := by
      intro t ht
      obtain ⟨h1, h2⟩ := List.mem_filter.1 ht
      have h2' : sc t < k := by simpa using h2
      rcases List.mem_cons.1 (hm t h1) with h | h
      · omega
      · exact h
    have ih := buckets_eq_self sc ks hks.2 _ hp' hm'
    have hrest : (ks.flatMap fun s =>
          (l.filter (fun t => decide (sc t < k))).filter (fun t => decide (sc t = s)))
        = ks.flatMap fun s => l.filter (fun t => decide (sc t = s)) := by
      apply List.flatMap_congr
      intro s hs
      rw [filter_eq_of_filter_lt sc k s (hks.1 s hs)]
    rw [hrest] at ih
    have hhead : l.filter (fun t => decide (sc t = k)) =
        l.filter (fun t => decide (k ≤ sc t)) := by
      apply List.filter_congr
      intro t ht
      rcases List.mem_cons.1 (hm t ht) with h | h
      · simp [h]
      · have := hks.1 _ h
        have h1 : ¬ sc t = k := by omega
        have h2 : ¬ k ≤ sc t := by omega
        simp [h1, h2]
    rw [List.flatMap_cons, ih, hhead]
    exact hsplit.symm

theorem score_mem_levels (t : Torrent) : getResolutionScore t ∈ [6, 5, 4, 3, 2, 1] := by
  unfold getResolutionScore
  dsimp only
  split_ifs <;> decide

theorem balance_sublist_of_sorted (l : List Torrent) (cap : Nat)
    (hp : l.Pairwise (fun a b => getResolutionScore b ≤ getResolutionScore a)) :
    List.Sublist (balanceStreamsByResolution l cap) l := by
  rw [balance_eq_flatMap]
  exact buckets_sublist getResolutionScore cap [6, 5, 4, 3, 2, 1] (by decide) l hp

theorem balance_eq_self_of_sorted (l : List Torrent) (cap : Nat)
    (hp : l.Pairwise (fun a b => getResolutionScore b ≤ getResolutionScore a))
    (hcap : ∀ s, (l.filter (fun t => decide (getResolutionScore t = s))).length ≤ cap) :
    balanceStreamsByResolution l cap = l := by
  rw [balance_eq_flatMap]
  have : ([6, 5, 4, 3, 2, 1].flatMap fun s =>
        (l.filter (fun t => decide (getResolutionScore t = s))).take cap) =
      [6, 5, 4, 3, 2, 1].flatMap fun s => l.filter (fun t => decide (getResolutionScore t = s)) := by
    apply List.flatMap_congr
    intro s _
    exact List.take_of_length_le (hcap s)
  rw [this]
  exact buckets_eq_self getResolutionScore [6, 5, 4, 3, 2, 1] (by decide) l hp
    (fun t _ => score_mem_levels t)

theorem balance_pairwise_score (l : List Torrent) (cap : Nat) :
    (balanceStreamsByResolution l cap).Pairwise
      (fun a b => getResolutionScore b ≤ getResolutionScore a) := by
  rw [balance_eq_flatMap, List.pairwise_flatMap]
  constructor
  · intro s _
    rw [List.pairwise_iff_forall_sublist]
    intro a b hab
    have ha := List.mem_of_mem_take (hab.subset (List.mem_cons_self _ _))
    have hb := List.mem_of_mem_take
      (hab.subset (List.mem_cons_of_mem _ (List.mem_cons_self _ _)))
    have ha' : getResolutionScore a = s := by simpa using (List.mem_filter.1 ha).2
    have hb' : getResolutionScore b = s := by simpa using (List.mem_filter.1 hb).2
    omega
  · have hlev : [6, 5, 4, 3, 2, 1].Pairwise (fun a b : Nat => b < a) := by decide
    refine hlev.imp ?_
    intro s1 s2 h12 x hx y hy
    have hx' : getResolutionScore x = s1 := by
      simpa using (List.mem_filter.1 (List.mem_of_mem_take hx)).2
    have hy' : getResolutionScore y = s2 := by
      simpa using (List.mem_filter.1 (List.mem_of_mem_take hy)).2
    omega

theorem balance_bucket_length_le (l : List Torrent) (cap s : Nat) :
    ((balanceStreamsByResolution l cap).filter
      (fun t => decide (getResolutionScore t = s))).length ≤ cap := by
  rw [← List.countP_eq_length_filter, balance_eq_flatMap]
  simp only [List.flatMap_cons, List.flatMap_nil, List.countP_append, List.countP_nil]
  have h6 := countP_take_filter_le l cap s 6
  have h5 := countP_take_filter_le l cap s 5
  have h4 := countP_take_filter_le l cap s 4
  have h3 := countP_take_filter_le l cap s 3
  have h2 := countP_take_filter_le l cap s 2
  have h1 := countP_take_filter_le l cap s 1
  split_ifs at h6 h5 h4 h3 h2 h1 <;> omega

theorem sortTorrents_pairwise_rankKeyGe (l : List Torrent)
    (h : ∀ t ∈ l, (parseSize (some t.size)).isNumber = true) :
    (sortTorrents l).Pairwise (fun a b => rankKeyGe a b = true) := by
  unfold sortTorrents jsSort
  apply pairwise_insertionSort_of
  · exact rankKeyGe_trans
  · intro a ha b hb hab
    exact rankKeyGe_of_compare a b (h a ha) (h b hb) hab
  · intro a ha b hb hab
    exact rankKeyGe_of_not_compare a b (h a ha) (h b hb) hab

/-- C35: when every size text parses to a number, the balanced form of the ranked list, for
every cap, is a sub-list of the ranked list, and the key (resolution score, seeders, parsed
size) of each of its candidates is greater than or equal to the key of every candidate after
it. -/
theorem balance_keeps_rank_order (l : List Torrent) (k : Nat)
    (h : ∀ t ∈ l, (parseSize (some t.size)).isNumber = true) :
    List.Sublist (balanceStreamsByResolution (sortTorrents l) k) (sortTorrents l) ∧
    (balanceStreamsByResolution (sortTorrents l) k).Pairwise
      (fun a b => rankKeyGe a b = true) := by
  have hsub := balance_sublist_of_sorted (sortTorrents l) k (sortTorrents_pairwise_score l)
  exact ⟨hsub, (sortTorrents_pairwise_rankKeyGe l h).sublist hsub⟩

/-- C36: balancing a balanced list with the same cap changes nothing; and a list that is
ordered by falling resolution score and holds at most `k` candidates of each score is its own
balanced form for the cap `k`. -/
theorem balance_idempotent (l : List Torrent) (k : Nat) :
    balanceStreamsByResolution (balanceStreamsByResolution l k) k =
      balanceStreamsByResolution l k ∧
    (l.Pairwise (fun a b => getResolutionScore b ≤ getResolutionScore a) →
      (∀ s, (l.filter (fun t => decide (getResolutionScore t = s))).length ≤ k) →
      balanceStreamsByResolution l k = l) :=
  ⟨balance_eq_self_of_sorted _ k (balance_pairwise_score l k)
      (fun s => balance_bucket_length_le l k s),
    balance_eq_self_of_sorted l k⟩

/-- C35 on three search result rows with cap 1. -/
theorem balance_keeps_rank_order_witness :
    (∀ t ∈ scoredRows, (parseSize (some t.size)).isNumber = true) ∧
    List.Sublist (balanceStreamsByResolution (sortTorrents scoredRows) 1)
      (sortTorrents scoredRows) ∧
    (balanceStreamsByResolution (sortTorrents scoredRows) 1).Pairwise
      (fun a b => rankKeyGe a b = true) :=
  ⟨by decide!, balance_keeps_rank_order scoredRows 1 (by decide!)⟩

/-- C36 on three search result rows with cap 1, and on an ordered list of two candidates
with cap 3. -/
theorem balance_idempotent_witness :
    balanceStreamsByResolution (balanceStreamsByResolution scoredRows 1) 1 =
      balanceStreamsByResolution scoredRows 1 ∧
    [linkedTorrent, unsizedTorrent].Pairwise
      (fun a b => getResolutionScore b ≤ getResolutionScore a) ∧
    balanceStreamsByResolution [linkedTorrent, unsizedTorrent] 3 =
      [linkedTorrent, unsizedTorrent] :=
  ⟨(balance_idempotent scoredRows 1).1, by decide,
    (balance_idempotent [linkedTorrent, unsizedTorrent] 3).2 (by decide)
      (fun _ => le_trans (List.length_filter_le _ _) (by decide))⟩

/-! ## The comparator as an order -/

theorem isFinite_eq_fin (x : JSNum) (h : x.isFinite = true) : ∃ q, x = JSNum.fin q := by
  cases x with
  | fin q => exact ⟨q, rfl⟩
  | nan => exact absurd h (by decide)
  | ninf => exact absurd h (by decide)
  | pinf => exact absurd h (by decide)

theorem compareTorrents_fin (a b : Torrent) (x y : ℚ)
    (ha : parseSize (some a.size) = JSNum.fin x) (hb : parseSize (some b.size) = JSNum.fin y) :
    compareTorrents a b =
      JSNum.fin (if getResolutionScore a ≠ getResolutionScore b then
          (getResolutionScore b : ℚ) - (getResolutionScore a : ℚ)
        else if a.seeders ≠ b.seeders then (b.seeders : ℚ) - (a.seeders : ℚ)
        else y - x) := by
  unfold compareTorrents
  simp only [comparator_score_eq, ha, hb]
  split_ifs <;> rfl

/-- C32 (amended): for candidates whose size text parses to a finite number, the comparator
gives 0 for a candidate against itself, `compare(a, b)` is the negation of `compare(b, a)`,
so their signs are opposite or both 0, and `compare(a, b) <= 0` with `compare(b, c) <= 0`
gives `compare(a, c) <= 0`. -/
theorem comparator_total_preorder (a b c : Torrent)
    (ha : (parseSize (some a.size)).isFinite = true)
    (hb : (parseSize (some b.size)).isFinite = true)
    (hc : (parseSize (some c.size)).isFinite = true) :
    compareTorrents a a = JSNum.fin 0 ∧
    compareTorrents a b = (compareTorrents b a).neg ∧
    (compareTorrents a b).sign = -(compareTorrents b a).sign ∧
    (JSNum.le (compareTorrents a b) (JSNum.fin 0) = true →
      JSNum.le (compareTorrents b c) (JSNum.fin 0) = true →
      JSNum.le (compareTorrents a c) (JSNum.fin 0) = true) := by
  obtain ⟨x, hx⟩ := isFinite_eq_fin _ ha
  obtain ⟨y, hy⟩ := isFinite_eq_fin _ hb
  obtain ⟨z, hz⟩ := isFinite_eq_fin _ hc
  rw [compareTorrents_fin a a x x hx hx, compareTorrents_fin a b x y hx hy,
    compareTorrents_fin b a y x hy hx, compareTorrents_fin b c y z hy hz,
    compareTorrents_fin a c x z hx hz]
  have hneg : (if getResolutionScore a ≠ getResolutionScore b then
        (getResolutionScore b : ℚ) - (getResolutionScore a : ℚ)
      else if a.seeders ≠ b.seeders then (b.seeders : ℚ) - (a.seeders : ℚ)
      else y - x) =
      -(if getResolutionScore b ≠ getResolutionScore a then
        (getResolutionScore a : ℚ) - (getResolutionScore b : ℚ)
      else if b.seeders ≠ a.seeders then (a.seeders : ℚ) - (b.seeders : ℚ)
      else x - y) := by
    by_cases h1 : getResolutionScore a = getResolutionScore b
    · by_cases h2 : a.seeders = b.seeders
      · simp [h1, h2]
      · simp [h1, h2, Ne.symm h2]
    · simp [h1, Ne.symm h1]
  refine ⟨by simp, ?_, ?_, ?_⟩
  · rw [hneg]; rfl
  · rw [hneg]
    generalize (if getResolutionScore b ≠ getResolutionScore a then
        (getResolutionScore a : ℚ) - (getResolutionScore b : ℚ)
      else if b.seeders ≠ a.seeders then (a.seeders : ℚ) - (b.seeders : ℚ)
      else x - y) = q
    show (if -q < 0 then (-1 : Int) else if 0 < -q then 1 else 0) =
      -(if q < 0 then (-1 : Int) else if 0 < q then 1 else 0)
    split_ifs <;> first | rfl | (exfalso; linarith)
  · simp only [JSNum.le, decide_eq_true_eq]
    intro h1 h2
    split_ifs at h1 h2 ⊢ <;>
      simp only [sub_nonpos, Nat.cast_le, Int.cast_le] at h1 h2 ⊢ <;>
      first
        | omega
        | linarith

/-- C32 on three candidates with the sizes `11.2 GB`, `2.1 GB` and `900 MB`. -/
theorem comparator_total_preorder_witness :
    (parseSize (some linkedTorrent.size)).isFinite = true ∧
    compareTorrents linkedTorrent linkedTorrent = JSNum.fin 0 ∧
    compareTorrents linkedTorrent
        ⟨"Film 1080p", "/torrent/3/film/", 10, 3, "2.1 GB", "up", "1080p", 523, none⟩ =
      (compareTorrents ⟨"Film 1080p", "/torrent/3/film/", 10, 3, "2.1 GB", "up", "1080p", 523, none⟩
        linkedTorrent).neg ∧
    (compareTorrents linkedTorrent
        ⟨"Film 1080p", "/torrent/3/film/", 10, 3, "2.1 GB", "up", "1080p", 523, none⟩).sign =
      -(compareTorrents ⟨"Film 1080p", "/torrent/3/film/", 10, 3, "2.1 GB", "up", "1080p", 523, none⟩
        linkedTorrent).sign ∧
    (JSNum.le (compareTorrents linkedTorrent
        ⟨"Film 1080p", "/torrent/3/film/", 10, 3, "2.1 GB", "up", "1080p", 523, none⟩)
        (JSNum.fin 0) = true →
      JSNum.le (compareTorrents
        ⟨"Film 1080p", "/torrent/3/film/", 10, 3, "2.1 GB", "up", "1080p", 523, none⟩
        ⟨"Film 720p", "/torrent/2/film/", 30, 4, "900 MB", "up", "720p", 264, none⟩)
        (JSNum.fin 0) = true →
      JSNum.le (compareTorrents linkedTorrent
        ⟨"Film 720p", "/torrent/2/film/", 30, 4, "900 MB", "up", "720p", 264, none⟩)
        (JSNum.fin 0) = true) :=
  ⟨by decide!, comparator_total_preorder linkedTorrent
    ⟨"Film 1080p", "/torrent/3/film/", 10, 3, "2.1 GB", "up", "1080p", 523, none⟩
    ⟨"Film 720p", "/torrent/2/film/", 30, 4, "900 MB", "up", "720p", 264, none⟩
    (by decide!) (by decide!) (by decide!)⟩

/-- C32, counterexample: the size text `N/A` parses to `NaN`, so the comparator gives `NaN`
for the candidate against itself, which is neither 0 nor `<= 0`. -/
theorem comparator_nan_on_unparsed_size :
    parseSize (some unsizedTorrent.size) = JSNum.nan ∧
    compareTorrents unsizedTorrent unsizedTorrent = JSNum.nan ∧
    compareTorrents unsizedTorrent unsizedTorrent ≠ JSNum.fin 0 ∧
    JSNum.le (compareTorrents unsizedTorrent unsizedTorrent) (JSNum.fin 0) = false := by
  decide!

/-! ## The three resolution helpers -/

/-- C34: the score read from the label of a candidate is its resolution score, the helper
declared inside the comparator gives the same score, two candidates have the same label
exactly when they have the same score, and the group of a label in the balancing holds the
candidates of the list that have that score. -/
theorem resolution_helpers_agree (t u : Torrent) (l : List Torrent) :
    getResolutionScoreFromLabel (getResolutionLabel t) = getResolutionScore t ∧
    Comparator.getResolutionScore t = getResolutionScore t ∧
    (getResolutionLabel t = getResolutionLabel u ↔
      getResolutionScore t = getResolutionScore u) ∧
    ((groupByResolution l).lookup (getResolutionLabel t)).getD [] =
      l.filter (fun x => decide (getResolutionScore x = getResolutionScore t)) := by
  have hiff : ∀ x : Torrent, getResolutionLabel x = getResolutionLabel t ↔
      getResolutionScore x = getResolutionScore t := by
    intro x
    rw [label_eq_iff_score x _ (label_mem_allLabels t), score_of_label]
  refine ⟨score_of_label t, comparator_score_eq t, ?_, ?_⟩
  · rw [label_eq_iff_score t _ (label_mem_allLabels u), score_of_label]
  · rw [lookup_groupByResolution]
    apply List.filter_congr
    intro x _
    simp only [hiff x]

/-! ## A series without a year -/

/-- C33, evaluated at the identifier `tt0000002:1:2` whose metadata has the year `N/A`: the
series is neither sports nor anime, the year of the metadata is `null`, and the second
variation, which the handler searches for, is `Some Show null S01E02`. -/
theorem series_without_year_prints_null :
    (formatForSearch ⟨"Some Show", "N/A", "series"⟩).year = none ∧
    (parseStreamId noYearLookup 2026 "tt0000002:1:2").isAnime = false ∧
    (parseStreamId noYearLookup 2026 "tt0000002:1:2").isWWE = false ∧
    (parseStreamId noYearLookup 2026 "tt0000002:1:2").searchVariations =
      some ["Some Show S01E02", "Some Show null S01E02", "Some.Show S01E02", "Some Show"] ∧
    searchesIssued downNetwork "series"
        (parseStreamId noYearLookup 2026 "tt0000002:1:2").toParseResult =
      ["Some Show S01E02", "Some Show null S01E02", "Some.Show S01E02", "Some Show"] := by
  decide

/-! ## Failures of the collaborators -/

theorem parseStreamId_absorb (lookup : String → Except String (Option OmdbData))
    (currentYear : Nat) (id : String) :
    parseStreamId lookup currentYear id =
      parseStreamId (fun i => match lookup i with
        | Except.error _ => Except.ok none
        | r => r) currentYear id := by
  unfold parseStreamId
  dsimp only
  split_ifs with h1
  · rcases lookup id with e | v
    · rfl
    · cases v <;> rfl
  · rcases splitColon id with _ | ⟨part0, _ | ⟨part1, more⟩⟩
    · rfl
    · rfl
    · dsimp only
      split_ifs
      · rcases lookup part0 with e | v
        · rfl
        · cases v <;> rfl
      · rfl

theorem searchAndGetComplete_absorb (net : Network) (query type : String)
    (year season episode : Option Int) :
    searchAndGetComplete net query type year season episode =
      searchAndGetComplete
        ⟨fun q c => match net.fetchRows q c with
          | Except.error _ => Except.ok []
          | r => r, net.getMagnetLink⟩ query type year season episode := by
  have hs : ∀ q c, searchTorrents net q c =
      searchTorrents ⟨fun q c => match net.fetchRows q c with
          | Except.error _ => Except.ok []
          | r => r, net.getMagnetLink⟩ q c := by
    intro q c
    unfold searchTorrents
    dsimp only
    rcases net.fetchRows q c with e | v <;> rfl
  rw [searchAndGetComplete_eq, searchAndGetComplete_eq, hs]
  rfl

theorem mapM_error {α β : Type} (f : α → Except String β) :
    ∀ l : List α, (∃ t ∈ l, ∃ e, f t = Except.error e) → ∃ e, l.mapM f = Except.error e
  | [], h => by
    obtain ⟨t, ht, _⟩ := h
    exact absurd ht (List.not_mem_nil t)
  | a :: l, h => by
    rw [List.mapM_cons]
    cases ha : f a with
    | error e => exact ⟨e, rfl⟩
    | ok b =>
      obtain ⟨t, ht, e, he⟩ := h
      rcases List.mem_cons.1 ht with rfl | ht
      · rw [ha] at he; exact absurd he (by simp)
      · obtain ⟨e', he'⟩ := mapM_error f l ⟨t, ht, e, he⟩
        exact ⟨e', by rw [he']; rfl⟩

theorem tryVariations_nil (search : String → List Torrent) (h : ∀ v, search v = []) :
    ∀ l : List String, tryVariations search l = []
  | [] => rfl
  | v :: l => by
    unfold tryVariations
    simp only [h v, List.length_nil, gt_iff_lt, lt_self_iff_false, if_false,
      tryVariations_nil search h l, ite_self]

theorem findTorrents_nil (search : String → List Torrent) (h : ∀ v, search v = [])
    (type : String) (p : ParseResult) (q : String) : findTorrents search type p q = [] := by
  unfold findTorrents
  dsimp only
  split_ifs
  · exact tryVariations_nil search h _
  · exact tryVariations_nil search h _
  · exact h q

/-- C31 (amended): the handler answers a list of streams whatever the collaborators do. A
lookup that throws is handled like a lookup that finds nothing and a search that throws like
a search without rows; the list is empty when every search request throws, and when the
result formatter throws on a balanced candidate. -/
theorem handler_absorbs_failures (cachedResult : Option (List StreamRecord))
    (createStream : Torrent → Except String (Option StreamRecord))
    (lookup : String → Except String (Option OmdbData)) (currentYear : Nat) (net : Network)
    (type id : String) :
    streamHandler cachedResult createStream lookup currentYear net type id =
      streamHandler cachedResult createStream
        (fun i => match lookup i with
          | Except.error _ => Except.ok none
          | r => r)
        currentYear
        ⟨fun q c => match net.fetchRows q c with
          | Except.error _ => Except.ok []
          | r => r, net.getMagnetLink⟩
        type id ∧
    ((∀ q c, ∃ e, net.fetchRows q c = Except.error e) →
      streamHandler none createStream lookup currentYear net type id = []) ∧
    (∀ q, (parseStreamId lookup currentYear id).searchQuery = some q →
      (∃ t ∈ balanceStreamsByResolution (sortTorrents (findTorrents
          (fun v => searchAndGetComplete net v type
            (parseStreamId lookup currentYear id).toParseResult.year
            (parseStreamId lookup currentYear id).toParseResult.season
            (parseStreamId lookup currentYear id).toParseResult.episode)
          type (parseStreamId lookup currentYear id).toParseResult q)) 3,
        ∃ e, createStream t = Except.error e) →
      streamHandler none createStream lookup currentYear net type id = []) := by
  refine ⟨?_, ?_, ?_⟩
  · unfold streamHandler
    cases cachedResult with
    | some streams => rfl
    | none =>
      dsimp only
      rw [← parseStreamId_absorb]
      unfold handleParsed
      have : (fun q => searchAndGetComplete net q type
            (parseStreamId lookup currentYear id).toParseResult.year
            (parseStreamId lookup currentYear id).toParseResult.season
            (parseStreamId lookup currentYear id).toParseResult.episode) =
          (fun q => searchAndGetComplete
            ⟨fun q c => match net.fetchRows q c with
              | Except.error _ => Except.ok []
              | r => r, net.getMagnetLink⟩ q type
            (parseStreamId lookup currentYear id).toParseResult.year
            (parseStreamId lookup currentYear id).toParseResult.season
            (parseStreamId lookup currentYear id).toParseResult.episode) := by
        funext q
        exact searchAndGetComplete_absorb net q type _ _ _
      rw [this]
  · intro hfail
    unfold streamHandler handleParsed
    dsimp only
    cases (parseStreamId lookup currentYear id).toParseResult.searchQuery with
    | none => rfl
    | some q =>
      dsimp only
      rw [findTorrents_nil _ (fun v => searchAndGetComplete_of_fail net v type _ _ _
        (hfail _ _))]
      split_ifs <;> rfl
  · intro q hq hex
    have hq' : (parseStreamId lookup currentYear id).toParseResult.searchQuery = some q := hq
    unfold streamHandler handleParsed
    dsimp only
    rw [hq']
    dsimp only
    obtain ⟨e, he⟩ := mapM_error createStream _ hex
    rw [he]
    split_ifs <;> rfl

/-- C31 on `tt0111161` with a lookup that throws: no stream when every request of the
network fails, and none when the formatter throws on the candidates found. -/
theorem handler_absorbs_failures_witness :
    streamHandler none createStream throwingLookup 2026 downNetwork "movie" "tt0111161" = [] ∧
    streamHandler none throwingFormatter throwingLookup 2026 scoredNetwork "movie" "tt0111161"
      = [] :=
  ⟨(handler_absorbs_failures none createStream throwingLookup 2026 downNetwork "movie"
      "tt0111161").2.1 (fun _ _ => ⟨_, rfl⟩),
    (handler_absorbs_failures none throwingFormatter throwingLookup 2026 scoredNetwork "movie"
      "tt0111161").2.2 "The Shawshank Redemption" (by decide!)
      ⟨⟨"Film 1080p", "/torrent/3/film/", 10, 3, "2.1 GB", "up", "1080p", 523,
          some "magnet:?xt=/torrent/3/film/"⟩, by decide!, _, rfl⟩⟩

/-- C31, counterexample: the lookup of `tt0111161` throws, the title is taken from the static
table, the search finds rows, and the handler answers two streams. -/
theorem failed_lookup_still_yields_streams :
    throwingLookup "tt0111161" = Except.error "timeout of 10000ms exceeded" ∧
    (streamHandler none createStream throwingLookup 2026 scoredNetwork "movie"
        "tt0111161").map StreamRecord.url =
      ["magnet:?xt=/torrent/3/film/", "magnet:?xt=/torrent/4/film/"] :=
  ⟨rfl, by decide!⟩

/-! ## Stability -/

/-- C4 (amended): for every candidate list whose size texts parse to numbers, and for every
key (resolution score, seeders, parsed size), the candidates having that key stand in the
ranked list in the order they have in the input; the ranked list is then ordered by the
key, which makes it the one order the comparator allows. -/
theorem sortTorrents_stable (l : List Torrent) (k : Nat × Int × JSNum)
    (h : ∀ t ∈ l, (parseSize (some t.size)).isNumber = true) :
    (sortTorrents l).filter (fun t => decide (rankKey t = k)) =
      l.filter (fun t => decide (rankKey t = k)) ∧
    (sortTorrents l).Pairwise (fun a b => rankKeyGe a b = true) := by
  refine ⟨?_, sortTorrents_pairwise_rankKeyGe l h⟩
  have hsub : List.Sublist (l.filter (fun t => decide (rankKey t = k))) (sortTorrents l) := by
    unfold sortTorrents jsSort
    apply List.sublist_insertionSort
    · rw [List.pairwise_iff_forall_sublist]
      intro a b hab
      have ha := hab.subset (List.mem_cons_self _ _)
      have hb := hab.subset (List.mem_cons_of_mem _ (List.mem_cons_self _ _))
      have ha' : rankKey a = k := by simpa using (List.mem_filter.1 ha).2
      have hb' : rankKey b = k := by simpa using (List.mem_filter.1 hb).2
      exact compareTorrents_sign_of_key_eq a b (ha'.trans hb'.symm)
    · exact List.filter_sublist _
  have hsub2 := hsub.filter (fun t => decide (rankKey t = k))
  rw [List.filter_filter] at hsub2
  simp only [Bool.and_self] at hsub2
  have hlen : ((sortTorrents l).filter (fun t => decide (rankKey t = k))).length =
      (l.filter (fun t => decide (rankKey t = k))).length :=
    ((perm_jsSort compareTorrents l).filter _).length_eq
  exact (hsub2.eq_of_length hlen.symm).symm

/-- C4 on seven candidates that differ in size only, two of them with the same size. -/
theorem sortTorrents_stable_witness :
    (∀ t ∈ parsedSizes, (parseSize (some t.size)).isNumber = true) ∧
    (sortTorrents parsedSizes).filter
        (fun t => decide (rankKey t = rankKey (sizedCandidate "/a1" "20 MB"))) =
      parsedSizes.filter
        (fun t => decide (rankKey t = rankKey (sizedCandidate "/a1" "20 MB"))) ∧
    (sortTorrents parsedSizes).Pairwise (fun a b => rankKeyGe a b = true) :=
  ⟨by decide!, sortTorrents_stable parsedSizes (rankKey (sizedCandidate "/a1" "20 MB"))
    (by decide!)⟩

/-- C4, counterexample: `/a1` and `/b1` have equal keys and `/na` has a size text that parses
to `NaN`. The comparator then puts `/a1` level with `/na` and `/na` level with `/10`, yet
`/a1` before `/10`: it is not consistent and the order is left to the runtime. Binary
insertion returns `/b1` ahead of `/a1`, the stable insertion of `jsSort` keeps `/a1` first;
without `/na` the two procedures return the same list. -/
theorem unparsed_size_unsettles_order :
    rankKey (sizedCandidate "/a1" "20 MB") = rankKey (sizedCandidate "/b1" "20 MB") ∧
    parseSize (some (sizedCandidate "/na" "N/A").size) = JSNum.nan ∧
    (compareTorrents (sizedCandidate "/a1" "20 MB") (sizedCandidate "/na" "N/A")).sign = 0 ∧
    (compareTorrents (sizedCandidate "/na" "N/A") (sizedCandidate "/10" "10 MB")).sign = 0 ∧
    (compareTorrents (sizedCandidate "/a1" "20 MB") (sizedCandidate "/10" "10 MB")).sign = -1 ∧
    (binaryInsertionSort compareTorrents mixedSizes).map (fun t => t.detailUrl) =
      ["/50", "/40", "/30", "/b1", "/10", "/na", "/a1", "/5"] ∧
    (sortTorrents mixedSizes).map (fun t => t.detailUrl) =
      ["/50", "/40", "/30", "/10", "/na", "/a1", "/b1", "/5"] ∧
    binaryInsertionSort compareTorrents parsedSizes = sortTorrents parsedSizes ∧
    (sortTorrents parsedSizes).map (fun t => t.detailUrl) =
      ["/50", "/40", "/30", "/a1", "/b1", "/10", "/5"] := by
  decide!

end Stream
